import Mathlib

/-!
# Crazyradio firmware: `firmware/src/main.c`

A shallow embedding of the protocol multiplexer of `main.c`: the vendor-request
dispatcher `handleUsbVendorSetup`, the legacy engine `legacyRun`, the
structured-command engine `cmdRun`, and the mode dispatch of `main`.

Conventions of the embedding.

* Every C integer is an `Int`.  The target is the 8051 (SDCC): `int` has 16 bits,
  and every `int` expression of `main.c` stays far inside that range, so `int`
  arithmetic is exact.  A store into a `char` object truncates to 8 bits
  (`charVal`), a store into an `unsigned char` / `uint8_t` object is `toByte`.
* Plain `char` has implementation-defined signedness.  The parameter `sc : Bool`
  of the definitions is `true` when plain `char` is signed, which is the case for
  SDCC 3.2, the compiler that the header comment of `main.c` imposes.
* A buffer is a map from offsets to bytes (`Mem`); offsets past the declared
  size are the `__xdata` bytes that follow the array, so that a read past the
  end is expressible and is visible in the trace.
* The radio driver, the USB driver and the LED driver are external: every call
  into them is recorded as an `Event`, and what the radio driver returns is
  supplied by an oracle (`SendResult`), one result per acknowledged send.
  Busy-wait loops on endpoint flags (`while (IN1CS & EPBSY);`) are taken to
  complete and leave no event.
-/

namespace Crazyradio

/-- The constants `main.c` takes from headers that are not part of `src/`
(`usb.h`, `radio.h`, `nRF24L01.h`).  They are parameters of the embedding. -/
structure Consts where
  CMD_PACKET : Int
  CMD_ERROR : Int
  ERROR_UNKNOWN_CMD : Int
  ERROR_MALFORMED_CMD : Int
  BIT_TX_DS : Int
  MODE_LEGACY : Int
  MODE_CMD : Int
  MODE_PRX : Int
  RADIO_MODE_PTX : Int
  RADIO_MODE_PRX : Int
  DATA_RATE_2M : Int
  CONFIGURED : Int
  LAUNCH_BOOTLOADER : Int
  SET_RADIO_CHANNEL : Int
  SET_DATA_RATE : Int
  SET_RADIO_ADDRESS : Int
  SET_RADIO_POWER : Int
  SET_RADIO_ARD : Int
  SET_RADIO_ARC : Int
  SET_CONT_CARRIER : Int
  ACK_ENABLE : Int
  SHOCKBURST : Int
  CRC : Int
  CRC_LEN : Int
  ADDR_LEN : Int
  EN_RX_PIPES : Int
  DISABLE_RETRY : Int
  DYNPD : Int
  EN_DPL : Int
  EN_ACK_PAY : Int
  EN_DYN_ACK : Int
  CHANNEL_SCANN : Int
  SET_MODE : Int
  MSFT_ID_FEATURE_DESCRIPTOR : Int

/-- One concrete choice of the constants, used to evaluate the embedding on
concrete transfers: the values of the Crazyradio headers for the codes of the
original firmware, and distinct representative values for the request codes
added by this fork (`SHOCKBURST` .. `EN_DYN_ACK`). -/
def crazyradio : Consts where
  CMD_PACKET := 0x00
  CMD_ERROR := 0xFF
  ERROR_UNKNOWN_CMD := 0x00
  ERROR_MALFORMED_CMD := 0x01
  BIT_TX_DS := 0x20
  MODE_LEGACY := 0
  MODE_CMD := 1
  MODE_PRX := 2
  RADIO_MODE_PTX := 0
  RADIO_MODE_PRX := 1
  DATA_RATE_2M := 2
  CONFIGURED := 4
  LAUNCH_BOOTLOADER := 0xFF
  SET_RADIO_CHANNEL := 0x01
  SET_DATA_RATE := 0x03
  SET_RADIO_ADDRESS := 0x02
  SET_RADIO_POWER := 0x04
  SET_RADIO_ARD := 0x05
  SET_RADIO_ARC := 0x06
  SET_CONT_CARRIER := 0x20
  ACK_ENABLE := 0x10
  SHOCKBURST := 0x30
  CRC := 0x31
  CRC_LEN := 0x32
  ADDR_LEN := 0x33
  EN_RX_PIPES := 0x34
  DISABLE_RETRY := 0x35
  DYNPD := 0x36
  EN_DPL := 0x37
  EN_ACK_PAY := 0x38
  EN_DYN_ACK := 0x39
  CHANNEL_SCANN := 0x21
  SET_MODE := 0x22
  MSFT_ID_FEATURE_DESCRIPTOR := 0x07

/-- `MAX_SCANN_LENGTH` of `main.c`. -/
def MAX_SCANN_LENGTH : Int := 63

/-- `CMD_SINGLE_TX` of `main.c`. -/
def CMD_SINGLE_TX : Int := 255

/-- `DISPLAY_COLOR_COMMAND` of `main.c`. -/
def DISPLAY_COLOR_COMMAND : Int := 0x00

/-- A buffer in `__xdata`: offset to byte. -/
abbrev Mem := Int → Int

/-- Conversion of an `int` value to `unsigned char` / `uint8_t`. -/
def toByte (x : Int) : Int := x % 256

/-- Conversion of an `int` value to plain `char`, and the value of a plain
`char` object that holds the byte `x`: two's complement when plain `char` is
signed (`sc = true`), the byte itself otherwise. -/
def charVal (sc : Bool) (x : Int) : Int :=
  if sc = true ∧ 128 ≤ x % 256 then x % 256 - 256 else x % 256

/-- Conversion of an `int` value to `size_t` (16 bits on this target). -/
def sizeT (n : Int) : Int := n % 65536

/-- The buffer after `memcpy(dst, src, n)`. -/
def memcpy (dst src : Mem) (n : Int) : Mem :=
  fun i => if 0 ≤ i ∧ i < sizeT n then src i else dst i

/-- The `len` bytes of `m` from offset `off` on (nothing when `len ≤ 0`). -/
def slice (m : Mem) (off len : Int) : List Int :=
  (List.range len.toNat).map (fun (k : Nat) => m (off + (k : Int)))

/-- The buffer `m` after `bs` has been stored from offset `off` on. -/
def storeAt (m : Mem) (off : Int) (bs : List Int) : Mem :=
  fun i => if off ≤ i ∧ i < off + (bs.length : Int) then bs.getD (i - off).toNat 0 else m i

/-- Buffer contents given by a list of bytes, zero elsewhere. -/
def memOfList (bs : List Int) : Mem :=
  fun i => if 0 ≤ i then bs.getD i.toNat 0 else 0

/-- The three LED masks `main.c` passes to `ledSet`. -/
inductive LedMask
  | green
  | red
  | both
  deriving DecidableEq, Repr

/-- The configuration entry points of the radio driver called by `main.c`. -/
inductive RadioFn
  | setChannel
  | setDataRate
  | setAddress
  | setPower
  | setArd
  | setArc
  | setContCarrier
  | shockburstPipes
  | setCRC
  | setCRCLen
  | setAddrLen
  | enableRxPipe
  | disableRetry
  | rxDynPayload
  | rxPayloadLen
  | txDynPayload
  | payloadAck
  | setMode
  deriving DecidableEq, Repr

/-- One observable action of the firmware core. -/
inductive Event
  /-- the engine reads `tbuffer[idx]` -/
  | tbufRead (idx : Int)
  /-- `cmdRun` stores `bytes` into `rbuffer[off ..]` -/
  | rbufStore (off : Int) (bytes : List Int)
  /-- a configuration call `radioXxx(args)` -/
  | radioCfg (fn : RadioFn) (args : List Int)
  /-- `radioSendPacket(&tbuffer[off], len, ..)`; `payload` is `tbuffer[off .. off+len)` -/
  | radioSendPacket (off len : Int) (payload : List Int)
  /-- `radioSendPacket(bulkNodePacket, 4, ..)` -/
  | radioSendNode (payload : List Int)
  /-- `radioSendPacketNoAck(bulkNodePacket, 4)` -/
  | radioSendNodeNoAck (payload : List Int)
  /-- `IN1BUF` is filled with `buf` and `IN1BC = bc` arms the bulk IN endpoint -/
  | usbIn1 (bc : Int) (buf : List Int)
  /-- `IN1CS = 0x02` -/
  | in1Deactivate
  /-- `OUT1BC = BCDUMMY` -/
  | out1Rearm
  /-- `OUT0BC = BCDUMMY` and the wait for the data stage -/
  | out0Arm
  /-- `IN0BUF[idx] = val` -/
  | in0Store (idx val : Int)
  /-- `IN0BC = bc` -/
  | in0Arm (bc : Int)
  | ledTimeout (v : Int)
  | ledSet (mask : LedMask) (value : Bool)
  | usbAckSetup
  | usbDismissSetup
  | usbHandleMsftFeatureIdDescriptor
  | launchBootloader
  deriving DecidableEq, Repr

/-- What the radio driver hands back for one `radioSendPacket` call. -/
structure SendResult where
  /-- the returned status byte -/
  status : Int
  /-- the byte found in `*ackLen` after the call -/
  rlen : Int
  /-- the contents of the ack buffer after the call -/
  ack : Mem
  /-- what `radioGetRpd()` answers after the call -/
  rpd : Bool
  /-- what `radioGetTxRetry()` answers after the call -/
  retry : Nat

/-- The LED feedback both engines and the scan give after a send. -/
def ledFeedback (status : Int) : List Event :=
  [Event.ledTimeout 2, Event.ledSet LedMask.both false,
   if status ≠ 0 then Event.ledSet LedMask.green true else Event.ledSet LedMask.red true]

/-- The `uint8_t ack` byte: `ack = status?1:0; if (ack) { if (radioGetRpd()) ack |= 0x02;
ack |= radioGetTxRetry()<<4; }`. -/
def ackByte (status : Int) (rpd : Bool) (retry : Nat) : Int :=
  if status ≠ 0 then
    (((if rpd then 1 ||| 2 else 1) ||| (retry <<< 4)) % 256 : Nat)
  else 0

/-- `sendError(code, param, pos)`: the four bytes put into `IN1BUF`, `IN1BC = 4`. -/
def sendError (c : Consts) (code param pos : Int) : Event :=
  Event.usbIn1 4 [toByte c.CMD_ERROR, toByte code, toByte param, toByte pos]

/-! ## Structured command engine: `cmdRun` -/

/-- The locals of `cmdRun` that live across iterations of its `while` loop,
the buffers it writes, the number of `radioSendPacket` calls made so far (the
index into the oracle) and the trace. -/
structure CmdState where
  cmdPtr : Int
  resPtr : Int
  rbuffer : Mem
  rpbuffer : Mem
  sends : Nat
  events : List Event

/-- The test "Check if there is enough place in rbuffer, flush it if not":
`(resPtr+rlen+4)>64`, made with the length the driver left in `rlen`. -/
def flushNeeded (resPtr rlen0 : Int) : Bool := decide (resPtr + rlen0 + 4 > 64)

/-- The received length `cmdRun` puts into a result record:
`if(!(status&BIT_TX_DS)) rlen=0;`. -/
def packetRlen (c : Consts) (status rlen0 : Int) : Int :=
  if Int.land status c.BIT_TX_DS = 0 then 0 else rlen0

/-- The result record of a PACKET sub-command: `rbuffer[resPtr] = 0; rbuffer[resPtr+1] = id;
rbuffer[resPtr+2] = ack; rbuffer[resPtr+3] = rlen; memcpy(&rbuffer[resPtr+4], rpbuffer, rlen);`. -/
def packetRecord (c : Consts) (sc : Bool) (id : Int) (res : SendResult) : List Int :=
  let status := charVal sc res.status
  let rlen := packetRlen c status (charVal sc res.rlen)
  [0, id, ackByte status res.rpd res.retry, toByte rlen] ++ slice res.ack 0 (sizeT rlen)

/-- The `CMD_PACKET` case of the `switch` in `cmdRun`, entered after
`cmd = tbuffer[cmdPtr++]`: `cmdPtr` is the incremented pointer and `ev` the
trace so far. -/
def cmdPacket (c : Consts) (sc : Bool) (radio : Nat → SendResult) (tbuffer : Mem) (tlen : Int)
    (s : CmdState) (cmd cmdPtr : Int) (ev : List Event) : CmdState :=
  if tlen - cmdPtr < 3 then
    { s with cmdPtr := tlen,
             events := ev ++ [sendError c c.ERROR_MALFORMED_CMD cmd cmdPtr] }
  else
    let id := toByte (tbuffer cmdPtr)
    let cmdPtr1 := charVal sc (cmdPtr + 1)
    let plen := toByte (tbuffer cmdPtr1)
    let cmdPtr2 := charVal sc (cmdPtr1 + 1)
    let ev := ev ++ [Event.tbufRead cmdPtr, Event.tbufRead cmdPtr1]
    if tlen - (cmdPtr2 + plen) < 0 then
      { s with cmdPtr := tlen,
               events := ev ++ [sendError c c.ERROR_MALFORMED_CMD cmd cmdPtr2] }
    else
      let res := radio s.sends
      let status := charVal sc res.status
      let rlen0 := charVal sc res.rlen
      let ev := ev ++ [Event.radioSendPacket cmdPtr2 plen (slice tbuffer cmdPtr2 plen)]
      let cmdPtr3 := charVal sc (cmdPtr2 + plen)
      let ev := ev ++ ledFeedback status
      let flush := flushNeeded s.resPtr rlen0
      let ev := if flush then
          ev ++ [Event.usbIn1 s.resPtr (slice s.rbuffer 0 (sizeT s.resPtr))]
        else ev
      let resPtr := if flush then 0 else s.resPtr
      let rlen := packetRlen c status rlen0
      let record := packetRecord c sc id res
      { cmdPtr := cmdPtr3,
        resPtr := charVal sc (resPtr + (rlen + 4)),
        rbuffer := storeAt s.rbuffer resPtr record,
        rpbuffer := res.ack,
        sends := s.sends + 1,
        events := ev ++ [Event.rbufStore resPtr record] }

/-- The `SET_RADIO_CHANNEL` and `SET_DATA_RATE` cases of the `switch` in
`cmdRun`, which differ in the upper bound `hi` and the setter `fn` only. -/
def cmdSetter (c : Consts) (sc : Bool) (tbuffer : Mem) (tlen : Int) (hi : Int) (fn : RadioFn)
    (s : CmdState) (cmd cmdPtr : Int) (ev : List Event) : CmdState :=
  if tlen - cmdPtr < 1 then
    { s with cmdPtr := tlen,
             events := ev ++ [sendError c c.ERROR_MALFORMED_CMD cmd cmdPtr] }
  else if charVal sc (tbuffer cmdPtr) > hi then
    { s with cmdPtr := tlen,
             events := ev ++ [Event.tbufRead cmdPtr,
                              sendError c c.ERROR_MALFORMED_CMD cmd cmdPtr] }
  else
    { s with cmdPtr := charVal sc (cmdPtr + 1),
             events := ev ++ [Event.tbufRead cmdPtr, Event.tbufRead cmdPtr,
                              Event.radioCfg fn [toByte (tbuffer cmdPtr)]] }

/-- One iteration of `while (cmdPtr < tlen) { cmd = tbuffer[cmdPtr++]; switch (cmd) ... }`. -/
def cmdStep (c : Consts) (sc : Bool) (radio : Nat → SendResult) (tbuffer : Mem) (tlen : Int)
    (s : CmdState) : CmdState :=
  let cmd := toByte (tbuffer s.cmdPtr)
  let cmdPtr := charVal sc (s.cmdPtr + 1)
  let ev := s.events ++ [Event.tbufRead s.cmdPtr]
  if cmd = c.CMD_PACKET then
    cmdPacket c sc radio tbuffer tlen s cmd cmdPtr ev
  else if cmd = c.SET_RADIO_CHANNEL then
    cmdSetter c sc tbuffer tlen 125 RadioFn.setChannel s cmd cmdPtr ev
  else if cmd = c.SET_DATA_RATE then
    cmdSetter c sc tbuffer tlen 3 RadioFn.setDataRate s cmd cmdPtr ev
  else
    { s with cmdPtr := cmdPtr,
             events := ev ++ [sendError c c.ERROR_UNKNOWN_CMD cmd cmdPtr] }

/-- The loop `while (cmdPtr < tlen)` of `cmdRun`, at most `fuel` iterations. -/
def cmdLoop (c : Consts) (sc : Bool) (radio : Nat → SendResult) (tbuffer : Mem) (tlen : Int) :
    Nat → CmdState → CmdState
  | 0, s => s
  | fuel + 1, s =>
    if s.cmdPtr < tlen then cmdLoop c sc radio tbuffer tlen fuel (cmdStep c sc radio tbuffer tlen s)
    else s

/-- The end of `cmdRun`: "Send data that are still in the TX buffer". -/
def cmdFinish (s : CmdState) : CmdState :=
  if s.resPtr ≠ 0 then
    { s with resPtr := 0,
             events := s.events ++ [Event.usbIn1 s.resPtr (slice s.rbuffer 0 (sizeT s.resPtr))] }
  else s

/-- The bulk OUT endpoint as the engines find it: the busy flag `OUT1CS & EPBSY`,
the byte count register `OUT1BC` and the endpoint buffer `OUT1BUF`. -/
structure Out1 where
  busy : Bool
  bc : Int
  buf : Mem

/-- The transfer length both engines compute: `tlen = OUT1BC; if (tlen>64) tlen=64;`. -/
def fetchTlen (sc : Bool) (bc : Int) : Int :=
  if charVal sc bc > 64 then 64 else charVal sc bc

/-- The globals of `main.c` (and the control IN buffer `IN0BUF`, which holds
the scan results between the two `CHANNEL_SCANN` requests). -/
structure State where
  tbuffer : Mem
  rbuffer : Mem
  rpbuffer : Mem
  bulkAddress : Mem
  bulkNodePacket : Mem
  in0buf : Mem
  scannLength : Int
  contCarrier : Bool
  needAck : Bool
  mode : Int

/-- The globals as initialised by their declarations and by `main` before the
loop (`mode = MODE_LEGACY`). -/
def initState (c : Consts) : State where
  tbuffer := fun _ => 0
  rbuffer := fun _ => 0
  rpbuffer := fun _ => 0
  bulkAddress := memOfList [0xE7, 0xE7, 0xE7, 0, 0]
  bulkNodePacket := memOfList [DISPLAY_COLOR_COMMAND, 0, 0, 0]
  in0buf := fun _ => 0
  scannLength := 0
  contCarrier := false
  needAck := true
  mode := toByte c.MODE_LEGACY

/-- The loop state `cmdRun` starts from once the transfer is in `tbuffer`. -/
def cmdInit (g : State) : CmdState where
  cmdPtr := 0
  resPtr := 0
  rbuffer := g.rbuffer
  rpbuffer := g.rpbuffer
  sends := 0
  events := [Event.out1Rearm]

/-- The rest of `cmdRun` from a loop state on: the loop, then the final flush. -/
def cmdRest (c : Consts) (sc : Bool) (radio : Nat → SendResult) (tbuffer : Mem) (tlen : Int)
    (fuel : Nat) (s : CmdState) : CmdState :=
  cmdFinish (cmdLoop c sc radio tbuffer tlen fuel s)

/-- `cmdRun()`: the new globals and the trace of one call.  The loop advances
`cmdPtr` by at least one per iteration, so `tlen` iterations are enough
(`cmdLoop_exits`). -/
def cmdRun (c : Consts) (sc : Bool) (radio : Nat → SendResult) (o : Out1) (g : State) :
    State × List Event :=
  if !o.busy && !g.contCarrier then
    let tlen := fetchTlen sc o.bc
    let tbuffer := memcpy g.tbuffer o.buf tlen
    let s := cmdRest c sc radio tbuffer tlen tlen.toNat (cmdInit g)
    ({ g with tbuffer := tbuffer, rbuffer := s.rbuffer, rpbuffer := s.rpbuffer }, s.events)
  else (g, [])

/-! ## Legacy engine: `legacyRun` -/

/-- The locals and globals the bulk loop of `legacyRun` changes, the oracle
index and the trace. -/
structure LegacyState where
  cmdPtr : Int
  status : Int
  rlen : Int
  rbuffer : Mem
  bulkAddress : Mem
  bulkNodePacket : Mem
  sends : Nat
  events : List Event

/-- One iteration of `while(cmdPtr < tlen)` in `legacyRun`: one sub-record. -/
def legacyStep (sc : Bool) (radio : Nat → SendResult) (needAck : Bool) (tbuffer : Mem)
    (s : LegacyState) : LegacyState :=
  let bulkAddress := storeAt s.bulkAddress 4 [toByte (tbuffer s.cmdPtr)]
  let cmdPtr := charVal sc (s.cmdPtr + 1)
  let ev := s.events ++ [Event.tbufRead s.cmdPtr]
  if charVal sc (bulkAddress 4) ≠ 0xFF then
    let ev := ev ++ [Event.radioCfg RadioFn.setAddress (slice bulkAddress 0 5)]
    let cmdPtr1 := charVal sc (cmdPtr + 1)
    let cmdPtr2 := charVal sc (cmdPtr1 + 1)
    let cmdPtr3 := charVal sc (cmdPtr2 + 1)
    let bulkNodePacket := storeAt s.bulkNodePacket 1
      [toByte (tbuffer cmdPtr), toByte (tbuffer cmdPtr1), toByte (tbuffer cmdPtr2)]
    let ev := ev ++ [Event.tbufRead cmdPtr, Event.tbufRead cmdPtr1, Event.tbufRead cmdPtr2]
    if needAck then
      let res := radio s.sends
      { cmdPtr := cmdPtr3,
        status := charVal sc res.status,
        rlen := charVal sc res.rlen,
        rbuffer := res.ack,
        bulkAddress := bulkAddress,
        bulkNodePacket := bulkNodePacket,
        sends := s.sends + 1,
        events := ev ++ [Event.radioSendNode (slice bulkNodePacket 0 4)] }
    else
      { s with cmdPtr := cmdPtr3,
               bulkAddress := bulkAddress,
               bulkNodePacket := bulkNodePacket,
               events := ev ++ [Event.radioSendNodeNoAck (slice bulkNodePacket 0 4)] }
  else
    { s with cmdPtr := charVal sc (cmdPtr + 3), bulkAddress := bulkAddress, events := ev }

/-- The loop `while(cmdPtr < tlen)` of `legacyRun`, at most `fuel` iterations. -/
def legacyLoop (sc : Bool) (radio : Nat → SendResult) (needAck : Bool) (tbuffer : Mem)
    (tlen : Int) : Nat → LegacyState → LegacyState
  | 0, s => s
  | fuel + 1, s =>
    if s.cmdPtr < tlen then
      legacyLoop sc radio needAck tbuffer tlen fuel (legacyStep sc radio needAck tbuffer s)
    else s

/-- The part of `legacyRun` that sends: `bulkAddress[3] = tbuffer[cmdPtr++]`, then
either the single transmission or the bulk loop.  The loop advances `cmdPtr` by
four per iteration, so `tlen` iterations are enough (`legacyLoop_exits`). -/
def legacySend (sc : Bool) (radio : Nat → SendResult) (needAck : Bool) (tbuffer : Mem)
    (tlen : Int) (g : State) : LegacyState :=
  let bulkAddress := storeAt g.bulkAddress 3 [toByte (tbuffer 0)]
  let cmdPtr := charVal sc (0 + 1)
  let ev := [Event.out1Rearm, Event.tbufRead 0]
  if charVal sc (bulkAddress 3) = CMD_SINGLE_TX then
    let res := radio 0
    { cmdPtr := cmdPtr,
      status := charVal sc res.status,
      rlen := charVal sc res.rlen,
      rbuffer := res.ack,
      bulkAddress := bulkAddress,
      bulkNodePacket := g.bulkNodePacket,
      sends := 1,
      events := ev ++ [Event.radioSendPacket cmdPtr (tlen - cmdPtr)
                         (slice tbuffer cmdPtr (tlen - cmdPtr))] }
  else
    legacyLoop sc radio needAck tbuffer tlen tlen.toNat
      { cmdPtr := cmdPtr, status := 0, rlen := 0, rbuffer := g.rbuffer,
        bulkAddress := bulkAddress, bulkNodePacket := g.bulkNodePacket,
        sends := 0, events := ev }

/-- The length of the ack data `legacyRun` relays: `if(!(status&BIT_TX_DS)) rlen=0;
if (rlen>32) rlen=32;`. -/
def legacyRlen (c : Consts) (status rlen : Int) : Int :=
  let rlen := if Int.land status c.BIT_TX_DS = 0 then 0 else rlen
  if rlen > 32 then 32 else rlen

/-- The end of `legacyRun`: LED feedback and the USB IN answer.  `rpd` and
`retry` are what `radioGetRpd()` and `radioGetTxRetry()` answer at that point. -/
def legacyAnswer (c : Consts) (rpd : Bool) (retry : Nat) (s : LegacyState) : List Event :=
  let ack := ackByte s.status rpd retry
  let rlen := legacyRlen c s.status s.rlen
  s.events ++ ledFeedback s.status ++
    [Event.in1Deactivate, Event.usbIn1 (rlen + 1) (ack :: slice s.rbuffer 0 (sizeT rlen))]

/-- `legacyRun()`: the new globals and the trace of one call. -/
def legacyRun (c : Consts) (sc : Bool) (radio : Nat → SendResult) (rpd : Bool) (retry : Nat)
    (o : Out1) (g : State) : State × List Event :=
  if !o.busy && !g.contCarrier then
    let tlen := fetchTlen sc o.bc
    let tbuffer := memcpy g.tbuffer o.buf tlen
    let s := legacySend sc radio g.needAck tbuffer tlen g
    ({ g with tbuffer := tbuffer, rbuffer := s.rbuffer, bulkAddress := s.bulkAddress,
              bulkNodePacket := s.bulkNodePacket },
     legacyAnswer c rpd retry s)
  else (g, [])

/-! ## Vendor request dispatcher: `handleUsbVendorSetup` -/

/-- The setup packet (`struct controllStruct`, declared in `usb.h`): the two
byte fields and the three 16-bit fields of a USB control request. -/
structure Setup where
  requestType : Int
  request : Int
  value : Int
  index : Int
  length : Int

/-- The locals and globals the channel-scan loop changes, the oracle index and
the trace. -/
structure ScanState where
  i : Int
  scannLength : Int
  in0buf : Mem
  rbuffer : Mem
  sends : Nat
  events : List Event

/-- One iteration of the scan loop body: set the channel, send the probe,
record the channel when the send succeeded, LED feedback, `i += inc`. -/
def scanStep (sc : Bool) (radio : Nat → SendResult) (tbuffer : Mem) (length inc : Int)
    (s : ScanState) : ScanState :=
  let res := radio s.sends
  let status := charVal sc res.status
  let ev := s.events ++ [Event.radioCfg RadioFn.setChannel [s.i],
                          Event.radioSendPacket 0 length (slice tbuffer 0 length)]
  if status ≠ 0 then
    { i := s.i + inc,
      scannLength := charVal sc (s.scannLength + 1),
      in0buf := storeAt s.in0buf s.scannLength [toByte s.i],
      rbuffer := res.ack,
      sends := s.sends + 1,
      events := ev ++ [Event.in0Store s.scannLength (toByte s.i)] ++ ledFeedback status }
  else
    { s with i := s.i + inc, rbuffer := res.ack, sends := s.sends + 1,
             events := ev ++ ledFeedback status }

/-- The loop `for (i=start; i<stop+1 && scannLength<MAX_SCANN_LENGTH; i+=inc)`, at most
`fuel` iterations. -/
def scanLoop (sc : Bool) (radio : Nat → SendResult) (tbuffer : Mem) (length inc stop : Int) :
    Nat → ScanState → ScanState
  | 0, s => s
  | fuel + 1, s =>
    if s.i < stop + 1 ∧ s.scannLength < MAX_SCANN_LENGTH then
      scanLoop sc radio tbuffer length inc stop fuel (scanStep sc radio tbuffer length inc s)
    else s

/-- The start channel of a scan: `unsigned char start = setup->value`. -/
def scanStart (setup : Setup) : Int := toByte setup.value

/-- The stop channel of a scan: `unsigned char stop = (setup->index>125)?125:setup->index`. -/
def scanStop (setup : Setup) : Int := toByte (if setup.index > 125 then 125 else setup.index)

/-- The step of a scan: `char inc = 1; if (radioGetDataRate() == DATA_RATE_2M) inc = 2;`. -/
def scanInc (c : Consts) (dataRate : Int) : Int := if dataRate = c.DATA_RATE_2M then 2 else 1

/-- The host-to-device `CHANNEL_SCANN` branch after its length check: fetch
the probe from the data stage and sweep.  `i` never exceeds `stop + 1`, so
`stop + 1 - start` iterations are enough (`channelScan_spec`).

The copy `memcpy(tbuffer, OUT0BUF, setup->length)` has no upper bound on the
length (only `setup->length < 1` is dismissed) and `tbuffer` is declared with 64
bytes.  For `setup.length ≤ 64` this definition is the program.  For a longer
data stage the program writes past the end of `tbuffer` into whatever lies
behind it, which the C source does not determine; the definition then still
shows which indices the copy writes and the probe reads (64 and up), but not
what is overwritten, so nothing is stated about the program there beyond the
overrun itself. -/
def channelScan (c : Consts) (sc : Bool) (radio : Nat → SendResult) (dataRate : Int)
    (out0buf : Mem) (setup : Setup) (g : State) : ScanState :=
  let start := scanStart setup
  let stop := scanStop setup
  let inc := scanInc c dataRate
  let tbuffer := memcpy g.tbuffer out0buf setup.length
  scanLoop sc radio tbuffer setup.length inc stop (stop + 1 - start).toNat
    { i := start, scannLength := 0, in0buf := g.in0buf, rbuffer := g.rbuffer, sends := 0,
      events := [Event.out0Arm] }

/-- The pipe count of the `SHOCKBURST` branch: `char val=setup->value; if(val>6) val=6;
if(val<0) val=0;`. -/
def shockburstVal (sc : Bool) (value : Int) : Int :=
  let val := charVal sc value
  let val := if val > 6 then 6 else val
  if val < 0 then 0 else val

/-- The calls of the `DYNPD` loop `for(x=0;x<7;x++)`. -/
def dynpdCalls (val : Int) : List Event :=
  (List.range 7).flatMap (fun (x : Nat) =>
    [Event.radioCfg RadioFn.rxDynPayload [(x : Int), 0],
     Event.radioCfg RadioFn.rxPayloadLen [(x : Int), val]])

/-- The value of a C truth test as `bool`. -/
def boolArg (b : Bool) : Int := if b then 1 else 0

/-- The shape most branches of `handleUsbVendorSetup` share: one call of a radio
setter with the request value, then `usbAckSetup()`; the globals are unchanged. -/
def ackCfg (g : State) (fn : RadioFn) (arg : Int) : Option (State × List Event) :=
  some (g, [Event.radioCfg fn [arg], Event.usbAckSetup])

/-- The branches of `handleUsbVendorSetup` taken when the device is configured,
in the order of the `if` / `else if` chain; `none` when no branch matches. -/
def vendorBranches (c : Consts) (sc : Bool) (radio : Nat → SendResult) (dataRate : Int)
    (out0buf : Mem) (setup : Setup) (g : State) : Option (State × List Event) :=
  if setup.request = c.LAUNCH_BOOTLOADER then
    some (g, [Event.usbAckSetup, Event.launchBootloader])
  else if setup.request = c.SET_RADIO_CHANNEL then ackCfg g RadioFn.setChannel setup.value
  else if setup.request = c.SET_DATA_RATE then ackCfg g RadioFn.setDataRate setup.value
  else if setup.request = c.SET_RADIO_ADDRESS then
    if setup.length > 5 ∨ setup.length < 3 then some (g, [Event.usbDismissSetup])
    else some (g, [Event.out0Arm, Event.radioCfg RadioFn.setAddress (slice out0buf 0 5),
                   Event.usbAckSetup])
  else if setup.request = c.SET_RADIO_POWER then ackCfg g RadioFn.setPower setup.value
  else if setup.request = c.SET_RADIO_ARD then ackCfg g RadioFn.setArd setup.value
  else if setup.request = c.SET_RADIO_ARC then ackCfg g RadioFn.setArc setup.value
  else if setup.request = c.SET_CONT_CARRIER then
    let flag : Bool := decide (setup.value ≠ 0)
    some ({ g with contCarrier := flag },
          [Event.radioCfg RadioFn.setContCarrier [boolArg flag], Event.ledTimeout (-1),
           Event.ledSet LedMask.red flag, Event.usbAckSetup])
  else if setup.request = c.ACK_ENABLE then
    some ({ g with needAck := decide (setup.value ≠ 0) }, [Event.usbAckSetup])
  else if setup.request = c.SHOCKBURST then
    ackCfg g RadioFn.shockburstPipes (shockburstVal sc setup.value)
  else if setup.request = c.CRC then
    ackCfg g RadioFn.setCRC (boolArg (decide (setup.value = 1)))
  else if setup.request = c.CRC_LEN then
    ackCfg g RadioFn.setCRCLen (if setup.value = 1 then 0 else 1)
  else if setup.request = c.ADDR_LEN then ackCfg g RadioFn.setAddrLen setup.value
  else if setup.request = c.EN_RX_PIPES then ackCfg g RadioFn.enableRxPipe setup.value
  else if setup.request = c.DISABLE_RETRY then
    some (g, [Event.radioCfg RadioFn.disableRetry [], Event.usbAckSetup])
  else if setup.request = c.DYNPD then
    some (g, dynpdCalls (charVal sc setup.value) ++ [Event.usbAckSetup])
  else if setup.request = c.EN_DPL then
    some (g, [Event.radioCfg RadioFn.txDynPayload [boolArg true]])
  else if setup.request = c.EN_ACK_PAY then
    some (g, [Event.radioCfg RadioFn.payloadAck [boolArg (decide (setup.value = 1))]])
  else if setup.request = c.EN_DYN_ACK then
    some (g, [Event.radioCfg RadioFn.payloadAck [boolArg (decide (setup.value = 1))]])
  else if setup.request = c.CHANNEL_SCANN ∧ setup.requestType = 0x40 then
    if setup.length < 1 then some ({ g with scannLength := 0 }, [Event.usbDismissSetup])
    else
      let s := channelScan c sc radio dataRate out0buf setup g
      some ({ g with tbuffer := memcpy g.tbuffer out0buf setup.length, rbuffer := s.rbuffer,
                     in0buf := s.in0buf, scannLength := s.scannLength },
            s.events ++ [Event.usbAckSetup])
  else if setup.request = c.CHANNEL_SCANN ∧ setup.requestType = 0xC0 then
    let len := g.scannLength % 65536
    some (g, [Event.in0Arm (if setup.length > len then len else setup.length),
              Event.usbAckSetup])
  else if setup.request = c.SET_MODE ∧ setup.requestType = 0x40 then
    let mode := toByte setup.value
    some ({ g with mode := mode },
          [Event.radioCfg RadioFn.setMode
             [if mode = c.MODE_PRX then c.RADIO_MODE_PRX else c.RADIO_MODE_PTX],
           Event.usbAckSetup])
  else if setup.index = 0x0004 ∧ setup.request = c.MSFT_ID_FEATURE_DESCRIPTOR then
    some (g, [Event.usbHandleMsftFeatureIdDescriptor])
  else none

/-- `handleUsbVendorSetup()`: the new globals and the trace.  `usbState` is what
`usbGetState()` answers, `dataRate` what `radioGetDataRate()` answers, `out0buf`
the data stage found in `OUT0BUF`. -/
def handleUsbVendorSetup (c : Consts) (sc : Bool) (radio : Nat → SendResult) (usbState : Int)
    (dataRate : Int) (out0buf : Mem) (setup : Setup) (g : State) : State × List Event :=
  if usbState ≥ c.CONFIGURED then
    match vendorBranches c sc radio dataRate out0buf setup g with
    | some r => r
    | none => (g, [Event.usbDismissSetup])
  else (g, [Event.usbDismissSetup])

/-! ## Mode dispatch of `main` -/

/-- A pending vendor request together with what the drivers answer while it is
handled. -/
structure VendorReq where
  radio : Nat → SendResult
  usbState : Int
  dataRate : Int
  out0buf : Mem
  setup : Setup

/-- The globals after a sequence of vendor requests has been handled.  The
engines that run in between do not assign `mode`, `contCarrier`, `needAck` or
`scannLength`. -/
def afterRequests (c : Consts) (sc : Bool) : List VendorReq → State → State
  | [], g => g
  | r :: rs, g =>
    afterRequests c sc rs
      (handleUsbVendorSetup c sc r.radio r.usbState r.dataRate r.out0buf r.setup g).1

/-! ## Concrete inputs used to evaluate the embedding -/

/-- A radio on which every send fails: status 0, no ack data, although the
received-power detector fires and three retries were made. -/
def deafRadio : Nat → SendResult :=
  fun _ => { status := 0, rlen := 0, ack := fun _ => 0, rpd := true, retry := 3 }

/-- A radio on which every send is acknowledged (`BIT_TX_DS` of `crazyradio`)
with the two ack bytes 9, 8. -/
def ackRadio : Nat → SendResult :=
  fun _ => { status := 0x20, rlen := 2, ack := memOfList [9, 8], rpd := true, retry := 3 }

/-- The bulk OUT endpoint holding the transfer `bs`. -/
def out1Of (bs : List Int) : Out1 where
  busy := false
  bc := bs.length
  buf := memOfList bs

/-- The trace of `cmdRun` on the transfer `bs`, from the initial globals, with
the `crazyradio` constants. -/
def cmdTrace (sc : Bool) (radio : Nat → SendResult) (bs : List Int) : List Event :=
  (cmdRun crazyradio sc radio (out1Of bs) (initState crazyradio)).2

/-- The trace of `legacyRun` on the transfer `bs`, from the initial globals
(so with `needAck = true`), with the `crazyradio` constants. -/
def legacyTrace (sc : Bool) (radio : Nat → SendResult) (bs : List Int) : List Event :=
  (legacyRun crazyradio sc radio true 3 (out1Of bs) (initState crazyradio)).2

/-- The loop state of `cmdRun` at the start of the transfer `bs`. -/
def cmdStart : CmdState := cmdInit (initState crazyradio)

/-! ## Views of a trace and reference sequences used to state the claims -/

/-- Whether an event is a call into the radio driver. -/
def Event.isRadio : Event → Bool
  | Event.radioCfg _ _ => true
  | Event.radioSendPacket _ _ _ => true
  | Event.radioSendNode _ => true
  | Event.radioSendNodeNoAck _ => true
  | _ => false

/-- The calls into the radio driver of a trace, in order. -/
def radioEvents (evs : List Event) : List Event := evs.filter Event.isRadio

/-- The `n` channels `i, i+inc, i+2*inc, ..`. -/
def sweepFrom (i inc : Int) : Nat → List Int
  | 0 => []
  | n + 1 => i :: sweepFrom (i + inc) inc n

/-- The two radio calls the scan makes on channel `ch`: set the channel, send
the probe. -/
def probeCalls (length : Int) (payload : List Int) (ch : Int) : List Event :=
  [Event.radioCfg RadioFn.setChannel [ch], Event.radioSendPacket 0 length payload]

/-- Those of the channels `chs`, probed in this order by the sends number
`n, n+1, ..`, whose send reported success (`if (status)`). -/
def succeeded (sc : Bool) (radio : Nat → SendResult) : Nat → List Int → List Int
  | _, [] => []
  | n, ch :: rest =>
    if charVal sc (radio n).status ≠ 0 then ch :: succeeded sc radio (n + 1) rest
    else succeeded sc radio (n + 1) rest

/-- The request codes `handleUsbVendorSetup` tests before it tests
`CHANNEL_SCANN`, in the order of the chain. -/
def Consts.beforeScan (c : Consts) : List Int :=
  [c.LAUNCH_BOOTLOADER, c.SET_RADIO_CHANNEL, c.SET_DATA_RATE, c.SET_RADIO_ADDRESS,
   c.SET_RADIO_POWER, c.SET_RADIO_ARD, c.SET_RADIO_ARC, c.SET_CONT_CARRIER, c.ACK_ENABLE,
   c.SHOCKBURST, c.CRC, c.CRC_LEN, c.ADDR_LEN, c.EN_RX_PIPES, c.DISABLE_RETRY, c.DYNPD,
   c.EN_DPL, c.EN_ACK_PAY, c.EN_DYN_ACK]

/-- All the request codes `handleUsbVendorSetup` recognizes. -/
def Consts.requestCodes (c : Consts) : List Int :=
  c.beforeScan ++ [c.CHANNEL_SCANN, c.SET_MODE, c.MSFT_ID_FEATURE_DESCRIPTOR]

/-- The scan results held for the host: `IN0BUF[0 .. scannLength)`. -/
def scanResults (g : State) : List Int := slice g.in0buf 0 g.scannLength

/-- A host-to-device `CHANNEL_SCANN` request (`crazyradio` codes) with a one-byte
probe. -/
def scanSetup (value index : Int) : Setup where
  requestType := 0x40
  request := 0x21
  value := value
  index := index
  length := 1

/-- The request codes `handleUsbVendorSetup` tests before it tests `SHOCKBURST`,
in the order of the chain. -/
def Consts.beforeShockburst (c : Consts) : List Int :=
  [c.LAUNCH_BOOTLOADER, c.SET_RADIO_CHANNEL, c.SET_DATA_RATE, c.SET_RADIO_ADDRESS,
   c.SET_RADIO_POWER, c.SET_RADIO_ARD, c.SET_RADIO_ARC, c.SET_CONT_CARRIER, c.ACK_ENABLE]

/-- The request codes `handleUsbVendorSetup` tests before it tests `EN_DPL`, in
the order of the chain. -/
def Consts.beforeEnDpl (c : Consts) : List Int :=
  c.beforeShockburst ++
    [c.SHOCKBURST, c.CRC, c.CRC_LEN, c.ADDR_LEN, c.EN_RX_PIPES, c.DISABLE_RETRY, c.DYNPD]

/-- The request codes whose branches end in a bare `return;`. -/
def Consts.bareReturn (c : Consts) : List Int := [c.EN_DPL, c.EN_ACK_PAY, c.EN_DYN_ACK]

/-- Whether an event completes the control transfer: `usbAckSetup()`,
`usbDismissSetup()` or `usbHandleMsftFeatureIdDescriptor()`. -/
def Event.isCompletion : Event → Bool
  | Event.usbAckSetup => true
  | Event.usbDismissSetup => true
  | Event.usbHandleMsftFeatureIdDescriptor => true
  | _ => false

/-- The completions of the control transfer in a trace, in order. -/
def completions (evs : List Event) : List Event := evs.filter Event.isCompletion

/-- A host-to-device vendor request (`requestType` 0x40) without data stage. -/
def plainSetup (request value : Int) : Setup where
  requestType := 0x40
  request := request
  value := value
  index := 0
  length := 0

/-- A device-to-host `CHANNEL_SCANN` request (`crazyradio` codes) asking for
`length` bytes. -/
def fetchSetup (length : Int) : Setup where
  requestType := 0xC0
  request := 0x21
  value := 0
  index := 0
  length := length

/-- A legacy transfer that fills the 64-byte buffer: address-high 0xE7 followed
by 63 bytes 0x01. -/
def fullTransfer : List Int := 0xE7 :: List.replicate 63 0x01

/-- The indices at which a trace reads `tbuffer`, in order. -/
def readIndices : List Event → List Int
  | [] => []
  | Event.tbufRead i :: rest => i :: readIndices rest
  | _ :: rest => readIndices rest

/-- The byte counts written to `IN1BC` in a trace, in order. -/
def in1Counts : List Event → List Int
  | [] => []
  | Event.usbIn1 bc _ :: rest => bc :: in1Counts rest
  | _ :: rest => in1Counts rest

/-- A radio on which every send succeeds (`BIT_TX_DS` of `crazyradio`) and the
driver leaves the length byte 200 in `*ackLen`. -/
def longAckRadio : Nat → SendResult :=
  fun _ => { status := 0x20, rlen := 200, ack := fun _ => 0, rpd := false, retry := 0 }

/-- Whether an access to the transfer buffer stays inside a transfer of `tlen`
bytes: a read `tbuffer[i]` needs `0 ≤ i < tlen`, a send of `tbuffer[off ..
off+len)` needs that whole range inside. -/
def readOk (tlen : Int) : Event → Bool
  | Event.tbufRead i => decide (0 ≤ i ∧ i < tlen)
  | Event.radioSendPacket off len _ => decide (0 ≤ off ∧ 0 ≤ len ∧ off + len ≤ tlen)
  | _ => true

/-- Whether a use of the response accumulator and of the bulk IN endpoint is in
bounds: a store into `rbuffer` must end within its 64 bytes, an IN packet must
be armed with between 1 and 64 bytes, all of them written. -/
def accOk : Event → Bool
  | Event.rbufStore off bytes => decide (0 ≤ off ∧ off + (bytes.length : Int) ≤ 64)
  | Event.usbIn1 bc buf => decide (1 ≤ bc ∧ bc ≤ 64 ∧ (buf.length : Int) = bc)
  | _ => true

/-- The result records stored into the accumulator in a trace, in order. -/
def records : List Event → List (List Int)
  | [] => []
  | Event.rbufStore _ bytes :: rest => bytes :: records rest
  | _ :: rest => records rest

/-- The packets written to the bulk IN endpoint in a trace, in order. -/
def in1Packets : List Event → List (List Int)
  | [] => []
  | Event.usbIn1 _ buf :: rest => buf :: in1Packets rest
  | _ :: rest => in1Packets rest

/-- Whether an IN packet begins with the byte `CMD_ERROR`, as every packet
written by `sendError` does. -/
def isErrorPacket (c : Consts) (buf : List Int) : Bool :=
  buf.head? == some (toByte c.CMD_ERROR)

/-- The IN packets of a trace that are error records, in order. -/
def errorPackets (c : Consts) (evs : List Event) : List (List Int) :=
  (in1Packets evs).filter (isErrorPacket c)

/-- The IN packets of a trace that are not error records, in order. -/
def resultPackets (c : Consts) (evs : List Event) : List (List Int) :=
  (in1Packets evs).filter (fun buf => !isErrorPacket c buf)

/-- The offset and length of every store into the accumulator in a trace. -/
def storeSpans : List Event → List (Int × Nat)
  | [] => []
  | Event.rbufStore off bytes :: rest => (off, bytes.length) :: storeSpans rest
  | _ :: rest => storeSpans rest

/-- A radio whose first send is acknowledged with 32 bytes of ack data and whose
later sends fail while the length 32 is still found in `*ackLen`. -/
def staleLenRadio : Nat → SendResult :=
  fun n => { status := if n = 0 then 0x20 else 0, rlen := 32, ack := fun _ => 0xA5,
             rpd := false, retry := 0 }

/-- Whether the payload recorded for a send out of the transfer buffer is the
content of `tbuffer` at the offsets handed to the driver. -/
def payloadOk (tbuffer : Mem) : Event → Bool
  | Event.radioSendPacket off len payload => decide (payload = slice tbuffer off len)
  | _ => true

/-- The link between what has been stored into the accumulator and what has
been written to USB IN, at a point of the loop of `cmdRun`: the result packets
written so far are, in order, concatenations of whole records (`groups`, none of
them empty), the records not yet flushed (`cur`) are exactly the content
`rbuffer[0 .. resPtr)` of the accumulator, and the flushed records followed by
the unflushed ones are all the records stored so far, in order. -/
def Grouped (c : Consts) (s : CmdState) : Prop :=
  ∃ (groups : List (List (List Int))) (cur : List (List Int)),
    groups.map List.flatten = resultPackets c s.events ∧
    groups.flatten ++ cur = records s.events ∧
    cur.flatten = slice s.rbuffer 0 s.resPtr ∧
    (∀ g ∈ groups, g ≠ []) ∧
    (∀ r ∈ cur, r.head? = some 0) ∧
    0 ≤ s.resPtr ∧ s.resPtr ≤ 64

theorem charVal_eq (sc : Bool) (x : Int) (h0 : 0 ≤ x) (h1 : x ≤ 127) : charVal sc x = x := by
  unfold charVal
  split <;> omega

theorem charVal_unsigned (x : Int) : charVal false x = toByte x := by
  simp [charVal, toByte]

theorem toByte_eq (x : Int) (h0 : 0 ≤ x) (h1 : x < 256) : toByte x = x := by
  unfold toByte
  omega

theorem toByte_range (x : Int) : 0 ≤ toByte x ∧ toByte x < 256 := by
  unfold toByte
  omega

theorem toByte_toByte (x : Int) : toByte (toByte x) = toByte x := by
  unfold toByte
  omega

/-- The layout of the ack byte: 0 after a failed send; after a successful one
bit 0 is set, bit 1 is the received-power-detect flag, bits 2 and 3 are clear
and bits 4 to 7 are the low four bits of the retry count. -/
theorem ackByte_layout (status : Int) (rpd : Bool) (retry : Nat) :
    ackByte status rpd retry =
      if status = 0 then 0
      else ((1 + (if rpd then 2 else 0) + 16 * (retry % 16) : Nat) : Int) := by
  unfold ackByte
  by_cases hs : status = 0
  · simp [hs]
  · simp only [hs, ne_eq, not_false_eq_true, if_true, if_false]
    congr 1
    have h1 : ∀ a : Nat, a < 16 → (a ||| (retry <<< 4)) % 256 = a + 16 * (retry % 16) := by
      intro a ha
      rw [Nat.shiftLeft_eq, Nat.lor_comm, Nat.mul_comm,
        ← Nat.mul_add_lt_is_or (by simpa using ha : a < 2 ^ 4) retry]
      omega
    cases rpd
    · simpa using h1 1 (by decide)
    · simpa using h1 3 (by decide)

theorem cmdLoop_done (c : Consts) (sc : Bool) (radio : Nat → SendResult) (tbuffer : Mem)
    (tlen : Int) (fuel : Nat) (s : CmdState) (h : tlen ≤ s.cmdPtr) :
    cmdLoop c sc radio tbuffer tlen fuel s = s := by
  cases fuel with
  | zero => rfl
  | succ n => simp [cmdLoop, not_lt.mpr h]

/-- A `CMD_PACKET` with fewer than three bytes after the command byte. -/
theorem cmdStep_packet_short (c : Consts) (sc : Bool) (radio : Nat → SendResult) (tbuffer : Mem)
    (tlen : Int) (s : CmdState) (h0 : 0 ≤ s.cmdPtr) (h64 : tlen ≤ 64)
    (hcmd : toByte (tbuffer s.cmdPtr) = c.CMD_PACKET) (hlt : s.cmdPtr < tlen)
    (hshort : tlen - (s.cmdPtr + 1) < 3) :
    cmdStep c sc radio tbuffer tlen s =
      { s with cmdPtr := tlen,
               events := s.events ++ [Event.tbufRead s.cmdPtr,
                 sendError c c.ERROR_MALFORMED_CMD c.CMD_PACKET (s.cmdPtr + 1)] } := by
  have e1 : charVal sc (s.cmdPtr + 1) = s.cmdPtr + 1 := charVal_eq sc _ (by omega) (by omega)
  simp [cmdStep, cmdPacket, hcmd, e1, hshort]

/-- A `CMD_PACKET` whose declared length overruns the transfer. -/
theorem cmdStep_packet_overrun (c : Consts) (sc : Bool) (radio : Nat → SendResult)
    (tbuffer : Mem) (tlen : Int) (s : CmdState) (h0 : 0 ≤ s.cmdPtr) (h64 : tlen ≤ 64)
    (hcmd : toByte (tbuffer s.cmdPtr) = c.CMD_PACKET)
    (hlong : ¬ tlen - (s.cmdPtr + 1) < 3)
    (hover : tlen - (s.cmdPtr + 3 + toByte (tbuffer (s.cmdPtr + 2))) < 0) :
    cmdStep c sc radio tbuffer tlen s =
      { s with cmdPtr := tlen,
               events := s.events ++ [Event.tbufRead s.cmdPtr, Event.tbufRead (s.cmdPtr + 1),
                 Event.tbufRead (s.cmdPtr + 2),
                 sendError c c.ERROR_MALFORMED_CMD c.CMD_PACKET (s.cmdPtr + 3)] } := by
  have e1 : charVal sc (s.cmdPtr + 1) = s.cmdPtr + 1 := charVal_eq sc _ (by omega) (by omega)
  have e2 : charVal sc (s.cmdPtr + 1 + 1) = s.cmdPtr + 2 := by
    rw [charVal_eq sc _ (by omega) (by omega)]; omega
  have e3 : charVal sc (s.cmdPtr + 2 + 1) = s.cmdPtr + 3 := by
    rw [charVal_eq sc _ (by omega) (by omega)]; omega
  simp [cmdStep, cmdPacket, hcmd, e1, e2, e3, hlong, hover]

/-- A well-formed `CMD_PACKET`: the state after the iteration. -/
theorem cmdStep_packet_ok (c : Consts) (sc : Bool) (radio : Nat → SendResult)
    (tbuffer : Mem) (tlen : Int) (s : CmdState) (h0 : 0 ≤ s.cmdPtr) (h64 : tlen ≤ 64)
    (hcmd : toByte (tbuffer s.cmdPtr) = c.CMD_PACKET)
    (hhdr : 3 ≤ tlen - (s.cmdPtr + 1))
    (hfit : s.cmdPtr + 3 + toByte (tbuffer (s.cmdPtr + 2)) ≤ tlen) :
    cmdStep c sc radio tbuffer tlen s =
      { cmdPtr := s.cmdPtr + 3 + toByte (tbuffer (s.cmdPtr + 2)),
        resPtr := charVal sc
          ((if flushNeeded s.resPtr (charVal sc (radio s.sends).rlen) then 0 else s.resPtr) +
            (packetRlen c (charVal sc (radio s.sends).status) (charVal sc (radio s.sends).rlen)
              + 4)),
        rbuffer := storeAt s.rbuffer
          (if flushNeeded s.resPtr (charVal sc (radio s.sends).rlen) then 0 else s.resPtr)
          (packetRecord c sc (toByte (tbuffer (s.cmdPtr + 1))) (radio s.sends)),
        rpbuffer := (radio s.sends).ack,
        sends := s.sends + 1,
        events := s.events ++
          [Event.tbufRead s.cmdPtr, Event.tbufRead (s.cmdPtr + 1), Event.tbufRead (s.cmdPtr + 2),
           Event.radioSendPacket (s.cmdPtr + 3) (toByte (tbuffer (s.cmdPtr + 2)))
             (slice tbuffer (s.cmdPtr + 3) (toByte (tbuffer (s.cmdPtr + 2))))] ++
          ledFeedback (charVal sc (radio s.sends).status) ++
          (if flushNeeded s.resPtr (charVal sc (radio s.sends).rlen) then
             [Event.usbIn1 s.resPtr (slice s.rbuffer 0 (sizeT s.resPtr))] else []) ++
          [Event.rbufStore
            (if flushNeeded s.resPtr (charVal sc (radio s.sends).rlen) then 0 else s.resPtr)
            (packetRecord c sc (toByte (tbuffer (s.cmdPtr + 1))) (radio s.sends))] } := by
  have hb := toByte_range (tbuffer (s.cmdPtr + 2))
  have e1 : charVal sc (s.cmdPtr + 1) = s.cmdPtr + 1 := charVal_eq sc _ (by omega) (by omega)
  have e2 : charVal sc (s.cmdPtr + 1 + 1) = s.cmdPtr + 2 := by
    rw [charVal_eq sc _ (by omega) (by omega)]; omega
  have e3 : charVal sc (s.cmdPtr + 2 + 1) = s.cmdPtr + 3 := by
    rw [charVal_eq sc _ (by omega) (by omega)]; omega
  have e4 : charVal sc (s.cmdPtr + 3 + toByte (tbuffer (s.cmdPtr + 2))) =
      s.cmdPtr + 3 + toByte (tbuffer (s.cmdPtr + 2)) := charVal_eq sc _ (by omega) (by omega)
  have hlong : ¬ tlen - (s.cmdPtr + 1) < 3 := by omega
  have hin : ¬ tlen - (s.cmdPtr + 3 + toByte (tbuffer (s.cmdPtr + 2))) < 0 := by omega
  cases hf : flushNeeded s.resPtr (charVal sc (radio s.sends).rlen) <;>
    simp [cmdStep, cmdPacket, hcmd, e1, e2, e3, e4, hlong, hin, hf]

/-- The two parameter sub-commands: what `cmdSetter` does, for either signedness
of plain `char`.  The parameter is accepted exactly when it is present and its
value as a plain `char` is at most `hi`. -/
theorem cmdSetter_spec (c : Consts) (sc : Bool) (tbuffer : Mem) (tlen hi : Int) (fn : RadioFn)
    (s : CmdState) (cmd p : Int) (ev : List Event) (h0 : 0 ≤ p) (h64 : tlen ≤ 64) :
    cmdSetter c sc tbuffer tlen hi fn s cmd p ev =
      if p < tlen ∧ charVal sc (tbuffer p) ≤ hi then
        { s with cmdPtr := p + 1,
                 events := ev ++ [Event.tbufRead p, Event.tbufRead p,
                                  Event.radioCfg fn [toByte (tbuffer p)]] }
      else
        { s with cmdPtr := tlen,
                 events := ev ++ (if p < tlen then [Event.tbufRead p] else []) ++
                                 [sendError c c.ERROR_MALFORMED_CMD cmd p] } := by
  unfold cmdSetter
  by_cases h1 : tlen - p < 1
  · have h2 : ¬ p < tlen := by omega
    simp [h1, h2]
  · have h2 : p < tlen := by omega
    have e1 : charVal sc (p + 1) = p + 1 := charVal_eq sc _ (by omega) (by omega)
    by_cases h3 : charVal sc (tbuffer p) > hi
    · have h4 : ¬ charVal sc (tbuffer p) ≤ hi := by omega
      simp [h1, h2, h3, h4]
    · have h4 : charVal sc (tbuffer p) ≤ hi := by omega
      simp [h1, h2, h3, h4, e1]

/-! ## The claims about `cmdRun` -/

/-- C1: in a structured-mode transfer of length `tlen ≤ 64`, a PACKET
sub-command (at offset `s.cmdPtr`, with its length byte at `s.cmdPtr + 2` inside
the transfer) whose declared payload length exceeds the bytes that remain after
the length byte makes the loop of `cmdRun` run exactly one more iteration: it
emits exactly one MalformedCommand record, makes no radio call (the trace gains
only buffer reads and that record, the oracle index `sends` is unchanged), sets
`cmdPtr = tlen`, and the rest of `cmdRun` is the final flush only. -/
theorem cmdRun_overlong_packet_aborts (c : Consts) (sc : Bool) (radio : Nat → SendResult)
    (tbuffer : Mem) (tlen : Int) (fuel : Nat) (s : CmdState)
    (h0 : 0 ≤ s.cmdPtr) (hlen : s.cmdPtr + 2 < tlen) (h64 : tlen ≤ 64)
    (hcmd : toByte (tbuffer s.cmdPtr) = c.CMD_PACKET)
    (hL : tlen - (s.cmdPtr + 3) < toByte (tbuffer (s.cmdPtr + 2))) :
    cmdRest c sc radio tbuffer tlen (fuel + 1) s =
      cmdFinish { s with
        cmdPtr := tlen,
        events := s.events ++
          (if tlen - (s.cmdPtr + 1) < 3 then [Event.tbufRead s.cmdPtr]
           else [Event.tbufRead s.cmdPtr, Event.tbufRead (s.cmdPtr + 1),
                 Event.tbufRead (s.cmdPtr + 2)]) ++
          [sendError c c.ERROR_MALFORMED_CMD c.CMD_PACKET
            (if tlen - (s.cmdPtr + 1) < 3 then s.cmdPtr + 1 else s.cmdPtr + 3)] } := by
  have hlt : s.cmdPtr < tlen := by omega
  by_cases hshort : tlen - (s.cmdPtr + 1) < 3
  · simp [cmdRest, cmdLoop, hlt, cmdStep_packet_short c sc radio tbuffer tlen s h0 h64 hcmd hlt
      hshort, cmdLoop_done, hshort]
  · have hover : tlen - (s.cmdPtr + 3 + toByte (tbuffer (s.cmdPtr + 2))) < 0 := by omega
    simp [cmdRest, cmdLoop, hlt, cmdStep_packet_overrun c sc radio tbuffer tlen s h0 h64 hcmd
      hshort hover, cmdLoop_done, hshort]

/-- C1 at the transfer `[CMD_PACKET, 0x05, 0x10, 0xAA]`. -/
theorem cmdRun_overlong_packet_aborts_witness :
    cmdRest crazyradio true ackRadio (memOfList [0x00, 0x05, 0x10, 0xAA]) 4 (3 + 1) cmdStart =
      cmdFinish { cmdStart with
        cmdPtr := 4,
        events := cmdStart.events ++
          (if (4 : Int) - (cmdStart.cmdPtr + 1) < 3 then [Event.tbufRead cmdStart.cmdPtr]
           else [Event.tbufRead cmdStart.cmdPtr, Event.tbufRead (cmdStart.cmdPtr + 1),
                 Event.tbufRead (cmdStart.cmdPtr + 2)]) ++
          [sendError crazyradio crazyradio.ERROR_MALFORMED_CMD crazyradio.CMD_PACKET
            (if (4 : Int) - (cmdStart.cmdPtr + 1) < 3 then cmdStart.cmdPtr + 1
             else cmdStart.cmdPtr + 3)] } :=
  cmdRun_overlong_packet_aborts crazyradio true ackRadio (memOfList [0x00, 0x05, 0x10, 0xAA]) 4 3
    cmdStart (by decide) (by decide) (by decide) (by decide) (by decide)

/-- Every iteration of the loop of `cmdRun` advances `cmdPtr`, and never past
`tlen`. -/
theorem cmdStep_advances (c : Consts) (sc : Bool) (radio : Nat → SendResult) (tbuffer : Mem)
    (tlen : Int) (s : CmdState) (h0 : 0 ≤ s.cmdPtr) (hlt : s.cmdPtr < tlen) (h64 : tlen ≤ 64) :
    s.cmdPtr < (cmdStep c sc radio tbuffer tlen s).cmdPtr ∧
      (cmdStep c sc radio tbuffer tlen s).cmdPtr ≤ tlen := by
  have e1 : charVal sc (s.cmdPtr + 1) = s.cmdPtr + 1 := charVal_eq sc _ (by omega) (by omega)
  have e2 : charVal sc (s.cmdPtr + 1 + 1) = s.cmdPtr + 2 := by
    rw [charVal_eq sc _ (by omega) (by omega)]; omega
  have hb := toByte_range (tbuffer (s.cmdPtr + 2))
  unfold cmdStep
  simp only [e1]
  split
  · unfold cmdPacket
    simp only [e1, e2]
    split
    · simp; omega
    · by_cases h3 : tlen - (s.cmdPtr + 2) < 1
      · have e3 : charVal sc (s.cmdPtr + 2 + 1) = charVal sc (s.cmdPtr + 2 + 1) := rfl
        split
        · simp; omega
        · rename_i h4 h5
          have : charVal sc (s.cmdPtr + 2 + 1) = s.cmdPtr + 3 := by
            rw [charVal_eq sc _ (by omega) (by omega)]; omega
          rw [this] at h5
          exfalso; omega
      · have e3 : charVal sc (s.cmdPtr + 2 + 1) = s.cmdPtr + 3 := by
          rw [charVal_eq sc _ (by omega) (by omega)]; omega
        simp only [e3]
        split
        · simp; omega
        · rename_i h4 h5
          have e4 : charVal sc (s.cmdPtr + 3 + toByte (tbuffer (s.cmdPtr + 2))) =
              s.cmdPtr + 3 + toByte (tbuffer (s.cmdPtr + 2)) :=
            charVal_eq sc _ (by omega) (by omega)
          simp only [e4]
          omega
  · split
    · rw [cmdSetter_spec c sc tbuffer tlen 125 _ s _ _ _ (by omega) h64]
      split <;> simp <;> omega
    · split
      · rw [cmdSetter_spec c sc tbuffer tlen 3 _ s _ _ _ (by omega) h64]
        split <;> simp <;> omega
      · simp; omega

/-- The loop of `cmdRun` ends because its condition fails, not because the
iteration bound is reached: `tlen - cmdPtr` iterations always suffice. -/
theorem cmdLoop_exits (c : Consts) (sc : Bool) (radio : Nat → SendResult) (tbuffer : Mem)
    (tlen : Int) (h64 : tlen ≤ 64) (fuel : Nat) :
    ∀ s : CmdState, 0 ≤ s.cmdPtr → s.cmdPtr ≤ tlen → (tlen - s.cmdPtr).toNat ≤ fuel →
      (cmdLoop c sc radio tbuffer tlen fuel s).cmdPtr = tlen := by
  induction fuel with
  | zero =>
    intro s h0 hle hf
    simp only [cmdLoop]
    omega
  | succ n ih =>
    intro s h0 hle hf
    by_cases hlt : s.cmdPtr < tlen
    · have ha := cmdStep_advances c sc radio tbuffer tlen s h0 hlt h64
      simp only [cmdLoop, hlt, if_true]
      exact ih _ (by omega) ha.2 (by omega)
    · simp only [cmdLoop, hlt, if_false]
      omega

/-- A `SET_RADIO_CHANNEL` sub-command at offset `s.cmdPtr`, for either signedness
of plain `char`. -/
theorem cmdStep_setChannel (c : Consts) (sc : Bool) (radio : Nat → SendResult) (tbuffer : Mem)
    (tlen : Int) (s : CmdState) (h0 : 0 ≤ s.cmdPtr) (hlt : s.cmdPtr < tlen) (h64 : tlen ≤ 64)
    (hne : c.SET_RADIO_CHANNEL ≠ c.CMD_PACKET)
    (hcmd : toByte (tbuffer s.cmdPtr) = c.SET_RADIO_CHANNEL) :
    cmdStep c sc radio tbuffer tlen s =
      if s.cmdPtr + 1 < tlen ∧ charVal sc (tbuffer (s.cmdPtr + 1)) ≤ 125 then
        { s with cmdPtr := s.cmdPtr + 1 + 1,
                 events := s.events ++ [Event.tbufRead s.cmdPtr] ++
                   [Event.tbufRead (s.cmdPtr + 1), Event.tbufRead (s.cmdPtr + 1),
                    Event.radioCfg RadioFn.setChannel [toByte (tbuffer (s.cmdPtr + 1))]] }
      else
        { s with cmdPtr := tlen,
                 events := s.events ++ [Event.tbufRead s.cmdPtr] ++
                   (if s.cmdPtr + 1 < tlen then [Event.tbufRead (s.cmdPtr + 1)] else []) ++
                   [sendError c c.ERROR_MALFORMED_CMD c.SET_RADIO_CHANNEL (s.cmdPtr + 1)] } := by
  have e1 : charVal sc (s.cmdPtr + 1) = s.cmdPtr + 1 := charVal_eq sc _ (by omega) (by omega)
  unfold cmdStep
  simp only [hcmd, hne, if_false, if_true, e1]
  exact cmdSetter_spec c sc tbuffer tlen 125 _ s _ _ _ (by omega) h64

/-- A `SET_DATA_RATE` sub-command at offset `s.cmdPtr`, for either signedness of
plain `char`. -/
theorem cmdStep_setDataRate (c : Consts) (sc : Bool) (radio : Nat → SendResult) (tbuffer : Mem)
    (tlen : Int) (s : CmdState) (h0 : 0 ≤ s.cmdPtr) (hlt : s.cmdPtr < tlen) (h64 : tlen ≤ 64)
    (hne : c.SET_DATA_RATE ≠ c.CMD_PACKET) (hne2 : c.SET_DATA_RATE ≠ c.SET_RADIO_CHANNEL)
    (hcmd : toByte (tbuffer s.cmdPtr) = c.SET_DATA_RATE) :
    cmdStep c sc radio tbuffer tlen s =
      if s.cmdPtr + 1 < tlen ∧ charVal sc (tbuffer (s.cmdPtr + 1)) ≤ 3 then
        { s with cmdPtr := s.cmdPtr + 1 + 1,
                 events := s.events ++ [Event.tbufRead s.cmdPtr] ++
                   [Event.tbufRead (s.cmdPtr + 1), Event.tbufRead (s.cmdPtr + 1),
                    Event.radioCfg RadioFn.setDataRate [toByte (tbuffer (s.cmdPtr + 1))]] }
      else
        { s with cmdPtr := tlen,
                 events := s.events ++ [Event.tbufRead s.cmdPtr] ++
                   (if s.cmdPtr + 1 < tlen then [Event.tbufRead (s.cmdPtr + 1)] else []) ++
                   [sendError c c.ERROR_MALFORMED_CMD c.SET_DATA_RATE (s.cmdPtr + 1)] } := by
  have e1 : charVal sc (s.cmdPtr + 1) = s.cmdPtr + 1 := charVal_eq sc _ (by omega) (by omega)
  unfold cmdStep
  simp only [hcmd, hne, hne2, if_false, if_true, e1]
  exact cmdSetter_spec c sc tbuffer tlen 3 _ s _ _ _ (by omega) h64

/-- C2, counterexample: the PACKET `[CMD_PACKET, 0x05, 0x00]` has its
identifier, its length byte `L = 0` and its (empty) payload inside the
transfer, ending exactly at the end of the buffer, yet `cmdRun` answers it with
a MalformedCommand record and sends nothing, for either signedness of `char`;
and after the failed send of `[CMD_PACKET, 0x05, 0x01, 0x09]` the ack byte of
the record is 0 although the received-power detector fired and three retries
were made. -/
theorem cmdRun_empty_packet_at_end_rejected :
    cmdTrace true ackRadio [0x00, 0x05, 0x00] =
        [Event.out1Rearm, Event.tbufRead 0, Event.usbIn1 4 [0xFF, 0x01, 0x00, 1]] ∧
      cmdTrace false ackRadio [0x00, 0x05, 0x00] =
        [Event.out1Rearm, Event.tbufRead 0, Event.usbIn1 4 [0xFF, 0x01, 0x00, 1]] ∧
      cmdTrace true deafRadio [0x00, 0x05, 0x01, 0x09] =
        [Event.out1Rearm, Event.tbufRead 0, Event.tbufRead 1, Event.tbufRead 2,
         Event.radioSendPacket 3 1 [0x09], Event.ledTimeout 2,
         Event.ledSet LedMask.both false, Event.ledSet LedMask.red true,
         Event.rbufStore 0 [0, 0x05, 0, 0], Event.usbIn1 4 [0, 0x05, 0, 0]] := by
  decide

/-- C2, amended: a PACKET sub-command at offset `s.cmdPtr` with at least three
bytes after its command byte and with its `L` payload bytes inside the transfer
draws no error record; `cmdRun` reads the three header bytes, sends exactly the
`L` payload bytes as one acknowledged packet, flushes the accumulator first when
`resPtr + reported length + 4 > 64`, and stores at `resPtr` the record
`[0, id, ack, rlen, first rlen ack bytes]`, where `ack` is 0 after a failed send
and otherwise has bit 0 set, bit 1 = received-power-detect and bits 4..7 = the
retry count, and `rlen` is 0 unless the status has `BIT_TX_DS`; it goes on with
the byte after the payload. -/
theorem cmdRun_packet_sends_and_records (c : Consts) (sc : Bool) (radio : Nat → SendResult)
    (tbuffer : Mem) (tlen : Int) (s : CmdState) (h0 : 0 ≤ s.cmdPtr) (h64 : tlen ≤ 64)
    (hcmd : toByte (tbuffer s.cmdPtr) = c.CMD_PACKET)
    (hhdr : 3 ≤ tlen - (s.cmdPtr + 1))
    (hfit : s.cmdPtr + 3 + toByte (tbuffer (s.cmdPtr + 2)) ≤ tlen) :
    (cmdStep c sc radio tbuffer tlen s).events =
        s.events ++
          [Event.tbufRead s.cmdPtr, Event.tbufRead (s.cmdPtr + 1), Event.tbufRead (s.cmdPtr + 2),
           Event.radioSendPacket (s.cmdPtr + 3) (toByte (tbuffer (s.cmdPtr + 2)))
             (slice tbuffer (s.cmdPtr + 3) (toByte (tbuffer (s.cmdPtr + 2))))] ++
          ledFeedback (charVal sc (radio s.sends).status) ++
          (if flushNeeded s.resPtr (charVal sc (radio s.sends).rlen) then
             [Event.usbIn1 s.resPtr (slice s.rbuffer 0 (sizeT s.resPtr))] else []) ++
          [Event.rbufStore
            (if flushNeeded s.resPtr (charVal sc (radio s.sends).rlen) then 0 else s.resPtr)
            (packetRecord c sc (toByte (tbuffer (s.cmdPtr + 1))) (radio s.sends))] ∧
      (cmdStep c sc radio tbuffer tlen s).rbuffer =
        storeAt s.rbuffer
          (if flushNeeded s.resPtr (charVal sc (radio s.sends).rlen) then 0 else s.resPtr)
          (packetRecord c sc (toByte (tbuffer (s.cmdPtr + 1))) (radio s.sends)) ∧
      (cmdStep c sc radio tbuffer tlen s).cmdPtr =
        s.cmdPtr + 3 + toByte (tbuffer (s.cmdPtr + 2)) ∧
      packetRecord c sc (toByte (tbuffer (s.cmdPtr + 1))) (radio s.sends) =
        [0, toByte (tbuffer (s.cmdPtr + 1)),
         if charVal sc (radio s.sends).status = 0 then 0
         else ((1 + (if (radio s.sends).rpd then 2 else 0) + 16 * ((radio s.sends).retry % 16)
                 : Nat) : Int),
         toByte (if Int.land (charVal sc (radio s.sends).status) c.BIT_TX_DS = 0 then 0
                 else charVal sc (radio s.sends).rlen)] ++
        slice (radio s.sends).ack 0
          (sizeT (if Int.land (charVal sc (radio s.sends).status) c.BIT_TX_DS = 0 then 0
                  else charVal sc (radio s.sends).rlen)) := by
  rw [cmdStep_packet_ok c sc radio tbuffer tlen s h0 h64 hcmd hhdr hfit]
  refine ⟨rfl, rfl, rfl, ?_⟩
  simp only [packetRecord, packetRlen, ackByte_layout]

/-- C2, amended, at the transfer `[CMD_PACKET, 0x05, 0x02, 0xAA, 0xBB]`: the
next command byte is at offset 5. -/
theorem cmdRun_packet_sends_and_records_witness :
    (cmdStep crazyradio true ackRadio (memOfList [0x00, 0x05, 0x02, 0xAA, 0xBB]) 5
        cmdStart).cmdPtr =
      cmdStart.cmdPtr + 3 + toByte (memOfList [0x00, 0x05, 0x02, 0xAA, 0xBB]
        (cmdStart.cmdPtr + 2)) :=
  (cmdRun_packet_sends_and_records crazyradio true ackRadio
    (memOfList [0x00, 0x05, 0x02, 0xAA, 0xBB]) 5 cmdStart
    (by decide) (by decide) (by decide) (by decide) (by decide)).2.2.1

/-- C3, counterexample: for the transfer `[CMD_PACKET, 0x05, 0x10, 0xAA]` the
error record is `[CMD_ERROR, ERROR_MALFORMED_CMD, CMD_PACKET, 3]`: its last
byte is 3, not the offset 0 of the `CMD_PACKET` byte; and for
`[CMD_PACKET, 0x05]` (too few header bytes) it is 1. -/
theorem cmdRun_malformed_offset_example :
    cmdTrace true ackRadio [0x00, 0x05, 0x10, 0xAA] =
        [Event.out1Rearm, Event.tbufRead 0, Event.tbufRead 1, Event.tbufRead 2,
         Event.usbIn1 4 [0xFF, 0x01, 0x00, 3]] ∧
      cmdTrace false ackRadio [0x00, 0x05, 0x10, 0xAA] =
        [Event.out1Rearm, Event.tbufRead 0, Event.tbufRead 1, Event.tbufRead 2,
         Event.usbIn1 4 [0xFF, 0x01, 0x00, 3]] ∧
      cmdTrace true ackRadio [0x00, 0x05] =
        [Event.out1Rearm, Event.tbufRead 0, Event.usbIn1 4 [0xFF, 0x01, 0x00, 1]] := by
  decide

/-- C3, amended: for a malformed PACKET sub-command at offset `s.cmdPtr` the
record written to USB IN is the 4 bytes `[CMD_ERROR, ERROR_MALFORMED_CMD,
CMD_PACKET, pos]` where `pos` is the read pointer at the moment of detection:
the offset of the `CMD_PACKET` byte plus 1 when fewer than three bytes follow
it, plus 3 when the declared length overruns the buffer. -/
theorem cmdRun_malformed_record (c : Consts) (sc : Bool) (radio : Nat → SendResult)
    (tbuffer : Mem) (tlen : Int) (s : CmdState)
    (h0 : 0 ≤ s.cmdPtr) (hlt : s.cmdPtr < tlen) (h64 : tlen ≤ 64)
    (hcmd : toByte (tbuffer s.cmdPtr) = c.CMD_PACKET)
    (hmal : tlen - (s.cmdPtr + 1) < 3 ∨
      tlen - (s.cmdPtr + 3 + toByte (tbuffer (s.cmdPtr + 2))) < 0) :
    (cmdStep c sc radio tbuffer tlen s).events =
      s.events ++
        (if tlen - (s.cmdPtr + 1) < 3 then [Event.tbufRead s.cmdPtr]
         else [Event.tbufRead s.cmdPtr, Event.tbufRead (s.cmdPtr + 1),
               Event.tbufRead (s.cmdPtr + 2)]) ++
        [Event.usbIn1 4 [toByte c.CMD_ERROR, toByte c.ERROR_MALFORMED_CMD, c.CMD_PACKET,
           if tlen - (s.cmdPtr + 1) < 3 then s.cmdPtr + 1 else s.cmdPtr + 3]] := by
  have hp : toByte c.CMD_PACKET = c.CMD_PACKET := by rw [← hcmd, toByte_toByte]
  by_cases hshort : tlen - (s.cmdPtr + 1) < 3
  · rw [cmdStep_packet_short c sc radio tbuffer tlen s h0 h64 hcmd hlt hshort]
    simp [hshort, sendError, hp, toByte_eq (s.cmdPtr + 1) (by omega) (by omega)]
  · have hover : tlen - (s.cmdPtr + 3 + toByte (tbuffer (s.cmdPtr + 2))) < 0 := by
      rcases hmal with h | h
      · exact absurd h hshort
      · exact h
    rw [cmdStep_packet_overrun c sc radio tbuffer tlen s h0 h64 hcmd hshort hover]
    simp [hshort, sendError, hp, toByte_eq (s.cmdPtr + 3) (by omega) (by omega)]

/-- C3, amended, at the transfer `[CMD_PACKET, 0x05, 0x10, 0xAA]`. -/
theorem cmdRun_malformed_record_witness :
    (cmdStep crazyradio true ackRadio (memOfList [0x00, 0x05, 0x10, 0xAA]) 4 cmdStart).events =
      cmdStart.events ++
        (if (4 : Int) - (cmdStart.cmdPtr + 1) < 3 then [Event.tbufRead cmdStart.cmdPtr]
         else [Event.tbufRead cmdStart.cmdPtr, Event.tbufRead (cmdStart.cmdPtr + 1),
               Event.tbufRead (cmdStart.cmdPtr + 2)]) ++
        [Event.usbIn1 4 [toByte crazyradio.CMD_ERROR, toByte crazyradio.ERROR_MALFORMED_CMD,
           crazyradio.CMD_PACKET,
           if (4 : Int) - (cmdStart.cmdPtr + 1) < 3 then cmdStart.cmdPtr + 1
           else cmdStart.cmdPtr + 3]] :=
  cmdRun_malformed_record crazyradio true ackRadio (memOfList [0x00, 0x05, 0x10, 0xAA]) 4
    cmdStart (by decide) (by decide) (by decide) (by decide) (by decide)

/-- C10, the code at the failing inputs: with signed plain `char`, the parameter
byte 200 of `[SET_RADIO_CHANNEL, 200]` and of `[SET_DATA_RATE, 200]` passes the
range check (`tbuffer[cmdPtr]` is -56 there), the setter is called with it and no
error record is emitted; a byte above the bound that is below 128 is rejected. -/
theorem cmdRun_setter_accepts_bytes_above_127 :
    cmdTrace true deafRadio [0x01, 200] =
        [Event.out1Rearm, Event.tbufRead 0, Event.tbufRead 1, Event.tbufRead 1,
         Event.radioCfg RadioFn.setChannel [200]] ∧
      cmdTrace true deafRadio [0x03, 200] =
        [Event.out1Rearm, Event.tbufRead 0, Event.tbufRead 1, Event.tbufRead 1,
         Event.radioCfg RadioFn.setDataRate [200]] ∧
      cmdTrace true deafRadio [0x01, 126] =
        [Event.out1Rearm, Event.tbufRead 0, Event.tbufRead 1,
         Event.usbIn1 4 [0xFF, 0x01, 0x01, 1]] := by
  decide

/-- With unsigned plain `char` the same transfers are rejected, as the range
check intends. -/
theorem cmdRun_setter_unsigned_example :
    cmdTrace false deafRadio [0x01, 200] =
        [Event.out1Rearm, Event.tbufRead 0, Event.tbufRead 1,
         Event.usbIn1 4 [0xFF, 0x01, 0x01, 1]] ∧
      cmdTrace false deafRadio [0x03, 200] =
        [Event.out1Rearm, Event.tbufRead 0, Event.tbufRead 1,
         Event.usbIn1 4 [0xFF, 0x01, 0x03, 1]] := by
  decide

/-! ## The claims about `legacyRun` -/

/-- With signed plain `char` no byte compares equal to 255: the tests
`bulkAddress[3] == CMD_SINGLE_TX` and `bulkAddress[4] != 0xFF` of `legacyRun` are
constant. -/
theorem charVal_signed_ne_255 (x : Int) : charVal true x ≠ 255 := by
  simp only [charVal, true_and]
  split <;> omega

/-- A one-byte store read back. -/
theorem storeAt_single (m : Mem) (i b : Int) : storeAt m i [b] i = b := by
  simp [storeAt]

/-- Bit 0 of the ack byte is set exactly after a successful send. -/
theorem ackByte_bit0 (status : Int) (rpd : Bool) (retry : Nat) :
    ackByte status rpd retry % 2 = 1 ↔ status ≠ 0 := by
  rw [ackByte_layout]
  by_cases h : status = 0
  · simp [h]
  · cases rpd <;> simp [h] <;> omega

/-- With signed plain `char` the single-transmission branch of `legacyRun` is
never taken: every transfer goes through the bulk loop. -/
theorem legacySend_signed (radio : Nat → SendResult) (needAck : Bool) (tbuffer : Mem)
    (tlen : Int) (g : State) :
    legacySend true radio needAck tbuffer tlen g =
      legacyLoop true radio needAck tbuffer tlen tlen.toNat
        { cmdPtr := charVal true (0 + 1), status := 0, rlen := 0, rbuffer := g.rbuffer,
          bulkAddress := storeAt g.bulkAddress 3 [toByte (tbuffer 0)],
          bulkNodePacket := g.bulkNodePacket, sends := 0,
          events := [Event.out1Rearm, Event.tbufRead 0] } := by
  simp [legacySend, CMD_SINGLE_TX, charVal_signed_ne_255]

/-- With signed plain `char` every sub-record is transmitted, whatever its index
byte: the trace of one iteration of the bulk loop always holds an address change
and a send. -/
theorem legacyStep_signed_sends (radio : Nat → SendResult) (needAck : Bool) (tbuffer : Mem)
    (s : LegacyState) :
    ∃ addr p1 p2 p3 node,
      (legacyStep true radio needAck tbuffer s).events =
        s.events ++ [Event.tbufRead s.cmdPtr, Event.radioCfg RadioFn.setAddress addr,
          Event.tbufRead p1, Event.tbufRead p2, Event.tbufRead p3,
          if needAck then Event.radioSendNode node else Event.radioSendNodeNoAck node] := by
  cases needAck <;>
    simp [legacyStep, charVal_signed_ne_255]

/-- C4, the code at the failing input: with signed plain `char`, the sub-record
with index 0xFF of the transfer `[0xE7, 0xFF, 0x01, 0x02, 0x03]` is not skipped:
the radio address is set with low byte 0xFF and the node packet is sent.  (The
transfer `[0xE7, 0x01, 0xFF, 0x00, 0xFF]` of the claim holds one sub-record,
index 1, and yields one transmission.) -/
theorem legacyRun_index_ff_is_sent :
    legacyTrace true ackRadio [0xE7, 0xFF, 0x01, 0x02, 0x03] =
        [Event.out1Rearm, Event.tbufRead 0, Event.tbufRead 1,
         Event.radioCfg RadioFn.setAddress [0xE7, 0xE7, 0xE7, 0xE7, 0xFF],
         Event.tbufRead 2, Event.tbufRead 3, Event.tbufRead 4,
         Event.radioSendNode [0x00, 0x01, 0x02, 0x03],
         Event.ledTimeout 2, Event.ledSet LedMask.both false, Event.ledSet LedMask.green true,
         Event.in1Deactivate, Event.usbIn1 3 [0x33, 9, 8]] ∧
      legacyTrace true ackRadio [0xE7, 0x01, 0xFF, 0x00, 0xFF] =
        [Event.out1Rearm, Event.tbufRead 0, Event.tbufRead 1,
         Event.radioCfg RadioFn.setAddress [0xE7, 0xE7, 0xE7, 0xE7, 0x01],
         Event.tbufRead 2, Event.tbufRead 3, Event.tbufRead 4,
         Event.radioSendNode [0x00, 0xFF, 0x00, 0xFF],
         Event.ledTimeout 2, Event.ledSet LedMask.both false, Event.ledSet LedMask.green true,
         Event.in1Deactivate, Event.usbIn1 3 [0x33, 9, 8]] := by
  decide

/-- With unsigned plain `char` the sub-record with index 0xFF is skipped. -/
theorem legacyRun_index_ff_unsigned_example :
    legacyTrace false ackRadio [0xE7, 0xFF, 0x01, 0x02, 0x03] =
      [Event.out1Rearm, Event.tbufRead 0, Event.tbufRead 1,
       Event.ledTimeout 2, Event.ledSet LedMask.both false, Event.ledSet LedMask.red true,
       Event.in1Deactivate, Event.usbIn1 1 [0]] := by
  decide

/-- C5, the code at the failing input: with signed plain `char`, the transfer
`[0xFF, 0x01, 0x02, 0x03, 0x04]`, which begins with `CMD_SINGLE_TX`, is not sent
as one packet `[0x01, 0x02, 0x03, 0x04]`: it is taken for a bulk transfer, the
radio address is changed to `.. 0xFF 0x01` and the node packet
`[0x00, 0x02, 0x03, 0x04]` is sent. -/
theorem legacyRun_single_tx_not_taken :
    legacyTrace true ackRadio [0xFF, 0x01, 0x02, 0x03, 0x04] =
      [Event.out1Rearm, Event.tbufRead 0, Event.tbufRead 1,
       Event.radioCfg RadioFn.setAddress [0xE7, 0xE7, 0xE7, 0xFF, 0x01],
       Event.tbufRead 2, Event.tbufRead 3, Event.tbufRead 4,
       Event.radioSendNode [0x00, 0x02, 0x03, 0x04],
       Event.ledTimeout 2, Event.ledSet LedMask.both false, Event.ledSet LedMask.green true,
       Event.in1Deactivate, Event.usbIn1 3 [0x33, 9, 8]] := by
  decide

/-- With unsigned plain `char` a transfer that begins with `CMD_SINGLE_TX` is
sent as exactly one acknowledged packet holding bytes 1 .. tlen-1, with no
address change, and bit 0 of the first answer byte is set exactly when the send
reported success. -/
theorem legacyRun_single_tx_unsigned (c : Consts) (radio : Nat → SendResult) (rpd : Bool)
    (retry : Nat) (o : Out1) (g : State) (hfree : o.busy = false)
    (hcarrier : g.contCarrier = false) (h1 : 1 ≤ o.bc) (h64 : o.bc ≤ 64)
    (hfirst : toByte (o.buf 0) = CMD_SINGLE_TX) :
    (legacyRun c false radio rpd retry o g).2 =
        [Event.out1Rearm, Event.tbufRead 0,
         Event.radioSendPacket 1 (o.bc - 1) (slice o.buf 1 (o.bc - 1))] ++
        ledFeedback (toByte (radio 0).status) ++
        [Event.in1Deactivate,
         Event.usbIn1 (legacyRlen c (toByte (radio 0).status) (toByte (radio 0).rlen) + 1)
           (ackByte (toByte (radio 0).status) rpd retry ::
             slice (radio 0).ack 0
               (sizeT (legacyRlen c (toByte (radio 0).status) (toByte (radio 0).rlen))))] ∧
      (ackByte (toByte (radio 0).status) rpd retry % 2 = 1 ↔ toByte (radio 0).status ≠ 0) := by
  have htlen : fetchTlen false o.bc = o.bc := by
    simp only [fetchTlen, charVal_unsigned, toByte_eq o.bc (by omega) (by omega)]
    split <;> omega
  have hcopy : memcpy g.tbuffer o.buf o.bc 0 = o.buf 0 := by
    simp only [memcpy, sizeT]
    rw [if_pos]
    omega
  have hsl : slice (memcpy g.tbuffer o.buf o.bc) 1 (o.bc - 1) = slice o.buf 1 (o.bc - 1) := by
    simp only [slice]
    apply List.map_congr_left
    intro k hk
    have hk2 : k < (o.bc - 1).toNat := List.mem_range.mp hk
    simp only [memcpy, sizeT]
    rw [if_pos]
    omega
  have t1 : toByte 1 = 1 := by decide
  have t255 : toByte CMD_SINGLE_TX = CMD_SINGLE_TX := by decide
  constructor
  · simp [legacyRun, hfree, hcarrier, htlen, legacySend, storeAt_single, hcopy, toByte_toByte,
      hfirst, charVal_unsigned, legacyAnswer, hsl, t1, t255]
  · exact ackByte_bit0 _ _ _

/-! ## The channel scan -/

theorem radioEvents_append (a b : List Event) :
    radioEvents (a ++ b) = radioEvents a ++ radioEvents b := by
  simp [radioEvents]

theorem filter_isRadio_ledFeedback (status : Int) :
    List.filter Event.isRadio (ledFeedback status) = [] := by
  unfold ledFeedback
  split <;> rfl

theorem radioEvents_ledFeedback (status : Int) : radioEvents (ledFeedback status) = [] :=
  filter_isRadio_ledFeedback status

theorem succeeded_length_le (sc : Bool) (radio : Nat → SendResult) (chs : List Int) :
    ∀ n, (succeeded sc radio n chs).length ≤ chs.length := by
  induction chs with
  | nil => intro n; simp [succeeded]
  | cons ch rest ih =>
    intro n
    have := ih (n + 1)
    simp only [succeeded]
    split <;> simp <;> omega

theorem sweepFrom_length (i inc : Int) (n : Nat) : (sweepFrom i inc n).length = n := by
  induction n generalizing i with
  | zero => rfl
  | succ k ih => simp [sweepFrom, ih]

/-- The members of a sweep: `i + inc * k` for `k < n`. -/
theorem mem_sweepFrom (inc : Int) (n : Nat) :
    ∀ (i ch : Int), ch ∈ sweepFrom i inc n ↔ ∃ k : Nat, k < n ∧ ch = i + inc * k := by
  induction n with
  | zero => intro i ch; simp [sweepFrom]
  | succ m ih =>
    intro i ch
    simp only [sweepFrom, List.mem_cons, ih]
    constructor
    · rintro (h | ⟨k, hk, h⟩)
      · exact ⟨0, by omega, by simp [h]⟩
      · exact ⟨k + 1, by omega, by rw [h]; push_cast; ring⟩
    · rintro ⟨k, hk, h⟩
      cases k with
      | zero => left; simpa using h
      | succ j => right; exact ⟨j, by omega, by rw [h]; push_cast; ring⟩

/-- Storing one more byte right after the first `n` bytes of a buffer. -/
theorem slice_storeAt_snoc (m : Mem) (n b : Int) (hn : 0 ≤ n) :
    slice (storeAt m n [b]) 0 (n + 1) = slice m 0 n ++ [b] := by
  have h1 : (n + 1).toNat = n.toNat + 1 := by omega
  simp only [slice, h1, List.range_succ, List.map_append, List.map_cons, List.map_nil]
  congr 1
  · apply List.map_congr_left
    intro k hk
    have hk2 : k < n.toNat := List.mem_range.mp hk
    simp only [storeAt]
    rw [if_neg]
    omega
  · have h2 : (0 : Int) + (n.toNat : Int) = n := by omega
    rw [h2, storeAt_single]

/-- After `memcpy(tbuffer, src, n)` of at most 64 bytes, the bytes of `tbuffer`
inside the copied range are those of the source buffer (`OUT1BUF` in the
engines, `OUT0BUF` in the scan). -/
theorem slice_memcpy (dst src : Mem) (n off len : Int) (h0 : 0 ≤ off) (hle : off + len ≤ n)
    (hn : n ≤ 64) :
    slice (memcpy dst src n) off len = slice src off len := by
  simp only [slice]
  apply List.map_congr_left
  intro k hk
  have hk2 : k < len.toNat := List.mem_range.mp hk
  simp only [memcpy, sizeT]
  rw [if_pos]
  omega

/-- One iteration of the scan loop, while fewer than 63 results are recorded. -/
theorem scanStep_spec (sc : Bool) (radio : Nat → SendResult) (tbuffer : Mem) (length inc : Int)
    (s : ScanState) (h0 : 0 ≤ s.scannLength) (h63 : s.scannLength < 63) :
    (scanStep sc radio tbuffer length inc s).i = s.i + inc ∧
      (scanStep sc radio tbuffer length inc s).sends = s.sends + 1 ∧
      radioEvents (scanStep sc radio tbuffer length inc s).events =
        radioEvents s.events ++ probeCalls length (slice tbuffer 0 length) s.i ∧
      (scanStep sc radio tbuffer length inc s).scannLength =
        s.scannLength + (succeeded sc radio s.sends [s.i]).length ∧
      slice (scanStep sc radio tbuffer length inc s).in0buf 0
          (scanStep sc radio tbuffer length inc s).scannLength =
        slice s.in0buf 0 s.scannLength ++ (succeeded sc radio s.sends [s.i]).map toByte := by
  have e1 : charVal sc (s.scannLength + 1) = s.scannLength + 1 :=
    charVal_eq sc _ (by omega) (by omega)
  by_cases hok : charVal sc (radio s.sends).status = 0
  · simp [scanStep, hok, succeeded, filter_isRadio_ledFeedback, probeCalls,
      radioEvents, Event.isRadio]
  · simp [scanStep, hok, succeeded, filter_isRadio_ledFeedback, probeCalls,
      radioEvents, Event.isRadio, e1, slice_storeAt_snoc _ _ _ h0]

/-- The scan loop from any loop state with at most 63 recorded results: it makes
`m` probes, on the channels `i, i+inc, ..`, each a channel change followed by a
send; it records exactly the channels whose send succeeded; every probe is made
on a channel `≤ stop` and while fewer than 63 results are recorded; and, the
iteration bound being large enough, it stops because its condition fails. -/
theorem scanLoop_spec (sc : Bool) (radio : Nat → SendResult) (tbuffer : Mem)
    (length inc stop : Int) (hinc : 1 ≤ inc) (fuel : Nat) :
    ∀ s : ScanState, 0 ≤ s.scannLength → s.scannLength ≤ 63 →
      ∃ m : Nat,
        (scanLoop sc radio tbuffer length inc stop fuel s).sends = s.sends + m ∧
        (scanLoop sc radio tbuffer length inc stop fuel s).i = s.i + inc * m ∧
        radioEvents (scanLoop sc radio tbuffer length inc stop fuel s).events =
          radioEvents s.events ++
            (sweepFrom s.i inc m).flatMap (probeCalls length (slice tbuffer 0 length)) ∧
        (scanLoop sc radio tbuffer length inc stop fuel s).scannLength =
          s.scannLength + (succeeded sc radio s.sends (sweepFrom s.i inc m)).length ∧
        slice (scanLoop sc radio tbuffer length inc stop fuel s).in0buf 0
            (scanLoop sc radio tbuffer length inc stop fuel s).scannLength =
          slice s.in0buf 0 s.scannLength ++
            (succeeded sc radio s.sends (sweepFrom s.i inc m)).map toByte ∧
        (scanLoop sc radio tbuffer length inc stop fuel s).scannLength ≤ 63 ∧
        (∀ k : Nat, k < m → s.i + inc * k ≤ stop ∧
          s.scannLength + (succeeded sc radio s.sends (sweepFrom s.i inc k)).length < 63) ∧
        ((stop + 1 - s.i).toNat ≤ fuel →
          ¬ ((scanLoop sc radio tbuffer length inc stop fuel s).i < stop + 1 ∧
             (scanLoop sc radio tbuffer length inc stop fuel s).scannLength < 63)) := by
  induction fuel with
  | zero =>
    intro s h0 h63
    refine ⟨0, ?_⟩
    simp only [scanLoop, sweepFrom, succeeded]
    refine ⟨rfl, by simp, by simp, by simp, by simp, h63, ?_, ?_⟩
    · intro k hk; omega
    · intro hf; omega
  | succ n ih =>
    intro s h0 h63
    by_cases hc : s.i < stop + 1 ∧ s.scannLength < MAX_SCANN_LENGTH
    · have hlt : s.scannLength < 63 := hc.2
      obtain ⟨hi, hs, hev, hsl, hmem⟩ := scanStep_spec sc radio tbuffer length inc s h0 hlt
      have hone := succeeded_length_le sc radio [s.i] s.sends
      simp only [List.length_singleton] at hone
      obtain ⟨m, gs, gi, gev, gsl, gmem, g63, gpre, gexit⟩ :=
        ih (scanStep sc radio tbuffer length inc s) (by rw [hsl]; omega) (by rw [hsl]; omega)
      have hsucc : ∀ k : Nat, succeeded sc radio s.sends (sweepFrom s.i inc (k + 1)) =
          succeeded sc radio s.sends [s.i] ++
            succeeded sc radio (s.sends + 1) (sweepFrom (s.i + inc) inc k) := by
        intro k
        simp only [sweepFrom, succeeded]
        split <;> simp
      refine ⟨m + 1, ?_⟩
      simp only [scanLoop, hc, and_self, if_true]
      rw [hs] at gs gsl gmem gpre
      rw [hi] at gi gev gsl gmem gpre gexit
      refine ⟨by rw [gs]; omega, by rw [gi]; push_cast; ring, ?_, ?_, ?_, g63, ?_, ?_⟩
      · rw [gev, hev]
        simp [sweepFrom, List.append_assoc]
      · rw [gsl, hsl, hsucc]
        simp only [List.length_append]
        omega
      · rw [gmem, hmem, hsucc]
        simp
      · intro k hk
        cases k with
        | zero =>
          simp only [sweepFrom, succeeded, List.length_nil]
          exact ⟨by simp; omega, by omega⟩
        | succ j =>
          obtain ⟨p1, p2⟩ := gpre j (by omega)
          rw [hsl] at p2
          rw [hsucc, List.length_append]
          refine ⟨?_, by omega⟩
          have : s.i + inc * ((j + 1 : Nat) : Int) = s.i + inc + inc * (j : Int) := by
            push_cast; ring
          rw [this]
          exact p1
      · intro hf
        apply gexit
        omega
    · refine ⟨0, ?_⟩
      simp only [scanLoop, hc, if_false, sweepFrom, succeeded]
      refine ⟨rfl, by simp, by simp, by simp, by simp, h63, ?_, ?_⟩
      · intro k hk; omega
      · intro _; exact hc

theorem succeeded_subset (sc : Bool) (radio : Nat → SendResult) (chs : List Int) :
    ∀ n x, x ∈ succeeded sc radio n chs → x ∈ chs := by
  induction chs with
  | nil => intro n x hx; simp [succeeded] at hx
  | cons ch rest ih =>
    intro n x hx
    simp only [succeeded] at hx
    split at hx
    · rcases List.mem_cons.mp hx with h | h
      · simp [h]
      · exact List.mem_cons_of_mem _ (ih _ _ h)
    · exact List.mem_cons_of_mem _ (ih _ _ hx)

/-- A sweep with a positive step is strictly ascending. -/
theorem sweepFrom_ascending (inc : Int) (hinc : 1 ≤ inc) (n : Nat) :
    ∀ i : Int, (sweepFrom i inc n).Pairwise (fun a b => a < b) := by
  induction n with
  | zero => intro i; simp [sweepFrom]
  | succ m ih =>
    intro i
    simp only [sweepFrom, List.pairwise_cons]
    refine ⟨?_, ih _⟩
    intro b hb
    obtain ⟨k, _, hk⟩ := (mem_sweepFrom inc m (i + inc) b).mp hb
    have : 0 ≤ inc * (k : Int) := Int.mul_nonneg (by omega) (by omega)
    omega

theorem scanInc_cases (c : Consts) (dataRate : Int) :
    scanInc c dataRate = 1 ∨ scanInc c dataRate = 2 := by
  unfold scanInc
  split <;> simp

/-- The host-to-device `CHANNEL_SCANN` branch is the one taken for a request
with that code (when no earlier test of the chain matches it), request type
0x40 and a data stage. -/
theorem vendorBranches_scan (c : Consts) (sc : Bool) (radio : Nat → SendResult)
    (dataRate : Int) (out0buf : Mem) (setup : Setup) (g : State)
    (hreq : setup.request = c.CHANNEL_SCANN) (hd : c.CHANNEL_SCANN ∉ c.beforeScan)
    (hty : setup.requestType = 0x40) (hlen : 1 ≤ setup.length) :
    vendorBranches c sc radio dataRate out0buf setup g =
      some ({ g with tbuffer := memcpy g.tbuffer out0buf setup.length,
                     rbuffer := (channelScan c sc radio dataRate out0buf setup g).rbuffer,
                     in0buf := (channelScan c sc radio dataRate out0buf setup g).in0buf,
                     scannLength :=
                       (channelScan c sc radio dataRate out0buf setup g).scannLength },
            (channelScan c sc radio dataRate out0buf setup g).events ++ [Event.usbAckSetup]) := by
  simp only [Consts.beforeScan, List.mem_cons, List.mem_singleton, List.not_mem_nil, or_false,
    not_or] at hd
  obtain ⟨h1, h2, h3, h4, h5, h6, h7, h8, h9, h10, h11, h12, h13, h14, h15, h16, h17, h18,
    h19⟩ := hd
  have hl : ¬ setup.length < 1 := by omega
  simp [vendorBranches, hreq, hty, hl, h1, h2, h3, h4, h5, h6, h7, h8, h9, h10, h11, h12, h13,
    h14, h15, h16, h17, h18, h19]

/-- The sweep `channelScan` makes, in terms of the reference sequences. -/
theorem channelScan_spec (c : Consts) (sc : Bool) (radio : Nat → SendResult) (dataRate : Int)
    (out0buf : Mem) (setup : Setup) (g : State) :
    ∃ m : Nat,
      (channelScan c sc radio dataRate out0buf setup g).i =
        scanStart setup + scanInc c dataRate * m ∧
      radioEvents (channelScan c sc radio dataRate out0buf setup g).events =
        (sweepFrom (scanStart setup) (scanInc c dataRate) m).flatMap
          (probeCalls setup.length
            (slice (memcpy g.tbuffer out0buf setup.length) 0 setup.length)) ∧
      (channelScan c sc radio dataRate out0buf setup g).scannLength =
        (succeeded sc radio 0 (sweepFrom (scanStart setup) (scanInc c dataRate) m)).length ∧
      slice (channelScan c sc radio dataRate out0buf setup g).in0buf 0
          (channelScan c sc radio dataRate out0buf setup g).scannLength =
        succeeded sc radio 0 (sweepFrom (scanStart setup) (scanInc c dataRate) m) ∧
      (channelScan c sc radio dataRate out0buf setup g).scannLength ≤ 63 ∧
      (∀ k : Nat, k < m → scanStart setup + scanInc c dataRate * k ≤ scanStop setup ∧
        (succeeded sc radio 0
          (sweepFrom (scanStart setup) (scanInc c dataRate) k)).length < 63) ∧
      ¬ ((channelScan c sc radio dataRate out0buf setup g).i < scanStop setup + 1 ∧
         (channelScan c sc radio dataRate out0buf setup g).scannLength < 63) := by
  have hinc : 1 ≤ scanInc c dataRate := by
    rcases scanInc_cases c dataRate with h | h <;> omega
  obtain ⟨m, _, gi, gev, gsl, gmem, g63, gpre, gexit⟩ :=
    scanLoop_spec sc radio (memcpy g.tbuffer out0buf setup.length) setup.length
      (scanInc c dataRate) (scanStop setup) hinc (scanStop setup + 1 - scanStart setup).toNat
      { i := scanStart setup, scannLength := 0, in0buf := g.in0buf, rbuffer := g.rbuffer,
        sends := 0, events := [Event.out0Arm] } (by simp) (by simp)
  have hstart := toByte_range setup.value
  have hstop := toByte_range (if setup.index > 125 then 125 else setup.index)
  refine ⟨m, gi, ?_, ?_, ?_, g63, ?_, gexit (le_refl _)⟩
  · simpa [radioEvents, Event.isRadio] using gev
  · simpa using gsl
  · have hid : List.map toByte (succeeded sc radio 0
        (sweepFrom (scanStart setup) (scanInc c dataRate) m)) =
        succeeded sc radio 0 (sweepFrom (scanStart setup) (scanInc c dataRate) m) := by
      conv_rhs => rw [← List.map_id (succeeded sc radio 0
        (sweepFrom (scanStart setup) (scanInc c dataRate) m))]
      apply List.map_congr_left
      intro x hx
      obtain ⟨k, hk, rfl⟩ := (mem_sweepFrom _ _ _ _).mp (succeeded_subset sc radio _ _ _ hx)
      have hk2 := (gpre k hk).1
      have : 0 ≤ scanInc c dataRate * (k : Int) := Int.mul_nonneg (by omega) (by omega)
      simp only [scanStart, scanStop] at hk2 ⊢
      exact toByte_eq _ (by omega) (by omega)
    have : slice g.in0buf 0 0 = [] := rfl
    rw [← hid]
    simpa [this] using gmem
  · intro k hk
    simpa using gpre k hk

/-- C6, counterexample: a 2M scan request with value 256 and index 3.  Read as
the claim states it, start = 256 exceeds stop = 3 and no channel is probed; the
code stores the value into `unsigned char start`, which gives 0, and probes the
channels 0 and 2. -/
theorem channelScan_start_is_low_byte :
    radioEvents (handleUsbVendorSetup crazyradio true ackRadio 4 crazyradio.DATA_RATE_2M
        (memOfList [7]) (scanSetup 256 3) (initState crazyradio)).2 =
      [Event.radioCfg RadioFn.setChannel [0], Event.radioSendPacket 0 1 [7],
       Event.radioCfg RadioFn.setChannel [2], Event.radioSendPacket 0 1 [7]] := by
  decide

/-- C6, amended: a host-to-device `CHANNEL_SCANN` request with data length
between 1 and 64 (the size of `tbuffer`, into which the data stage is copied),
handled in the configured state while the radio data rate is 2M, with start =
the low byte of the request value and stop = the request index clamped to 125:
whatever the sends report, the radio calls are, for each channel
`start, start+2, ..` up to the largest one `≤ stop` (none if `start > stop`),
once and in ascending order, a channel change followed by one probe send; that
is at most 63 channels, so the 63-entry cap never cuts the sweep short, and at
most 63 entries are recorded.  The probe is the data stage, `OUT0BUF[0 .. length)`. -/
theorem channelScan_2M_sweep (c : Consts) (sc : Bool) (radio : Nat → SendResult)
    (usbState : Int) (out0buf : Mem) (setup : Setup) (g : State)
    (hconf : usbState ≥ c.CONFIGURED) (hreq : setup.request = c.CHANNEL_SCANN)
    (hd : c.CHANNEL_SCANN ∉ c.beforeScan) (hty : setup.requestType = 0x40)
    (hlen : 1 ≤ setup.length) (hfit : setup.length ≤ 64) (hidx : 0 ≤ setup.index) :
    radioEvents (handleUsbVendorSetup c sc radio usbState c.DATA_RATE_2M out0buf setup g).2 =
        (sweepFrom (toByte setup.value) 2
            ((min setup.index 125 + 2 - toByte setup.value) / 2).toNat).flatMap
          (probeCalls setup.length (slice out0buf 0 setup.length)) ∧
      (∀ ch : Int,
        ch ∈ sweepFrom (toByte setup.value) 2
            ((min setup.index 125 + 2 - toByte setup.value) / 2).toNat ↔
          toByte setup.value ≤ ch ∧ ch ≤ min setup.index 125 ∧
            (ch - toByte setup.value) % 2 = 0) ∧
      (sweepFrom (toByte setup.value) 2
          ((min setup.index 125 + 2 - toByte setup.value) / 2).toNat).Pairwise
        (fun a b => a < b) ∧
      ((min setup.index 125 + 2 - toByte setup.value) / 2).toNat ≤ 63 ∧
      (handleUsbVendorSetup c sc radio usbState c.DATA_RATE_2M out0buf setup g).1.scannLength
        ≤ 63 := by
  have hstart := toByte_range setup.value
  have hstop : scanStop setup = min setup.index 125 := by
    unfold scanStop
    split
    · rw [toByte_eq _ (by omega) (by omega)]; omega
    · rw [toByte_eq _ (by omega) (by omega)]; omega
  have hinc : scanInc c c.DATA_RATE_2M = 2 := by simp [scanInc]
  obtain ⟨m, gi, gev, gsl, _, g63, gpre, gexit⟩ :=
    channelScan_spec c sc radio c.DATA_RATE_2M out0buf setup g
  rw [slice_memcpy g.tbuffer out0buf setup.length 0 setup.length (le_refl _) (by omega) hfit]
    at gev
  rw [hinc] at gi gev gsl gpre
  rw [hstop] at gpre gexit
  simp only [scanStart] at gi gev gsl gpre
  have hle := succeeded_length_le sc radio (sweepFrom (toByte setup.value) 2 m) 0
  rw [sweepFrom_length] at hle
  have hlast : ∀ k : Nat, k < m → toByte setup.value + 2 * (k : Int) ≤ min setup.index 125 :=
    fun k hk => (gpre k hk).1
  have hm : m = ((min setup.index 125 + 2 - toByte setup.value) / 2).toNat := by
    have h1 : ∀ k : Nat, k + 1 = m → toByte setup.value + 2 * (k : Int) ≤ min setup.index 125 :=
      fun k hk => hlast k (by omega)
    rcases Nat.eq_zero_or_pos m with h0 | hpos
    · subst h0
      simp only [Nat.cast_zero, mul_zero, add_zero] at gi
      omega
    · have h2 := h1 (m - 1) (by omega)
      omega
  rw [← hm]
  refine ⟨?_, ?_, sweepFrom_ascending 2 (by omega) m _, by omega, ?_⟩
  · simp only [handleUsbVendorSetup, hconf, if_true,
      vendorBranches_scan c sc radio c.DATA_RATE_2M out0buf setup g hreq hd hty hlen]
    rw [radioEvents_append, gev]
    simp [radioEvents, Event.isRadio]
  · intro ch
    rw [mem_sweepFrom]
    constructor
    · rintro ⟨k, hk, rfl⟩
      have := hlast k hk
      omega
    · rintro ⟨h1, h2, h3⟩
      refine ⟨((ch - toByte setup.value) / 2).toNat, by omega, by omega⟩
  · simp only [handleUsbVendorSetup, hconf, if_true,
      vendorBranches_scan c sc radio c.DATA_RATE_2M out0buf setup g hreq hd hty hlen]
    exact g63

/-- C6, amended, at the request value 120, index 200 with the `crazyradio`
codes: at most 63 entries are recorded. -/
theorem channelScan_2M_sweep_witness :
    (handleUsbVendorSetup crazyradio true ackRadio 4 crazyradio.DATA_RATE_2M (memOfList [7])
      (scanSetup 120 200) (initState crazyradio)).1.scannLength ≤ 63 :=
  (channelScan_2M_sweep crazyradio true ackRadio 4 (memOfList [7]) (scanSetup 120 200)
    (initState crazyradio) (by decide) (by decide) (by decide) (by decide) (by decide)
    (by decide) (by decide)).2.2.2.2

/-- The scan of a host-to-device `CHANNEL_SCANN` request whose data stage fits
`tbuffer` (data length between 1 and 64), handled in the configured state; any
start, stop and data rate, any outcome of the sends.  The radio calls are a
channel change and a probe send on each of the `m` channels
`start, start+inc, ..`, where `m` is fixed by the loop condition: every probed
channel is `≤ stop` and is probed while fewer than 63 results are recorded, and
the sweep ends only when the next channel is beyond `stop` or 63 results are
recorded.  After the handler the scan results `IN0BUF[0 .. scannLength)` are
exactly the probed channels whose send succeeded, in probing order, and the
recorded length is at most 63.  The probe is the data stage,
`OUT0BUF[0 .. length)`. -/
theorem channelScan_records_successes (c : Consts) (sc : Bool) (radio : Nat → SendResult)
    (usbState dataRate : Int) (out0buf : Mem) (setup : Setup) (g : State)
    (hconf : usbState ≥ c.CONFIGURED) (hreq : setup.request = c.CHANNEL_SCANN)
    (hd : c.CHANNEL_SCANN ∉ c.beforeScan) (hty : setup.requestType = 0x40)
    (hlen : 1 ≤ setup.length) (hfit : setup.length ≤ 64) :
    ∃ m : Nat,
      radioEvents (handleUsbVendorSetup c sc radio usbState dataRate out0buf setup g).2 =
        (sweepFrom (scanStart setup) (scanInc c dataRate) m).flatMap
          (probeCalls setup.length (slice out0buf 0 setup.length)) ∧
      scanResults (handleUsbVendorSetup c sc radio usbState dataRate out0buf setup g).1 =
        succeeded sc radio 0 (sweepFrom (scanStart setup) (scanInc c dataRate) m) ∧
      (handleUsbVendorSetup c sc radio usbState dataRate out0buf setup g).1.scannLength =
        (succeeded sc radio 0 (sweepFrom (scanStart setup) (scanInc c dataRate) m)).length ∧
      (∀ k : Nat, k < m →
        scanStart setup + scanInc c dataRate * k ≤ scanStop setup ∧
        (succeeded sc radio 0 (sweepFrom (scanStart setup) (scanInc c dataRate) k)).length
          < 63) ∧
      (scanStop setup < scanStart setup + scanInc c dataRate * m ∨
        (succeeded sc radio 0 (sweepFrom (scanStart setup) (scanInc c dataRate) m)).length
          = 63) ∧
      (handleUsbVendorSetup c sc radio usbState dataRate out0buf setup g).1.scannLength
        ≤ 63 := by
  obtain ⟨m, gi, gev, gsl, gmem, g63, gpre, gexit⟩ :=
    channelScan_spec c sc radio dataRate out0buf setup g
  have hpay : slice (memcpy g.tbuffer out0buf setup.length) 0 setup.length =
      slice out0buf 0 setup.length :=
    slice_memcpy _ _ _ _ _ (le_refl _) (by omega) hfit
  rw [hpay] at gev
  refine ⟨m, ?_, ?_, ?_, gpre, ?_, ?_⟩
  · simp only [handleUsbVendorSetup, hconf, if_true,
      vendorBranches_scan c sc radio dataRate out0buf setup g hreq hd hty hlen]
    rw [radioEvents_append, gev]
    simp [radioEvents, Event.isRadio]
  · simp only [handleUsbVendorSetup, hconf, if_true,
      vendorBranches_scan c sc radio dataRate out0buf setup g hreq hd hty hlen, scanResults]
    exact gmem
  · simp only [handleUsbVendorSetup, hconf, if_true,
      vendorBranches_scan c sc radio dataRate out0buf setup g hreq hd hty hlen]
    exact gsl
  · rw [gi, gsl] at gexit
    rw [gsl] at g63
    by_cases hs : scanStop setup < scanStart setup + scanInc c dataRate * m
    · exact Or.inl hs
    · right
      have h1 : scanStart setup + scanInc c dataRate * (m : Int) < scanStop setup + 1 := by
        omega
      by_contra hne
      apply gexit
      exact ⟨h1, by omega⟩
  · simp only [handleUsbVendorSetup, hconf, if_true,
      vendorBranches_scan c sc radio dataRate out0buf setup g hreq hd hty hlen]
    exact g63

/-- The scan of the request value 120, index 200 with the `crazyradio` codes, at
1 Mbit/s and with a radio that acknowledges every probe: the six channels 120
to 125 are probed and recorded. -/
theorem channelScan_records_successes_witness :
    ∃ m : Nat,
      radioEvents (handleUsbVendorSetup crazyradio true ackRadio 4 0 (memOfList [7])
          (scanSetup 120 200) (initState crazyradio)).2 =
        (sweepFrom (scanStart (scanSetup 120 200)) (scanInc crazyradio 0) m).flatMap
          (probeCalls (scanSetup 120 200).length
            (slice (memOfList [7]) 0 (scanSetup 120 200).length)) ∧
      scanResults (handleUsbVendorSetup crazyradio true ackRadio 4 0 (memOfList [7])
          (scanSetup 120 200) (initState crazyradio)).1 =
        succeeded true ackRadio 0
          (sweepFrom (scanStart (scanSetup 120 200)) (scanInc crazyradio 0) m) ∧
      (handleUsbVendorSetup crazyradio true ackRadio 4 0 (memOfList [7])
          (scanSetup 120 200) (initState crazyradio)).1.scannLength =
        (succeeded true ackRadio 0
          (sweepFrom (scanStart (scanSetup 120 200)) (scanInc crazyradio 0) m)).length ∧
      (∀ k : Nat, k < m →
        scanStart (scanSetup 120 200) + scanInc crazyradio 0 * k ≤
            scanStop (scanSetup 120 200) ∧
        (succeeded true ackRadio 0
          (sweepFrom (scanStart (scanSetup 120 200)) (scanInc crazyradio 0) k)).length < 63) ∧
      (scanStop (scanSetup 120 200) <
          scanStart (scanSetup 120 200) + scanInc crazyradio 0 * m ∨
        (succeeded true ackRadio 0
          (sweepFrom (scanStart (scanSetup 120 200)) (scanInc crazyradio 0) m)).length = 63) ∧
      (handleUsbVendorSetup crazyradio true ackRadio 4 0 (memOfList [7])
          (scanSetup 120 200) (initState crazyradio)).1.scannLength ≤ 63 :=
  channelScan_records_successes crazyradio true ackRadio 4 0 (memOfList [7]) (scanSetup 120 200)
    (initState crazyradio) (by decide) (by decide) (by decide) (by decide) (by decide)
    (by decide)

/-- The same scan, evaluated: the results held for the host are the channels
120 to 125. -/
theorem channelScan_records_successes_example :
    scanResults (handleUsbVendorSetup crazyradio true ackRadio 4 0 (memOfList [7])
        (scanSetup 120 200) (initState crazyradio)).1 = [120, 121, 122, 123, 124, 125] := by
  decide

/-- C8: a vendor request whose code is none of the recognized codes, and any
request received while the device is not configured, is dismissed: the trace
of `handleUsbVendorSetup` is the single call `usbDismissSetup()` (no
acknowledgment, no radio driver call) and the globals, among them the mode, the
continuous-carrier flag, the ack-required flag and the scan-result count, are
unchanged. -/
theorem vendor_unrecognized_dismissed (c : Consts) (sc : Bool) (radio : Nat → SendResult)
    (usbState dataRate : Int) (out0buf : Mem) (setup : Setup) (g : State)
    (h : usbState < c.CONFIGURED ∨ setup.request ∉ c.requestCodes) :
    handleUsbVendorSetup c sc radio usbState dataRate out0buf setup g =
      (g, [Event.usbDismissSetup]) := by
  rcases h with h | h
  · simp [handleUsbVendorSetup, not_le.mpr h]
  · simp only [Consts.requestCodes, Consts.beforeScan, List.cons_append, List.nil_append,
      List.mem_cons, List.mem_singleton, List.not_mem_nil, or_false, not_or] at h
    obtain ⟨h1, h2, h3, h4, h5, h6, h7, h8, h9, h10, h11, h12, h13, h14, h15, h16, h17, h18,
      h19, h20, h21, h22⟩ := h
    unfold handleUsbVendorSetup
    split
    · simp [vendorBranches, h1, h2, h3, h4, h5, h6, h7, h8, h9, h10, h11, h12, h13,
        h14, h15, h16, h17, h18, h19, h20, h21, h22]
    · rfl

/-- C8 at the request code 0x99 with the `crazyradio` codes, in the configured
state. -/
theorem vendor_unrecognized_dismissed_witness :
    handleUsbVendorSetup crazyradio true ackRadio 4 0 (memOfList [])
        { requestType := 0x40, request := 0x99, value := 1, index := 2, length := 0 }
        (initState crazyradio) =
      (initState crazyradio, [Event.usbDismissSetup]) :=
  vendor_unrecognized_dismissed crazyradio true ackRadio 4 0 (memOfList [])
    { requestType := 0x40, request := 0x99, value := 1, index := 2, length := 0 }
    (initState crazyradio) (Or.inr (by decide))

/-- Any iteration bound of at least `tlen - cmdPtr` gives the same result for
the loop of `cmdRun`. -/
theorem cmdLoop_fuel_irrelevant (c : Consts) (sc : Bool) (radio : Nat → SendResult)
    (tbuffer : Mem) (tlen : Int) (h64 : tlen ≤ 64) (fuel : Nat) :
    ∀ (extra : Nat) (s : CmdState), 0 ≤ s.cmdPtr → s.cmdPtr ≤ tlen →
      (tlen - s.cmdPtr).toNat ≤ fuel →
      cmdLoop c sc radio tbuffer tlen (fuel + extra) s =
        cmdLoop c sc radio tbuffer tlen fuel s := by
  induction fuel with
  | zero =>
    intro extra s h0 hle hf
    rw [cmdLoop_done c sc radio tbuffer tlen _ s (by omega)]
    rfl
  | succ n ih =>
    intro extra s h0 hle hf
    by_cases hlt : s.cmdPtr < tlen
    · have ha := cmdStep_advances c sc radio tbuffer tlen s h0 hlt h64
      have e : n + 1 + extra = (n + extra) + 1 := by omega
      rw [e]
      simp only [cmdLoop, hlt, if_true]
      exact ih extra _ (by omega) ha.2 (by omega)
    · rw [cmdLoop_done c sc radio tbuffer tlen _ s (by omega),
        cmdLoop_done c sc radio tbuffer tlen _ s (by omega)]

/-- One iteration of the bulk loop of `legacyRun` moves `cmdPtr` four bytes on. -/
theorem legacyStep_cmdPtr (sc : Bool) (radio : Nat → SendResult) (needAck : Bool)
    (tbuffer : Mem) (s : LegacyState) (h0 : 0 ≤ s.cmdPtr) (h1 : s.cmdPtr ≤ 123) :
    (legacyStep sc radio needAck tbuffer s).cmdPtr = s.cmdPtr + 4 := by
  have e1 : charVal sc (s.cmdPtr + 1) = s.cmdPtr + 1 := charVal_eq sc _ (by omega) (by omega)
  have e2 : charVal sc (s.cmdPtr + 1 + 1) = s.cmdPtr + 2 := by
    rw [charVal_eq sc _ (by omega) (by omega)]; omega
  have e3 : charVal sc (s.cmdPtr + 2 + 1) = s.cmdPtr + 3 := by
    rw [charVal_eq sc _ (by omega) (by omega)]; omega
  have e4 : charVal sc (s.cmdPtr + 3 + 1) = s.cmdPtr + 4 := by
    rw [charVal_eq sc _ (by omega) (by omega)]; omega
  have e5 : charVal sc (s.cmdPtr + 1 + 3) = s.cmdPtr + 4 := by
    rw [charVal_eq sc _ (by omega) (by omega)]; omega
  unfold legacyStep
  simp only [e1, e2, e3, e4, e5]
  split
  · split <;> rfl
  · rfl

/-- The bulk loop of `legacyRun` ends because its condition fails: for a
transfer of at most 64 bytes, `tlen - cmdPtr` iterations always suffice. -/
theorem legacyLoop_exits (sc : Bool) (radio : Nat → SendResult) (needAck : Bool)
    (tbuffer : Mem) (tlen : Int) (h64 : tlen ≤ 64) (fuel : Nat) :
    ∀ s : LegacyState, 0 ≤ s.cmdPtr → s.cmdPtr ≤ tlen + 3 → (tlen - s.cmdPtr).toNat ≤ fuel →
      tlen ≤ (legacyLoop sc radio needAck tbuffer tlen fuel s).cmdPtr := by
  induction fuel with
  | zero =>
    intro s h0 hle hf
    simp only [legacyLoop]
    omega
  | succ n ih =>
    intro s h0 hle hf
    by_cases hlt : s.cmdPtr < tlen
    · have ha := legacyStep_cmdPtr sc radio needAck tbuffer s h0 (by omega)
      simp only [legacyLoop, hlt, if_true]
      exact ih _ (by omega) (by omega) (by omega)
    · simp only [legacyLoop, hlt, if_false]
      omega

/-! ## Further claims about `cmdRun` -/

/-- A byte in command position that is none of the three command codes: the
state after the iteration. -/
theorem cmdStep_unknown (c : Consts) (sc : Bool) (radio : Nat → SendResult) (tbuffer : Mem)
    (tlen : Int) (s : CmdState) (h0 : 0 ≤ s.cmdPtr) (hlt : s.cmdPtr < tlen) (h64 : tlen ≤ 64)
    (h1 : toByte (tbuffer s.cmdPtr) ≠ c.CMD_PACKET)
    (h2 : toByte (tbuffer s.cmdPtr) ≠ c.SET_RADIO_CHANNEL)
    (h3 : toByte (tbuffer s.cmdPtr) ≠ c.SET_DATA_RATE) :
    cmdStep c sc radio tbuffer tlen s =
      { s with cmdPtr := s.cmdPtr + 1,
               events := s.events ++ [Event.tbufRead s.cmdPtr,
                 sendError c c.ERROR_UNKNOWN_CMD (toByte (tbuffer s.cmdPtr)) (s.cmdPtr + 1)] } := by
  have e1 : charVal sc (s.cmdPtr + 1) = s.cmdPtr + 1 := charVal_eq sc _ (by omega) (by omega)
  simp [cmdStep, h1, h2, h3, e1]

/-- C11: in a structured-mode transfer (`tlen ≤ 64`), a byte read in command
position (offset `s.cmdPtr`) that is none of `CMD_PACKET`, `SET_RADIO_CHANNEL`,
`SET_DATA_RATE` makes `cmdRun` emit one UnknownCommand record
`[CMD_ERROR, ERROR_UNKNOWN_CMD, that byte, position]` (the position being the
offset of the byte plus one) and nothing else besides the read of the byte: no
radio call, accumulator and oracle index unchanged; the loop then goes on with
the very next byte, `cmdPtr = s.cmdPtr + 1`, as a command. -/
theorem cmdRun_unknown_command_continues (c : Consts) (sc : Bool) (radio : Nat → SendResult)
    (tbuffer : Mem) (tlen : Int) (fuel : Nat) (s : CmdState)
    (h0 : 0 ≤ s.cmdPtr) (hlt : s.cmdPtr < tlen) (h64 : tlen ≤ 64)
    (h1 : toByte (tbuffer s.cmdPtr) ≠ c.CMD_PACKET)
    (h2 : toByte (tbuffer s.cmdPtr) ≠ c.SET_RADIO_CHANNEL)
    (h3 : toByte (tbuffer s.cmdPtr) ≠ c.SET_DATA_RATE) :
    cmdLoop c sc radio tbuffer tlen (fuel + 1) s =
      cmdLoop c sc radio tbuffer tlen fuel
        { s with cmdPtr := s.cmdPtr + 1,
                 events := s.events ++ [Event.tbufRead s.cmdPtr,
                   Event.usbIn1 4 [toByte c.CMD_ERROR, toByte c.ERROR_UNKNOWN_CMD,
                     toByte (tbuffer s.cmdPtr), s.cmdPtr + 1]] } := by
  have hs := cmdStep_unknown c sc radio tbuffer tlen s h0 hlt h64 h1 h2 h3
  simp only [cmdLoop, hlt, if_true, hs, sendError, toByte_toByte,
    toByte_eq (s.cmdPtr + 1) (by omega) (by omega)]

/-- C11 at the transfer `[0x77, 0x01, 60]`: after the unknown byte 0x77 the loop
goes on at offset 1. -/
theorem cmdRun_unknown_command_continues_witness :
    cmdLoop crazyradio true ackRadio (memOfList [0x77, 0x01, 60]) 3 (2 + 1) cmdStart =
      cmdLoop crazyradio true ackRadio (memOfList [0x77, 0x01, 60]) 3 2
        { cmdStart with
          cmdPtr := cmdStart.cmdPtr + 1,
          events := cmdStart.events ++ [Event.tbufRead cmdStart.cmdPtr,
            Event.usbIn1 4 [toByte crazyradio.CMD_ERROR, toByte crazyradio.ERROR_UNKNOWN_CMD,
              toByte (memOfList [0x77, 0x01, 60] cmdStart.cmdPtr), cmdStart.cmdPtr + 1]] } :=
  cmdRun_unknown_command_continues crazyradio true ackRadio (memOfList [0x77, 0x01, 60]) 3 2
    cmdStart (by decide) (by decide) (by decide) (by decide) (by decide) (by decide)

/-- The whole trace of the transfer `[0x77, SET_RADIO_CHANNEL, 60]`: the unknown
byte is reported and the channel command after it is still carried out. -/
theorem cmdRun_unknown_command_example :
    cmdTrace true ackRadio [0x77, 0x01, 60] =
      [Event.out1Rearm, Event.tbufRead 0, Event.usbIn1 4 [0xFF, 0x00, 0x77, 1],
       Event.tbufRead 1, Event.tbufRead 2, Event.tbufRead 2,
       Event.radioCfg RadioFn.setChannel [60]] := by
  decide

/-! ## Further claims about `handleUsbVendorSetup` -/

theorem completions_append (a b : List Event) :
    completions (a ++ b) = completions a ++ completions b := by
  simp [completions]

theorem filter_isCompletion_ledFeedback (status : Int) :
    List.filter Event.isCompletion (ledFeedback status) = [] := by
  unfold ledFeedback
  split <;> rfl

/-- The scan loop does not complete the control transfer. -/
theorem scanLoop_completions (sc : Bool) (radio : Nat → SendResult) (tbuffer : Mem)
    (length inc stop : Int) (fuel : Nat) :
    ∀ s : ScanState,
      completions (scanLoop sc radio tbuffer length inc stop fuel s).events =
        completions s.events := by
  induction fuel with
  | zero => intro s; rfl
  | succ n ih =>
    intro s
    simp only [scanLoop]
    split
    · rw [ih]
      by_cases hok : charVal sc (radio s.sends).status = 0 <;>
        simp [scanStep, hok, completions, Event.isCompletion, filter_isCompletion_ledFeedback]
    · rfl

theorem channelScan_completions (c : Consts) (sc : Bool) (radio : Nat → SendResult)
    (dataRate : Int) (out0buf : Mem) (setup : Setup) (g : State) :
    completions (channelScan c sc radio dataRate out0buf setup g).events = [] := by
  unfold channelScan
  rw [scanLoop_completions]
  rfl

/-- Every branch of the chain completes the control transfer exactly once,
except the three branches that end in a bare `return;`, which do not complete
it at all. -/
theorem vendorBranches_completions (c : Consts) (sc : Bool) (radio : Nat → SendResult)
    (dataRate : Int) (out0buf : Mem) (setup : Setup) (g : State) (r : State × List Event)
    (h : vendorBranches c sc radio dataRate out0buf setup g = some r) :
    (completions r.2).length = 1 ∨
      (setup.request ∈ c.bareReturn ∧ completions r.2 = []) := by
  unfold vendorBranches ackCfg at h
  by_cases h1 : setup.request = c.LAUNCH_BOOTLOADER
  · rw [if_pos h1] at h
    have e := Option.some.inj h
    subst e
    exact Or.inl rfl
  rw [if_neg h1] at h
  by_cases h2 : setup.request = c.SET_RADIO_CHANNEL
  · rw [if_pos h2] at h
    have e := Option.some.inj h
    subst e
    exact Or.inl rfl
  rw [if_neg h2] at h
  by_cases h3 : setup.request = c.SET_DATA_RATE
  · rw [if_pos h3] at h
    have e := Option.some.inj h
    subst e
    exact Or.inl rfl
  rw [if_neg h3] at h
  by_cases h4 : setup.request = c.SET_RADIO_ADDRESS
  · rw [if_pos h4] at h
    split at h <;> (have e := Option.some.inj h; subst e; exact Or.inl rfl)
  rw [if_neg h4] at h
  by_cases h5 : setup.request = c.SET_RADIO_POWER
  · rw [if_pos h5] at h
    have e := Option.some.inj h
    subst e
    exact Or.inl rfl
  rw [if_neg h5] at h
  by_cases h6 : setup.request = c.SET_RADIO_ARD
  · rw [if_pos h6] at h
    have e := Option.some.inj h
    subst e
    exact Or.inl rfl
  rw [if_neg h6] at h
  by_cases h7 : setup.request = c.SET_RADIO_ARC
  · rw [if_pos h7] at h
    have e := Option.some.inj h
    subst e
    exact Or.inl rfl
  rw [if_neg h7] at h
  by_cases h8 : setup.request = c.SET_CONT_CARRIER
  · rw [if_pos h8] at h
    have e := Option.some.inj h
    subst e
    exact Or.inl rfl
  rw [if_neg h8] at h
  by_cases h9 : setup.request = c.ACK_ENABLE
  · rw [if_pos h9] at h
    have e := Option.some.inj h
    subst e
    exact Or.inl rfl
  rw [if_neg h9] at h
  by_cases h10 : setup.request = c.SHOCKBURST
  · rw [if_pos h10] at h
    have e := Option.some.inj h
    subst e
    exact Or.inl rfl
  rw [if_neg h10] at h
  by_cases h11 : setup.request = c.CRC
  · rw [if_pos h11] at h
    have e := Option.some.inj h
    subst e
    exact Or.inl rfl
  rw [if_neg h11] at h
  by_cases h12 : setup.request = c.CRC_LEN
  · rw [if_pos h12] at h
    have e := Option.some.inj h
    subst e
    exact Or.inl rfl
  rw [if_neg h12] at h
  by_cases h13 : setup.request = c.ADDR_LEN
  · rw [if_pos h13] at h
    have e := Option.some.inj h
    subst e
    exact Or.inl rfl
  rw [if_neg h13] at h
  by_cases h14 : setup.request = c.EN_RX_PIPES
  · rw [if_pos h14] at h
    have e := Option.some.inj h
    subst e
    exact Or.inl rfl
  rw [if_neg h14] at h
  by_cases h15 : setup.request = c.DISABLE_RETRY
  · rw [if_pos h15] at h
    have e := Option.some.inj h
    subst e
    exact Or.inl rfl
  rw [if_neg h15] at h
  by_cases h16 : setup.request = c.DYNPD
  · rw [if_pos h16] at h
    have e := Option.some.inj h
    subst e
    exact Or.inl rfl
  rw [if_neg h16] at h
  by_cases h17 : setup.request = c.EN_DPL
  · rw [if_pos h17] at h
    have e := Option.some.inj h
    subst e
    exact Or.inr ⟨by simp [Consts.bareReturn, h17], rfl⟩
  rw [if_neg h17] at h
  by_cases h18 : setup.request = c.EN_ACK_PAY
  · rw [if_pos h18] at h
    have e := Option.some.inj h
    subst e
    exact Or.inr ⟨by simp [Consts.bareReturn, h18], rfl⟩
  rw [if_neg h18] at h
  by_cases h19 : setup.request = c.EN_DYN_ACK
  · rw [if_pos h19] at h
    have e := Option.some.inj h
    subst e
    exact Or.inr ⟨by simp [Consts.bareReturn, h19], rfl⟩
  rw [if_neg h19] at h
  by_cases h20 : setup.request = c.CHANNEL_SCANN ∧ setup.requestType = 0x40
  · rw [if_pos h20] at h
    split at h
    · have e := Option.some.inj h
      subst e
      exact Or.inl rfl
    · have e := Option.some.inj h
      subst e
      left
      show (completions ((channelScan c sc radio dataRate out0buf setup g).events ++
        [Event.usbAckSetup])).length = 1
      rw [completions_append, channelScan_completions]
      rfl
  rw [if_neg h20] at h
  by_cases h21 : setup.request = c.CHANNEL_SCANN ∧ setup.requestType = 0xC0
  · rw [if_pos h21] at h
    have e := Option.some.inj h
    subst e
    exact Or.inl rfl
  rw [if_neg h21] at h
  by_cases h22 : setup.request = c.SET_MODE ∧ setup.requestType = 0x40
  · rw [if_pos h22] at h
    have e := Option.some.inj h
    subst e
    exact Or.inl rfl
  rw [if_neg h22] at h
  by_cases h23 : setup.index = 0x0004 ∧ setup.request = c.MSFT_ID_FEATURE_DESCRIPTOR
  · rw [if_pos h23] at h
    have e := Option.some.inj h
    subst e
    exact Or.inl rfl
  rw [if_neg h23] at h
  exact Option.noConfusion h

/-- The completions of the control transfer by `handleUsbVendorSetup`, for every
request in every device state: exactly one, except for the requests handled by
the `EN_DPL`, `EN_ACK_PAY` and `EN_DYN_ACK` branches, which get none. -/
theorem handleUsbVendorSetup_completions (c : Consts) (sc : Bool) (radio : Nat → SendResult)
    (usbState dataRate : Int) (out0buf : Mem) (setup : Setup) (g : State) :
    (completions (handleUsbVendorSetup c sc radio usbState dataRate out0buf setup g).2).length
        = 1 ∨
      (setup.request ∈ c.bareReturn ∧
        completions (handleUsbVendorSetup c sc radio usbState dataRate out0buf setup g).2
          = []) := by
  unfold handleUsbVendorSetup
  split
  · cases hb : vendorBranches c sc radio dataRate out0buf setup g with
    | none => left; rfl
    | some r => exact vendorBranches_completions c sc radio dataRate out0buf setup g r hb
  · left; rfl

/-- The only assignments to `scannLength` in the chain are those of the scan
branch: 0 when the request is dismissed for its length, the count of the scan
otherwise. -/
theorem vendorBranches_scannLength (c : Consts) (sc : Bool) (radio : Nat → SendResult)
    (dataRate : Int) (out0buf : Mem) (setup : Setup) (g : State) (r : State × List Event)
    (h : vendorBranches c sc radio dataRate out0buf setup g = some r) :
    r.1.scannLength = g.scannLength ∨ r.1.scannLength = 0 ∨
      r.1.scannLength = (channelScan c sc radio dataRate out0buf setup g).scannLength := by
  unfold vendorBranches ackCfg at h
  by_cases h1 : setup.request = c.LAUNCH_BOOTLOADER
  · rw [if_pos h1] at h
    have e := Option.some.inj h
    subst e
    exact Or.inl rfl
  rw [if_neg h1] at h
  by_cases h2 : setup.request = c.SET_RADIO_CHANNEL
  · rw [if_pos h2] at h
    have e := Option.some.inj h
    subst e
    exact Or.inl rfl
  rw [if_neg h2] at h
  by_cases h3 : setup.request = c.SET_DATA_RATE
  · rw [if_pos h3] at h
    have e := Option.some.inj h
    subst e
    exact Or.inl rfl
  rw [if_neg h3] at h
  by_cases h4 : setup.request = c.SET_RADIO_ADDRESS
  · rw [if_pos h4] at h
    split at h <;> (have e := Option.some.inj h; subst e; exact Or.inl rfl)
  rw [if_neg h4] at h
  by_cases h5 : setup.request = c.SET_RADIO_POWER
  · rw [if_pos h5] at h
    have e := Option.some.inj h
    subst e
    exact Or.inl rfl
  rw [if_neg h5] at h
  by_cases h6 : setup.request = c.SET_RADIO_ARD
  · rw [if_pos h6] at h
    have e := Option.some.inj h
    subst e
    exact Or.inl rfl
  rw [if_neg h6] at h
  by_cases h7 : setup.request = c.SET_RADIO_ARC
  · rw [if_pos h7] at h
    have e := Option.some.inj h
    subst e
    exact Or.inl rfl
  rw [if_neg h7] at h
  by_cases h8 : setup.request = c.SET_CONT_CARRIER
  · rw [if_pos h8] at h
    have e := Option.some.inj h
    subst e
    exact Or.inl rfl
  rw [if_neg h8] at h
  by_cases h9 : setup.request = c.ACK_ENABLE
  · rw [if_pos h9] at h
    have e := Option.some.inj h
    subst e
    exact Or.inl rfl
  rw [if_neg h9] at h
  by_cases h10 : setup.request = c.SHOCKBURST
  · rw [if_pos h10] at h
    have e := Option.some.inj h
    subst e
    exact Or.inl rfl
  rw [if_neg h10] at h
  by_cases h11 : setup.request = c.CRC
  · rw [if_pos h11] at h
    have e := Option.some.inj h
    subst e
    exact Or.inl rfl
  rw [if_neg h11] at h
  by_cases h12 : setup.request = c.CRC_LEN
  · rw [if_pos h12] at h
    have e := Option.some.inj h
    subst e
    exact Or.inl rfl
  rw [if_neg h12] at h
  by_cases h13 : setup.request = c.ADDR_LEN
  · rw [if_pos h13] at h
    have e := Option.some.inj h
    subst e
    exact Or.inl rfl
  rw [if_neg h13] at h
  by_cases h14 : setup.request = c.EN_RX_PIPES
  · rw [if_pos h14] at h
    have e := Option.some.inj h
    subst e
    exact Or.inl rfl
  rw [if_neg h14] at h
  by_cases h15 : setup.request = c.DISABLE_RETRY
  · rw [if_pos h15] at h
    have e := Option.some.inj h
    subst e
    exact Or.inl rfl
  rw [if_neg h15] at h
  by_cases h16 : setup.request = c.DYNPD
  · rw [if_pos h16] at h
    have e := Option.some.inj h
    subst e
    exact Or.inl rfl
  rw [if_neg h16] at h
  by_cases h17 : setup.request = c.EN_DPL
  · rw [if_pos h17] at h
    have e := Option.some.inj h
    subst e
    exact Or.inl rfl
  rw [if_neg h17] at h
  by_cases h18 : setup.request = c.EN_ACK_PAY
  · rw [if_pos h18] at h
    have e := Option.some.inj h
    subst e
    exact Or.inl rfl
  rw [if_neg h18] at h
  by_cases h19 : setup.request = c.EN_DYN_ACK
  · rw [if_pos h19] at h
    have e := Option.some.inj h
    subst e
    exact Or.inl rfl
  rw [if_neg h19] at h
  by_cases h20 : setup.request = c.CHANNEL_SCANN ∧ setup.requestType = 0x40
  · rw [if_pos h20] at h
    split at h
    · have e := Option.some.inj h
      subst e
      exact Or.inr (Or.inl rfl)
    · have e := Option.some.inj h
      subst e
      exact Or.inr (Or.inr rfl)
  rw [if_neg h20] at h
  by_cases h21 : setup.request = c.CHANNEL_SCANN ∧ setup.requestType = 0xC0
  · rw [if_pos h21] at h
    have e := Option.some.inj h
    subst e
    exact Or.inl rfl
  rw [if_neg h21] at h
  by_cases h22 : setup.request = c.SET_MODE ∧ setup.requestType = 0x40
  · rw [if_pos h22] at h
    have e := Option.some.inj h
    subst e
    exact Or.inl rfl
  rw [if_neg h22] at h
  by_cases h23 : setup.index = 0x0004 ∧ setup.request = c.MSFT_ID_FEATURE_DESCRIPTOR
  · rw [if_pos h23] at h
    have e := Option.some.inj h
    subst e
    exact Or.inl rfl
  rw [if_neg h23] at h
  exact Option.noConfusion h

/-- The scan-result count stays between 0 and 63 across every vendor request. -/
theorem handleUsbVendorSetup_scannLength (c : Consts) (sc : Bool) (radio : Nat → SendResult)
    (usbState dataRate : Int) (out0buf : Mem) (setup : Setup) (g : State)
    (h0 : 0 ≤ g.scannLength) (h63 : g.scannLength ≤ 63) :
    0 ≤ (handleUsbVendorSetup c sc radio usbState dataRate out0buf setup g).1.scannLength ∧
      (handleUsbVendorSetup c sc radio usbState dataRate out0buf setup g).1.scannLength
        ≤ 63 := by
  obtain ⟨m, _, _, gsl, _, g63, _, _⟩ := channelScan_spec c sc radio dataRate out0buf setup g
  unfold handleUsbVendorSetup
  split
  · cases hb : vendorBranches c sc radio dataRate out0buf setup g with
    | none => exact ⟨h0, h63⟩
    | some r =>
      rcases vendorBranches_scannLength c sc radio dataRate out0buf setup g r hb with
        e | e | e
      · simp only [e]; exact ⟨h0, h63⟩
      · simp only [e]; omega
      · simp only [e]; omega
  · exact ⟨h0, h63⟩

/-- In every state reached from the initial one through vendor requests the
scan-result count is between 0 and 63. -/
theorem afterRequests_scannLength (c : Consts) (sc : Bool) (rs : List VendorReq) :
    ∀ g : State, 0 ≤ g.scannLength → g.scannLength ≤ 63 →
      0 ≤ (afterRequests c sc rs g).scannLength ∧ (afterRequests c sc rs g).scannLength ≤ 63 := by
  induction rs with
  | nil => intro g h0 h63; exact ⟨h0, h63⟩
  | cons r rest ih =>
    intro g h0 h63
    have h := handleUsbVendorSetup_scannLength c sc r.radio r.usbState r.dataRate r.out0buf
      r.setup g h0 h63
    exact ih _ h.1 h.2

/-- The pipe count of the `SHOCKBURST` branch lies in `[0,6]`: it is the low byte
of the request value read as a plain `char`, with values above 6 replaced by 6
and negative values by 0. -/
theorem shockburstVal_spec (sc : Bool) (value : Int) :
    0 ≤ shockburstVal sc value ∧ shockburstVal sc value ≤ 6 ∧
      shockburstVal sc value =
        (if charVal sc value < 0 then 0 else if 6 < charVal sc value then 6
         else charVal sc value) := by
  unfold shockburstVal
  simp only
  split_ifs <;> omega

/-- The `SHOCKBURST` branch is the one taken for a request with that code, when
no earlier test of the chain matches it. -/
theorem vendorBranches_shockburst (c : Consts) (sc : Bool) (radio : Nat → SendResult)
    (dataRate : Int) (out0buf : Mem) (setup : Setup) (g : State)
    (hreq : setup.request = c.SHOCKBURST) (hd : c.SHOCKBURST ∉ c.beforeShockburst) :
    vendorBranches c sc radio dataRate out0buf setup g =
      some (g, [Event.radioCfg RadioFn.shockburstPipes [shockburstVal sc setup.value],
                Event.usbAckSetup]) := by
  simp only [Consts.beforeShockburst, List.mem_cons, List.mem_singleton, List.not_mem_nil,
    or_false, not_or] at hd
  obtain ⟨h1, h2, h3, h4, h5, h6, h7, h8, h9⟩ := hd
  simp [vendorBranches, ackCfg, hreq, h1, h2, h3, h4, h5, h6, h7, h8, h9]

/-- C13, counterexample: the `SHOCKBURST` request with value 256 hands the pipe
count 0, not 6, to `radioShockburstPipes`, for either signedness of plain
`char` (the value is stored into `char val` before it is clamped); and with
signed plain `char` so does the value 200. -/
theorem shockburst_value_truncated :
    (handleUsbVendorSetup crazyradio true ackRadio 4 0 (memOfList [])
        (plainSetup 0x30 256) (initState crazyradio)).2 =
        [Event.radioCfg RadioFn.shockburstPipes [0], Event.usbAckSetup] ∧
      (handleUsbVendorSetup crazyradio false ackRadio 4 0 (memOfList [])
        (plainSetup 0x30 256) (initState crazyradio)).2 =
        [Event.radioCfg RadioFn.shockburstPipes [0], Event.usbAckSetup] ∧
      (handleUsbVendorSetup crazyradio true ackRadio 4 0 (memOfList [])
        (plainSetup 0x30 200) (initState crazyradio)).2 =
        [Event.radioCfg RadioFn.shockburstPipes [0], Event.usbAckSetup] := by
  decide

/-- C13, amended: for every request value `v` of a `SHOCKBURST` request (handled
in the configured state), the handler makes the one radio call
`radioShockburstPipes(n)` and acknowledges, the globals unchanged, where `n` is
the low byte of `v` read as a plain `char` and clamped into `[0,6]`: `n` always
lies in `[0,6]`, `n = v` for `0 ≤ v ≤ 6`, `n = 6` for `7 ≤ v ≤ 127`, and in
general `n` is 0 for a negative `char` value, 6 for one above 6. -/
theorem shockburst_clamps_low_byte (c : Consts) (sc : Bool) (radio : Nat → SendResult)
    (usbState dataRate : Int) (out0buf : Mem) (setup : Setup) (g : State)
    (hconf : usbState ≥ c.CONFIGURED) (hreq : setup.request = c.SHOCKBURST)
    (hd : c.SHOCKBURST ∉ c.beforeShockburst) :
    handleUsbVendorSetup c sc radio usbState dataRate out0buf setup g =
        (g, [Event.radioCfg RadioFn.shockburstPipes [shockburstVal sc setup.value],
             Event.usbAckSetup]) ∧
      0 ≤ shockburstVal sc setup.value ∧ shockburstVal sc setup.value ≤ 6 ∧
      shockburstVal sc setup.value =
        (if charVal sc setup.value < 0 then 0 else if 6 < charVal sc setup.value then 6
         else charVal sc setup.value) ∧
      (0 ≤ setup.value → setup.value ≤ 127 → shockburstVal sc setup.value = min setup.value 6) := by
  obtain ⟨h0, h6, hv⟩ := shockburstVal_spec sc setup.value
  refine ⟨?_, h0, h6, hv, ?_⟩
  · simp only [handleUsbVendorSetup, hconf, if_true,
      vendorBranches_shockburst c sc radio dataRate out0buf setup g hreq hd]
  · intro hv0 hv127
    rw [hv, charVal_eq sc _ hv0 hv127]
    split_ifs <;> omega

/-- C13, amended, at the request value 5 with the `crazyradio` codes. -/
theorem shockburst_clamps_low_byte_witness :
    handleUsbVendorSetup crazyradio true ackRadio 4 0 (memOfList []) (plainSetup 0x30 5)
        (initState crazyradio) =
      (initState crazyradio,
       [Event.radioCfg RadioFn.shockburstPipes [shockburstVal true (plainSetup 0x30 5).value],
        Event.usbAckSetup]) :=
  (shockburst_clamps_low_byte crazyradio true ackRadio 4 0 (memOfList []) (plainSetup 0x30 5)
    (initState crazyradio) (by decide) (by decide) (by decide)).1

/-- The device-to-host `CHANNEL_SCANN` branch is the one taken for a request
with that code (when no earlier test of the chain matches it) and request type
0xC0. -/
theorem vendorBranches_fetch (c : Consts) (sc : Bool) (radio : Nat → SendResult)
    (dataRate : Int) (out0buf : Mem) (setup : Setup) (g : State)
    (hreq : setup.request = c.CHANNEL_SCANN) (hd : c.CHANNEL_SCANN ∉ c.beforeScan)
    (hty : setup.requestType = 0xC0) :
    vendorBranches c sc radio dataRate out0buf setup g =
      some (g, [Event.in0Arm (if setup.length > g.scannLength % 65536
                              then g.scannLength % 65536 else setup.length),
                Event.usbAckSetup]) := by
  simp only [Consts.beforeScan, List.mem_cons, List.mem_singleton, List.not_mem_nil, or_false,
    not_or] at hd
  obtain ⟨h1, h2, h3, h4, h5, h6, h7, h8, h9, h10, h11, h12, h13, h14, h15, h16, h17, h18,
    h19⟩ := hd
  simp [vendorBranches, ackCfg, hreq, hty, h1, h2, h3, h4, h5, h6, h7, h8, h9, h10, h11, h12,
    h13, h14, h15, h16, h17, h18, h19]

/-- C14: a device-to-host `CHANNEL_SCANN` request with requested length `n`
(handled in the configured state, the recorded count being between 0 and 63 as
it is in every reachable state, `afterRequests_scannLength`) arms the control IN
transfer with exactly `min n scannLength` bytes and acknowledges; it makes no
radio call, and the globals, among them the recorded scan results and their
count, are unchanged. -/
theorem scanFetch_arms_min (c : Consts) (sc : Bool) (radio : Nat → SendResult)
    (usbState dataRate : Int) (out0buf : Mem) (setup : Setup) (g : State)
    (hconf : usbState ≥ c.CONFIGURED) (hreq : setup.request = c.CHANNEL_SCANN)
    (hd : c.CHANNEL_SCANN ∉ c.beforeScan) (hty : setup.requestType = 0xC0)
    (h0 : 0 ≤ g.scannLength) (h63 : g.scannLength ≤ 63) :
    handleUsbVendorSetup c sc radio usbState dataRate out0buf setup g =
        (g, [Event.in0Arm (min setup.length g.scannLength), Event.usbAckSetup]) ∧
      radioEvents (handleUsbVendorSetup c sc radio usbState dataRate out0buf setup g).2 = [] ∧
      scanResults (handleUsbVendorSetup c sc radio usbState dataRate out0buf setup g).1 =
        scanResults g := by
  have hm : (if setup.length > g.scannLength % 65536 then g.scannLength % 65536
      else setup.length) = min setup.length g.scannLength := by
    have : g.scannLength % 65536 = g.scannLength := by omega
    rw [this]
    split <;> omega
  have hh : handleUsbVendorSetup c sc radio usbState dataRate out0buf setup g =
      (g, [Event.in0Arm (min setup.length g.scannLength), Event.usbAckSetup]) := by
    simp only [handleUsbVendorSetup, hconf, if_true,
      vendorBranches_fetch c sc radio dataRate out0buf setup g hreq hd hty, hm]
  rw [hh]
  exact ⟨rfl, rfl, rfl⟩

/-- C14 at a request for 10 bytes in the initial state (no result recorded):
nothing is armed. -/
theorem scanFetch_arms_min_witness :
    handleUsbVendorSetup crazyradio true ackRadio 4 0 (memOfList []) (fetchSetup 10)
          (initState crazyradio) =
        (initState crazyradio,
         [Event.in0Arm (min (fetchSetup 10).length (initState crazyradio).scannLength),
          Event.usbAckSetup]) ∧
      radioEvents (handleUsbVendorSetup crazyradio true ackRadio 4 0 (memOfList [])
        (fetchSetup 10) (initState crazyradio)).2 = [] ∧
      scanResults (handleUsbVendorSetup crazyradio true ackRadio 4 0 (memOfList [])
        (fetchSetup 10) (initState crazyradio)).1 = scanResults (initState crazyradio) :=
  scanFetch_arms_min crazyradio true ackRadio 4 0 (memOfList []) (fetchSetup 10)
    (initState crazyradio) (by decide) (by decide) (by decide) (by decide) (by decide)
    (by decide)

/-- A scan followed by a fetch of 2 bytes: three channels are recorded, two
bytes are armed. -/
theorem scanFetch_example :
    (handleUsbVendorSetup crazyradio true ackRadio 4 0 (memOfList []) (fetchSetup 2)
      (handleUsbVendorSetup crazyradio true ackRadio 4 2 (memOfList [7]) (scanSetup 120 200)
        (initState crazyradio)).1).2 =
      [Event.in0Arm 2, Event.usbAckSetup] := by
  decide

/-- C19, the code at the failing inputs: the `EN_DPL`, `EN_ACK_PAY` and
`EN_DYN_ACK` requests, received in the configured state, make their radio call
and return: the trace holds no `usbAckSetup()`, no `usbDismissSetup()` and no
`usbHandleMsftFeatureIdDescriptor()`, so the control transfer is not completed. -/
theorem vendor_bare_return_not_completed :
    (handleUsbVendorSetup crazyradio true ackRadio 4 0 (memOfList []) (plainSetup 0x37 0)
        (initState crazyradio)).2 = [Event.radioCfg RadioFn.txDynPayload [1]] ∧
      (handleUsbVendorSetup crazyradio true ackRadio 4 0 (memOfList []) (plainSetup 0x38 1)
        (initState crazyradio)).2 = [Event.radioCfg RadioFn.payloadAck [1]] ∧
      (handleUsbVendorSetup crazyradio true ackRadio 4 0 (memOfList []) (plainSetup 0x39 0)
        (initState crazyradio)).2 = [Event.radioCfg RadioFn.payloadAck [0]] ∧
      completions (handleUsbVendorSetup crazyradio true ackRadio 4 0 (memOfList [])
        (plainSetup 0x37 0) (initState crazyradio)).2 = [] := by
  decide

/-! ## Further claims about `legacyRun` -/

/-- C17, the code at the failing input: for a legacy transfer of 64 bytes the
last sub-record starts at offset 61, and `legacyRun` reads `tbuffer[61]`,
`tbuffer[62]`, `tbuffer[63]` and `tbuffer[64]`, one byte past the end of the
64-byte buffer, for either signedness of plain `char`. -/
theorem legacyRun_reads_past_buffer :
    (readIndices (legacyTrace true ackRadio fullTransfer)).drop 61 = [61, 62, 63, 64] ∧
      (readIndices (legacyTrace false ackRadio fullTransfer)).drop 61 = [61, 62, 63, 64] := by
  decide

/-- The length `legacyRun` relays: 0 without `BIT_TX_DS`; otherwise the length
left by the driver, cut down to 32 when it is larger, and unchanged, negative
included, when it is not. -/
theorem legacyRlen_spec (c : Consts) (status rlen : Int) :
    legacyRlen c status rlen =
        (if Int.land status c.BIT_TX_DS = 0 then 0 else if 32 < rlen then 32 else rlen) ∧
      (0 ≤ rlen → 0 ≤ legacyRlen c status rlen ∧ legacyRlen c status rlen ≤ 32) := by
  unfold legacyRlen
  simp only
  constructor
  · split_ifs <;> first | rfl | omega
  · intro h
    split_ifs <;> omega

/-- C12, the code at the failing input: with signed plain `char`, when the
driver leaves the length byte 200 in `rlen` after a successful send, `rlen` is
-56, the test `rlen>32` does not fire, and `legacyRun` writes `IN1BC = rlen+1 =
-55` (after a `memcpy` of `(size_t)-56` bytes): the response does not have a
length `1+N` with `0 ≤ N ≤ 32`.  With unsigned plain `char` the same run gives
`IN1BC = 33`. -/
theorem legacyRun_negative_length :
    in1Counts (legacyTrace true longAckRadio [0xE7, 0x01, 0x01, 0x02, 0x03]) = [-55] ∧
      in1Counts (legacyTrace false longAckRadio [0xE7, 0x01, 0x01, 0x02, 0x03]) = [33] := by
  decide

/-! ## Invariants of the loop of `cmdRun` -/

/-- The three kinds of iteration of the loop of `cmdRun`: an error record (with
the reads that led to it), a parameter sub-command carried out, or a
well-formed PACKET (described by `cmdStep_packet_ok`). -/
theorem cmdStep_cases (c : Consts) (sc : Bool) (radio : Nat → SendResult) (tbuffer : Mem)
    (tlen : Int) (s : CmdState) (h0 : 0 ≤ s.cmdPtr) (hlt : s.cmdPtr < tlen) (h64 : tlen ≤ 64) :
    (∃ (reads : List Int) (code param pos next : Int),
        (∀ i ∈ reads, 0 ≤ i ∧ i < tlen) ∧
        cmdStep c sc radio tbuffer tlen s =
          { s with cmdPtr := next,
                   events := s.events ++ reads.map Event.tbufRead ++
                     [sendError c code param pos] }) ∨
      (∃ fn : RadioFn, s.cmdPtr + 1 < tlen ∧
        cmdStep c sc radio tbuffer tlen s =
          { s with cmdPtr := s.cmdPtr + 1 + 1,
                   events := s.events ++ [Event.tbufRead s.cmdPtr] ++
                     [Event.tbufRead (s.cmdPtr + 1), Event.tbufRead (s.cmdPtr + 1),
                      Event.radioCfg fn [toByte (tbuffer (s.cmdPtr + 1))]] }) ∨
      (toByte (tbuffer s.cmdPtr) = c.CMD_PACKET ∧ 3 ≤ tlen - (s.cmdPtr + 1) ∧
        s.cmdPtr + 3 + toByte (tbuffer (s.cmdPtr + 2)) ≤ tlen) := by
  have e1 : charVal sc (s.cmdPtr + 1) = s.cmdPtr + 1 := charVal_eq sc _ (by omega) (by omega)
  have hsetter : ∀ (hi : Int) (fn : RadioFn),
      (∃ (reads : List Int) (code param pos next : Int),
        (∀ i ∈ reads, 0 ≤ i ∧ i < tlen) ∧
        cmdSetter c sc tbuffer tlen hi fn s (toByte (tbuffer s.cmdPtr)) (s.cmdPtr + 1)
            (s.events ++ [Event.tbufRead s.cmdPtr]) =
          { s with cmdPtr := next,
                   events := s.events ++ reads.map Event.tbufRead ++
                     [sendError c code param pos] }) ∨
      (s.cmdPtr + 1 < tlen ∧
        cmdSetter c sc tbuffer tlen hi fn s (toByte (tbuffer s.cmdPtr)) (s.cmdPtr + 1)
            (s.events ++ [Event.tbufRead s.cmdPtr]) =
          { s with cmdPtr := s.cmdPtr + 1 + 1,
                   events := s.events ++ [Event.tbufRead s.cmdPtr] ++
                     [Event.tbufRead (s.cmdPtr + 1), Event.tbufRead (s.cmdPtr + 1),
                      Event.radioCfg fn [toByte (tbuffer (s.cmdPtr + 1))]] }) := by
    intro hi fn
    rw [cmdSetter_spec c sc tbuffer tlen hi fn s _ _ _ (by omega) h64]
    by_cases hok : s.cmdPtr + 1 < tlen ∧ charVal sc (tbuffer (s.cmdPtr + 1)) ≤ hi
    · right
      exact ⟨hok.1, by rw [if_pos hok]⟩
    · left
      rw [if_neg hok]
      by_cases hp : s.cmdPtr + 1 < tlen
      · refine ⟨[s.cmdPtr, s.cmdPtr + 1], c.ERROR_MALFORMED_CMD, toByte (tbuffer s.cmdPtr),
          s.cmdPtr + 1, tlen, ?_, ?_⟩
        · intro i hi
          simp only [List.mem_cons, List.mem_singleton, List.not_mem_nil, or_false] at hi
          omega
        · simp [hp]
      · refine ⟨[s.cmdPtr], c.ERROR_MALFORMED_CMD, toByte (tbuffer s.cmdPtr),
          s.cmdPtr + 1, tlen, ?_, ?_⟩
        · intro i hi
          simp only [List.mem_singleton] at hi
          omega
        · simp [hp]
  by_cases hcmd : toByte (tbuffer s.cmdPtr) = c.CMD_PACKET
  · by_cases hshort : tlen - (s.cmdPtr + 1) < 3
    · left
      refine ⟨[s.cmdPtr], c.ERROR_MALFORMED_CMD, c.CMD_PACKET, s.cmdPtr + 1, tlen, ?_, ?_⟩
      · intro i hi
        simp only [List.mem_singleton] at hi
        omega
      · rw [cmdStep_packet_short c sc radio tbuffer tlen s h0 h64 hcmd hlt hshort]
        simp
    · by_cases hover : tlen - (s.cmdPtr + 3 + toByte (tbuffer (s.cmdPtr + 2))) < 0
      · left
        refine ⟨[s.cmdPtr, s.cmdPtr + 1, s.cmdPtr + 2], c.ERROR_MALFORMED_CMD, c.CMD_PACKET,
          s.cmdPtr + 3, tlen, ?_, ?_⟩
        · intro i hi
          simp only [List.mem_cons, List.mem_singleton, List.not_mem_nil, or_false] at hi
          omega
        · rw [cmdStep_packet_overrun c sc radio tbuffer tlen s h0 h64 hcmd hshort hover]
          simp
      · right; right
        exact ⟨hcmd, by omega, by omega⟩
  · by_cases hch : toByte (tbuffer s.cmdPtr) = c.SET_RADIO_CHANNEL
    · have hstep : cmdStep c sc radio tbuffer tlen s =
          cmdSetter c sc tbuffer tlen 125 RadioFn.setChannel s (toByte (tbuffer s.cmdPtr))
            (s.cmdPtr + 1) (s.events ++ [Event.tbufRead s.cmdPtr]) := by
        unfold cmdStep
        simp only [e1]
        rw [if_neg hcmd, if_pos hch]
      rw [hstep]
      rcases hsetter 125 RadioFn.setChannel with h | h
      · exact Or.inl h
      · exact Or.inr (Or.inl ⟨_, h⟩)
    · by_cases hdr : toByte (tbuffer s.cmdPtr) = c.SET_DATA_RATE
      · have hstep : cmdStep c sc radio tbuffer tlen s =
            cmdSetter c sc tbuffer tlen 3 RadioFn.setDataRate s (toByte (tbuffer s.cmdPtr))
              (s.cmdPtr + 1) (s.events ++ [Event.tbufRead s.cmdPtr]) := by
          unfold cmdStep
          simp only [e1]
          rw [if_neg hcmd, if_neg hch, if_pos hdr]
        rw [hstep]
        rcases hsetter 3 RadioFn.setDataRate with h | h
        · exact Or.inl h
        · exact Or.inr (Or.inl ⟨_, h⟩)
      · left
        refine ⟨[s.cmdPtr], c.ERROR_UNKNOWN_CMD, toByte (tbuffer s.cmdPtr), s.cmdPtr + 1,
          s.cmdPtr + 1, ?_, ?_⟩
        · intro i hi
          simp only [List.mem_singleton] at hi
          omega
        · rw [cmdStep_unknown c sc radio tbuffer tlen s h0 hlt h64 hcmd hch hdr]
          simp

/-- Induction over the loop of `cmdRun`: a property of the loop state that every
iteration preserves holds when the loop is left. -/
theorem cmdLoop_induct (c : Consts) (sc : Bool) (radio : Nat → SendResult) (tbuffer : Mem)
    (tlen : Int) (h64 : tlen ≤ 64) (P : CmdState → Prop)
    (hstep : ∀ s : CmdState, 0 ≤ s.cmdPtr → s.cmdPtr < tlen → P s →
      P (cmdStep c sc radio tbuffer tlen s)) (fuel : Nat) :
    ∀ s : CmdState, 0 ≤ s.cmdPtr → P s → P (cmdLoop c sc radio tbuffer tlen fuel s) := by
  induction fuel with
  | zero => intro s _ hp; exact hp
  | succ n ih =>
    intro s h0 hp
    by_cases hlt : s.cmdPtr < tlen
    · have ha := cmdStep_advances c sc radio tbuffer tlen s h0 hlt h64
      simp only [cmdLoop, hlt, if_true]
      exact ih _ (by omega) (hstep s h0 hlt hp)
    · simp only [cmdLoop, hlt, if_false]
      exact hp

/-- The transfer length both engines compute never exceeds 64. -/
theorem fetchTlen_le (sc : Bool) (bc : Int) : fetchTlen sc bc ≤ 64 := by
  unfold fetchTlen
  split <;> omega

theorem slice_length (m : Mem) (off len : Int) : (slice m off len).length = len.toNat := by
  simp [slice]

theorem mem_readIndices (i : Int) (evs : List Event) :
    i ∈ readIndices evs ↔ Event.tbufRead i ∈ evs := by
  induction evs with
  | nil => simp [readIndices]
  | cons e rest ih => cases e <;> simp [readIndices, ih]

theorem all_readOk_ledFeedback (tlen status : Int) :
    (ledFeedback status).all (readOk tlen) = true := by
  unfold ledFeedback
  split <;> rfl

theorem all_payloadOk_ledFeedback (tbuffer : Mem) (status : Int) :
    (ledFeedback status).all (payloadOk tbuffer) = true := by
  unfold ledFeedback
  split <;> rfl

/-- Every iteration of the loop of `cmdRun` reads the transfer buffer, and hands
it to the radio, inside the transfer only. -/
theorem cmdStep_readOk (c : Consts) (sc : Bool) (radio : Nat → SendResult) (tbuffer : Mem)
    (tlen : Int) (s : CmdState) (h0 : 0 ≤ s.cmdPtr) (hlt : s.cmdPtr < tlen) (h64 : tlen ≤ 64)
    (hinv : s.events.all (readOk tlen) = true ∧ s.events.all (payloadOk tbuffer) = true) :
    (cmdStep c sc radio tbuffer tlen s).events.all (readOk tlen) = true ∧
      (cmdStep c sc radio tbuffer tlen s).events.all (payloadOk tbuffer) = true := by
  obtain ⟨hi1, hi2⟩ := hinv
  rcases cmdStep_cases c sc radio tbuffer tlen s h0 hlt h64 with
    ⟨reads, code, param, pos, next, hr, he⟩ | ⟨fn, hp, he⟩ | ⟨hcmd, hhdr, hfit⟩
  · rw [he]
    constructor
    · simp only [List.all_append, hi1, Bool.true_and, Bool.and_eq_true, List.all_eq_true,
        List.mem_map, List.mem_singleton, forall_exists_index, and_imp,
        forall_apply_eq_imp_iff₂, forall_eq]
      refine ⟨fun i hi => ?_, rfl⟩
      simpa [readOk] using hr i hi
    · simp only [List.all_append, hi2, Bool.true_and, Bool.and_eq_true, List.all_eq_true,
        List.mem_map, List.mem_singleton, forall_exists_index, and_imp,
        forall_apply_eq_imp_iff₂, forall_eq]
      exact ⟨fun i _ => rfl, rfl⟩
  · rw [he]
    constructor
    · simp only [List.all_append, hi1, List.all_cons, List.all_nil, readOk, Bool.and_true,
        Bool.true_and, Bool.and_eq_true, decide_eq_true_eq]
      omega
    · simp [List.all_append, hi2, payloadOk]
  · have hb := toByte_range (tbuffer (s.cmdPtr + 2))
    rw [cmdStep_packet_ok c sc radio tbuffer tlen s h0 h64 hcmd hhdr hfit]
    have hf1 : (if flushNeeded s.resPtr (charVal sc (radio s.sends).rlen) = true then
        [Event.usbIn1 s.resPtr (slice s.rbuffer 0 (sizeT s.resPtr))] else []).all
        (readOk tlen) = true := by
      split <;> rfl
    have hf2 : (if flushNeeded s.resPtr (charVal sc (radio s.sends).rlen) = true then
        [Event.usbIn1 s.resPtr (slice s.rbuffer 0 (sizeT s.resPtr))] else []).all
        (payloadOk tbuffer) = true := by
      split <;> rfl
    constructor
    · simp only [List.all_append, hi1, hf1, all_readOk_ledFeedback, List.all_cons,
        List.all_nil, readOk, Bool.and_true, Bool.true_and, Bool.and_eq_true,
        decide_eq_true_eq]
      omega
    · simp only [List.all_append, hi2, hf2, all_payloadOk_ledFeedback, List.all_cons,
        List.all_nil, payloadOk, Bool.and_true, Bool.true_and, Bool.and_eq_true,
        decide_eq_true_eq]

/-- C18: for every structured-mode transfer (whatever `OUT1BC` holds, the
transfer length `tlen` is at most 64), every index at which `cmdRun` reads the
transfer buffer (command bytes, identifier, length byte, parameter bytes) lies
in `[0, tlen)`, and every payload handed to the radio is a range
`[off, off+len)` inside `[0, tlen)` holding exactly the bytes of the current
transfer at these offsets. -/
theorem cmdRun_reads_inside_transfer (c : Consts) (sc : Bool) (radio : Nat → SendResult)
    (o : Out1) (g : State) (hfree : o.busy = false) (hcarrier : g.contCarrier = false) :
    (∀ i ∈ readIndices (cmdRun c sc radio o g).2, 0 ≤ i ∧ i < fetchTlen sc o.bc) ∧
      (∀ off len payload, Event.radioSendPacket off len payload ∈ (cmdRun c sc radio o g).2 →
        0 ≤ off ∧ 0 ≤ len ∧ off + len ≤ fetchTlen sc o.bc ∧ payload = slice o.buf off len) := by
  have h64 := fetchTlen_le sc o.bc
  have hinv := cmdLoop_induct c sc radio (memcpy g.tbuffer o.buf (fetchTlen sc o.bc))
    (fetchTlen sc o.bc) h64
    (fun s => s.events.all (readOk (fetchTlen sc o.bc)) = true ∧
      s.events.all (payloadOk (memcpy g.tbuffer o.buf (fetchTlen sc o.bc))) = true)
    (fun s h0 hlt hp => cmdStep_readOk c sc radio _ _ s h0 hlt h64 hp)
    (fetchTlen sc o.bc).toNat (cmdInit g) (le_refl _) ⟨rfl, rfl⟩
  have hfin : ∀ s : CmdState,
      (s.events.all (readOk (fetchTlen sc o.bc)) = true ∧
        s.events.all (payloadOk (memcpy g.tbuffer o.buf (fetchTlen sc o.bc))) = true) →
      ((cmdFinish s).events.all (readOk (fetchTlen sc o.bc)) = true ∧
        (cmdFinish s).events.all (payloadOk (memcpy g.tbuffer o.buf (fetchTlen sc o.bc)))
          = true) := by
    intro s hs
    unfold cmdFinish
    split
    · simp [List.all_append, hs.1, hs.2, readOk, payloadOk]
    · exact hs
  have htr : (cmdRun c sc radio o g).2 =
      (cmdFinish (cmdLoop c sc radio (memcpy g.tbuffer o.buf (fetchTlen sc o.bc))
        (fetchTlen sc o.bc) (fetchTlen sc o.bc).toNat (cmdInit g))).events := by
    simp [cmdRun, hfree, hcarrier, cmdRest]
  obtain ⟨hr, hp⟩ := hfin _ hinv
  rw [← htr] at hr hp
  rw [List.all_eq_true] at hr hp
  constructor
  · intro i hi
    have := hr _ ((mem_readIndices i _).mp hi)
    simpa [readOk] using this
  · intro off len payload hmem
    have h1 := hr _ hmem
    have h2 := hp _ hmem
    simp only [readOk, decide_eq_true_eq] at h1
    simp only [payloadOk, decide_eq_true_eq] at h2
    refine ⟨h1.1, h1.2.1, h1.2.2, ?_⟩
    rw [h2]
    exact slice_memcpy _ _ _ _ _ h1.1 h1.2.2 h64

theorem all_accOk_ledFeedback (status : Int) : (ledFeedback status).all accOk = true := by
  unfold ledFeedback
  split <;> rfl

/-- The received length put into a record is 0 or the length the driver left. -/
theorem packetRlen_cases (c : Consts) (status rlen0 : Int) :
    packetRlen c status rlen0 = 0 ∨ packetRlen c status rlen0 = rlen0 := by
  unfold packetRlen
  split
  · exact Or.inl rfl
  · exact Or.inr rfl

/-- A result record is four header bytes followed by the relayed ack bytes. -/
theorem packetRecord_length (c : Consts) (sc : Bool) (id : Int) (res : SendResult) :
    (packetRecord c sc id res).length =
      4 + (sizeT (packetRlen c (charVal sc res.status) (charVal sc res.rlen))).toNat := by
  simp [packetRecord, slice_length]
  omega

/-- With ack lengths between 0 and 32, every iteration of the loop of `cmdRun`
keeps `resPtr` in `[0,64]`, stores into the accumulator within its 64 bytes and
arms the IN endpoint with between 1 and 64 bytes. -/
theorem cmdStep_accOk (c : Consts) (sc : Bool) (radio : Nat → SendResult) (tbuffer : Mem)
    (tlen : Int) (hr : ∀ n, 0 ≤ (radio n).rlen ∧ (radio n).rlen ≤ 32) (s : CmdState)
    (h0 : 0 ≤ s.cmdPtr) (hlt : s.cmdPtr < tlen) (h64 : tlen ≤ 64)
    (hinv : 0 ≤ s.resPtr ∧ s.resPtr ≤ 64 ∧ s.events.all accOk = true) :
    0 ≤ (cmdStep c sc radio tbuffer tlen s).resPtr ∧
      (cmdStep c sc radio tbuffer tlen s).resPtr ≤ 64 ∧
      (cmdStep c sc radio tbuffer tlen s).events.all accOk = true := by
  obtain ⟨hr0, hr64, hev⟩ := hinv
  rcases cmdStep_cases c sc radio tbuffer tlen s h0 hlt h64 with
    ⟨reads, code, param, pos, next, _, he⟩ | ⟨fn, hp, he⟩ | ⟨hcmd, hhdr, hfit⟩
  · rw [he]
    refine ⟨hr0, hr64, ?_⟩
    simp only [List.all_append, hev, Bool.true_and, Bool.and_eq_true, List.all_eq_true,
      List.mem_map, List.mem_singleton, forall_exists_index, and_imp,
      forall_apply_eq_imp_iff₂, forall_eq]
    exact ⟨fun i _ => rfl, rfl⟩
  · rw [he]
    refine ⟨hr0, hr64, ?_⟩
    simp [List.all_append, hev, accOk]
  · obtain ⟨hl0, hl32⟩ := hr s.sends
    have hrl : charVal sc (radio s.sends).rlen = (radio s.sends).rlen :=
      charVal_eq sc _ hl0 (by omega)
    have hcs := packetRlen_cases c (charVal sc (radio s.sends).status) (radio s.sends).rlen
    have hlen := packetRecord_length c sc (toByte (tbuffer (s.cmdPtr + 1))) (radio s.sends)
    rw [hrl] at hlen
    rw [cmdStep_packet_ok c sc radio tbuffer tlen s h0 h64 hcmd hhdr hfit]
    simp only [hrl]
    cases hf : flushNeeded s.resPtr (radio s.sends).rlen
    · have hnf : ¬ (s.resPtr + (radio s.sends).rlen + 4 > 64) := by
        simpa [flushNeeded] using hf
      have hfit2 : s.resPtr + (packetRlen c (charVal sc (radio s.sends).status)
          (radio s.sends).rlen + 4) ≤ 64 := by
        rcases hcs with e | e <;> rw [e] <;> omega
      have hnn : 0 ≤ packetRlen c (charVal sc (radio s.sends).status) (radio s.sends).rlen := by
        rcases hcs with e | e <;> rw [e] <;> omega
      rw [charVal_eq sc _ (by omega) (by omega)]
      refine ⟨by omega, by simpa using hfit2, ?_⟩
      simp only [Bool.false_eq_true, if_false, List.append_nil, List.all_append, hev,
        all_accOk_ledFeedback, List.all_cons, List.all_nil, accOk, hlen, sizeT,
        Bool.and_true, Bool.true_and, Bool.and_eq_true, decide_eq_true_eq]
      omega
    · have hfl : s.resPtr + (radio s.sends).rlen + 4 > 64 := by
        simpa [flushNeeded] using hf
      have hnn : 0 ≤ packetRlen c (charVal sc (radio s.sends).status) (radio s.sends).rlen := by
        rcases hcs with e | e <;> rw [e] <;> omega
      have hle : packetRlen c (charVal sc (radio s.sends).status) (radio s.sends).rlen ≤ 32 := by
        rcases hcs with e | e <;> rw [e] <;> omega
      rw [charVal_eq sc _ (by simp only [if_true]; omega) (by simp only [if_true]; omega)]
      refine ⟨by simp only [if_true]; omega, by simp only [if_true]; omega, ?_⟩
      simp only [if_true, List.all_append, hev, all_accOk_ledFeedback, List.all_cons,
        List.all_nil, accOk, hlen, sizeT, slice_length, Bool.and_true, Bool.true_and,
        Bool.and_eq_true, decide_eq_true_eq]
      omega

/-- The final flush of `cmdRun` arms the IN endpoint with between 1 and 64
bytes. -/
theorem cmdFinish_accOk (s : CmdState)
    (hinv : 0 ≤ s.resPtr ∧ s.resPtr ≤ 64 ∧ s.events.all accOk = true) :
    (cmdFinish s).events.all accOk = true := by
  obtain ⟨hr0, hr64, hev⟩ := hinv
  unfold cmdFinish
  split
  · simp only [List.all_append, hev, List.all_cons, List.all_nil, accOk, slice_length, sizeT,
      Bool.and_true, Bool.true_and, decide_eq_true_eq]
    omega
  · exact hev

/-- The trace of `cmdRun` is the trace of the loop followed by the final
flush. -/
theorem cmdRun_trace (c : Consts) (sc : Bool) (radio : Nat → SendResult) (o : Out1) (g : State)
    (hfree : o.busy = false) (hcarrier : g.contCarrier = false) :
    (cmdRun c sc radio o g).2 =
      (cmdFinish (cmdLoop c sc radio (memcpy g.tbuffer o.buf (fetchTlen sc o.bc))
        (fetchTlen sc o.bc) (fetchTlen sc o.bc).toNat (cmdInit g))).events := by
  simp [cmdRun, hfree, hcarrier, cmdRest]

/-- C15, counterexample: two PACKET sub-commands, the first acknowledged with 32
ack bytes, the second failed while the driver leaves the length 32 in `rlen`.
At the second PACKET `resPtr` is 36 and the record to append is the 4 bytes
`[0, id, 0, 0]`, which fit (36 + 4 ≤ 64); yet the accumulator is flushed first
(a 36-byte IN packet) and the record is stored at offset 0. -/
theorem cmdRun_flushes_before_short_record :
    in1Counts (cmdTrace true staleLenRadio [0x00, 0x01, 0x01, 0x09, 0x00, 0x02, 0x01, 0x09])
        = [36, 4] ∧
      storeSpans (cmdTrace true staleLenRadio [0x00, 0x01, 0x01, 0x09, 0x00, 0x02, 0x01, 0x09])
        = [(0, 36), (0, 4)] ∧
      in1Counts (cmdTrace false staleLenRadio [0x00, 0x01, 0x01, 0x09, 0x00, 0x02, 0x01, 0x09])
        = [36, 4] := by
  decide

/-- C15, amended: for every structured-mode transfer, when every ack payload
length the radio driver leaves in `rlen` is between 0 and 32: every store into
the accumulator lies within its 64 bytes (so `resPtr`, which is the end of the
last store or 0, never exceeds 64), every packet written to USB IN is armed
with between 1 and 64 bytes, all of them written; and at a well-formed PACKET
the accumulator is flushed exactly when `resPtr + 4 +` the length left by the
driver exceeds 64, a test made before that length is replaced by 0 for a send
without `BIT_TX_DS` (whose record is 4 bytes long). -/
theorem cmdRun_accumulator_in_bounds (c : Consts) (sc : Bool) (radio : Nat → SendResult)
    (o : Out1) (g : State) (hfree : o.busy = false) (hcarrier : g.contCarrier = false)
    (hr : ∀ n, 0 ≤ (radio n).rlen ∧ (radio n).rlen ≤ 32) :
    (∀ off bytes, Event.rbufStore off bytes ∈ (cmdRun c sc radio o g).2 →
        0 ≤ off ∧ off + (bytes.length : Int) ≤ 64) ∧
      (∀ bc buf, Event.usbIn1 bc buf ∈ (cmdRun c sc radio o g).2 →
        1 ≤ bc ∧ bc ≤ 64 ∧ (buf.length : Int) = bc) ∧
      (∀ (tbuffer : Mem) (tlen : Int) (s : CmdState), 0 ≤ s.cmdPtr → tlen ≤ 64 →
        toByte (tbuffer s.cmdPtr) = c.CMD_PACKET → 3 ≤ tlen - (s.cmdPtr + 1) →
        s.cmdPtr + 3 + toByte (tbuffer (s.cmdPtr + 2)) ≤ tlen →
        (cmdStep c sc radio tbuffer tlen s).events =
          s.events ++
            [Event.tbufRead s.cmdPtr, Event.tbufRead (s.cmdPtr + 1),
             Event.tbufRead (s.cmdPtr + 2),
             Event.radioSendPacket (s.cmdPtr + 3) (toByte (tbuffer (s.cmdPtr + 2)))
               (slice tbuffer (s.cmdPtr + 3) (toByte (tbuffer (s.cmdPtr + 2))))] ++
            ledFeedback (charVal sc (radio s.sends).status) ++
            (if 64 < s.resPtr + (radio s.sends).rlen + 4 then
               [Event.usbIn1 s.resPtr (slice s.rbuffer 0 (sizeT s.resPtr))] else []) ++
            [Event.rbufStore (if 64 < s.resPtr + (radio s.sends).rlen + 4 then 0 else s.resPtr)
              (packetRecord c sc (toByte (tbuffer (s.cmdPtr + 1))) (radio s.sends))]) := by
  have h64 := fetchTlen_le sc o.bc
  have hinv := cmdLoop_induct c sc radio (memcpy g.tbuffer o.buf (fetchTlen sc o.bc))
    (fetchTlen sc o.bc) h64
    (fun s => 0 ≤ s.resPtr ∧ s.resPtr ≤ 64 ∧ s.events.all accOk = true)
    (fun s h0 hlt hp => cmdStep_accOk c sc radio _ _ hr s h0 hlt h64 hp)
    (fetchTlen sc o.bc).toNat (cmdInit g) (le_refl _) ⟨le_refl _, by simp [cmdInit], rfl⟩
  have hall := cmdFinish_accOk _ hinv
  rw [← cmdRun_trace c sc radio o g hfree hcarrier, List.all_eq_true] at hall
  refine ⟨?_, ?_, ?_⟩
  · intro off bytes hmem
    simpa [accOk] using hall _ hmem
  · intro bc buf hmem
    simpa [accOk] using hall _ hmem
  · intro tbuffer tlen s h0 ht hcmd hhdr hfit
    obtain ⟨hl0, hl32⟩ := hr s.sends
    have hrl : charVal sc (radio s.sends).rlen = (radio s.sends).rlen :=
      charVal_eq sc _ hl0 (by omega)
    rw [cmdStep_packet_ok c sc radio tbuffer tlen s h0 ht hcmd hhdr hfit]
    simp only [hrl, flushNeeded, gt_iff_lt, decide_eq_true_eq]

/-- C15, amended, at the transfer `[CMD_PACKET, 0x05, 0x02, 0xAA, 0xBB]` with a
radio that acknowledges with two bytes: the stores are in bounds. -/
theorem cmdRun_accumulator_in_bounds_witness :
    Event.rbufStore 0 [0, 5, 51, 2, 9, 8] ∈
        (cmdRun crazyradio true ackRadio (out1Of [0x00, 0x05, 0x02, 0xAA, 0xBB])
          (initState crazyradio)).2 ∧
      (0 ≤ (0 : Int) ∧ (0 : Int) + ((([0, 5, 51, 2, 9, 8] : List Int).length : Nat) : Int) ≤ 64) :=
  ⟨by decide,
   (cmdRun_accumulator_in_bounds crazyradio true ackRadio
      (out1Of [0x00, 0x05, 0x02, 0xAA, 0xBB]) (initState crazyradio) rfl rfl
      (fun _ => by simp [ackRadio])).1 0 [0, 5, 51, 2, 9, 8] (by decide)⟩

/-- C18 at the transfer `[CMD_PACKET, 0x05, 0x02, 0xAA, 0xBB]`. -/
theorem cmdRun_reads_inside_transfer_witness :
    (2 : Int) ∈ readIndices (cmdRun crazyradio true ackRadio
        (out1Of [0x00, 0x05, 0x02, 0xAA, 0xBB]) (initState crazyradio)).2 ∧
      (0 ≤ (2 : Int) ∧ (2 : Int) < fetchTlen true (out1Of [0x00, 0x05, 0x02, 0xAA, 0xBB]).bc) :=
  ⟨by decide,
   (cmdRun_reads_inside_transfer crazyradio true ackRadio
      (out1Of [0x00, 0x05, 0x02, 0xAA, 0xBB]) (initState crazyradio) rfl rfl).1 2 (by decide)⟩

/-! ## The stream of result records -/

theorem slice_getElem? (m : Mem) (off len : Int) (k : Nat) :
    (slice m off len)[k]? = if k < len.toNat then some (m (off + (k : Int))) else none := by
  simp only [slice, List.getElem?_map]
  by_cases hk : k < len.toNat
  · simp [hk, List.getElem?_range hk]
  · simp [hk, List.getElem?_eq_none (by simpa using hk : (List.range len.toNat).length ≤ k)]

/-- Storing a record right after the first `off` bytes of a buffer. -/
theorem slice_storeAt_append (m : Mem) (off : Int) (bs : List Int) (h0 : 0 ≤ off) :
    slice (storeAt m off bs) 0 (off + (bs.length : Int)) = slice m 0 off ++ bs := by
  apply List.ext_getElem?
  intro k
  rw [slice_getElem?, List.getElem?_append, slice_length, slice_getElem?]
  by_cases hk : k < off.toNat
  · have h1 : k < (off + (bs.length : Int)).toNat := by omega
    simp only [hk, h1, if_true, storeAt, zero_add]
    rw [if_neg (by omega)]
  · simp only [hk, if_false]
    by_cases h2 : k < (off + (bs.length : Int)).toNat
    · have e : ((0 : Int) + (k : Int) - off).toNat = k - off.toNat := by omega
      simp only [h2, if_true, storeAt]
      rw [if_pos (by omega), e, List.getD_eq_getElem?_getD,
        List.getElem?_eq_getElem (by omega)]
      rfl
    · simp only [h2, if_false]
      exact (List.getElem?_eq_none (by omega)).symm

theorem records_append (a b : List Event) : records (a ++ b) = records a ++ records b := by
  induction a with
  | nil => rfl
  | cons e rest ih => cases e <;> simp [records, ih]

theorem in1Packets_append (a b : List Event) :
    in1Packets (a ++ b) = in1Packets a ++ in1Packets b := by
  induction a with
  | nil => rfl
  | cons e rest ih => cases e <;> simp [in1Packets, ih]

theorem resultPackets_append (c : Consts) (a b : List Event) :
    resultPackets c (a ++ b) = resultPackets c a ++ resultPackets c b := by
  simp [resultPackets, in1Packets_append]

theorem errorPackets_append (c : Consts) (a b : List Event) :
    errorPackets c (a ++ b) = errorPackets c a ++ errorPackets c b := by
  simp [errorPackets, in1Packets_append]

theorem records_reads (reads : List Int) : records (reads.map Event.tbufRead) = [] := by
  induction reads with
  | nil => rfl
  | cons i rest ih => simp [records, ih]

theorem in1Packets_reads (reads : List Int) : in1Packets (reads.map Event.tbufRead) = [] := by
  induction reads with
  | nil => rfl
  | cons i rest ih => simp [in1Packets, ih]

theorem records_ledFeedback (status : Int) : records (ledFeedback status) = [] := by
  unfold ledFeedback
  split <;> rfl

theorem in1Packets_ledFeedback (status : Int) : in1Packets (ledFeedback status) = [] := by
  unfold ledFeedback
  split <;> rfl

/-- A packet written by `sendError` is an error packet. -/
theorem isErrorPacket_sendError (c : Consts) (code param pos : Int) :
    in1Packets [sendError c code param pos] =
        [[toByte c.CMD_ERROR, toByte code, toByte param, toByte pos]] ∧
      isErrorPacket c [toByte c.CMD_ERROR, toByte code, toByte param, toByte pos] = true := by
  simp [sendError, in1Packets, isErrorPacket]

/-- A non-empty run of records, each beginning with the reserved byte 0, is not
an error packet when `CMD_ERROR` is not the byte 0. -/
theorem isErrorPacket_records (c : Consts) (hE : toByte c.CMD_ERROR ≠ 0)
    (cur : List (List Int)) (hne : cur ≠ []) (hz : ∀ r ∈ cur, r.head? = some 0) :
    isErrorPacket c cur.flatten = false := by
  cases cur with
  | nil => exact absurd rfl hne
  | cons r rest =>
    have hr := hz r (List.mem_cons_self _ _)
    cases r with
    | nil => simp at hr
    | cons b bs =>
      simp only [List.head?_cons, Option.some.injEq] at hr
      subst hr
      simp only [isErrorPacket, List.flatten_cons, List.cons_append, List.head?_cons,
        beq_eq_false_iff_ne, ne_eq, Option.some.injEq]
      exact fun h => hE h.symm

theorem packetRecord_head (c : Consts) (sc : Bool) (id : Int) (res : SendResult) :
    (packetRecord c sc id res).head? = some 0 := by
  simp [packetRecord]

/-- With ack lengths between 0 and 32 and `CMD_ERROR` different from the byte 0,
every iteration of the loop of `cmdRun` keeps the records and the result packets
linked as `Grouped` says. -/
theorem cmdStep_grouped (c : Consts) (sc : Bool) (radio : Nat → SendResult) (tbuffer : Mem)
    (tlen : Int) (hr : ∀ n, 0 ≤ (radio n).rlen ∧ (radio n).rlen ≤ 32)
    (hE : toByte c.CMD_ERROR ≠ 0) (s : CmdState)
    (h0 : 0 ≤ s.cmdPtr) (hlt : s.cmdPtr < tlen) (h64 : tlen ≤ 64) (hinv : Grouped c s) :
    Grouped c (cmdStep c sc radio tbuffer tlen s) := by
  obtain ⟨groups, cur, hpk, hrec, hcur, hne, hz, hr0, hr64⟩ := hinv
  rcases cmdStep_cases c sc radio tbuffer tlen s h0 hlt h64 with
    ⟨reads, code, param, pos, next, _, he⟩ | ⟨fn, hp, he⟩ | ⟨hcmd, hhdr, hfit⟩
  · rw [he]
    refine ⟨groups, cur, ?_, ?_, hcur, hne, hz, hr0, hr64⟩
    · have e1 : resultPackets c (reads.map Event.tbufRead) = [] := by
        simp [resultPackets, in1Packets_reads]
      have e2 : resultPackets c [sendError c code param pos] = [] := by
        simp [resultPackets, (isErrorPacket_sendError c code param pos).1,
          (isErrorPacket_sendError c code param pos).2]
      simp only [resultPackets_append, e1, e2, List.append_nil]
      exact hpk
    · have e2 : records [sendError c code param pos] = [] := rfl
      simp only [records_append, records_reads, e2, List.append_nil]
      exact hrec
  · rw [he]
    refine ⟨groups, cur, ?_, ?_, hcur, hne, hz, hr0, hr64⟩
    · simp only [resultPackets_append]
      simpa [resultPackets, in1Packets] using hpk
    · simp only [records_append]
      simpa [records] using hrec
  · obtain ⟨hl0, hl32⟩ := hr s.sends
    have hrl : charVal sc (radio s.sends).rlen = (radio s.sends).rlen :=
      charVal_eq sc _ hl0 (by omega)
    have hcs := packetRlen_cases c (charVal sc (radio s.sends).status) (radio s.sends).rlen
    have hnn : 0 ≤ packetRlen c (charVal sc (radio s.sends).status) (radio s.sends).rlen := by
      rcases hcs with e | e <;> rw [e] <;> omega
    have hle : packetRlen c (charVal sc (radio s.sends).status) (radio s.sends).rlen ≤
        (radio s.sends).rlen := by
      rcases hcs with e | e <;> rw [e] <;> omega
    have hlen : ((packetRecord c sc (toByte (tbuffer (s.cmdPtr + 1)))
        (radio s.sends)).length : Int) =
        packetRlen c (charVal sc (radio s.sends).status) (radio s.sends).rlen + 4 := by
      rw [packetRecord_length, hrl]
      simp only [sizeT]
      omega
    have hhead := packetRecord_head c sc (toByte (tbuffer (s.cmdPtr + 1))) (radio s.sends)
    have e4 : resultPackets c
        [Event.tbufRead s.cmdPtr, Event.tbufRead (s.cmdPtr + 1), Event.tbufRead (s.cmdPtr + 2),
         Event.radioSendPacket (s.cmdPtr + 3) (toByte (tbuffer (s.cmdPtr + 2)))
           (slice tbuffer (s.cmdPtr + 3) (toByte (tbuffer (s.cmdPtr + 2))))] = [] := rfl
    have r4 : records
        [Event.tbufRead s.cmdPtr, Event.tbufRead (s.cmdPtr + 1), Event.tbufRead (s.cmdPtr + 2),
         Event.radioSendPacket (s.cmdPtr + 3) (toByte (tbuffer (s.cmdPtr + 2)))
           (slice tbuffer (s.cmdPtr + 3) (toByte (tbuffer (s.cmdPtr + 2))))] = [] := rfl
    have eled : resultPackets c (ledFeedback (charVal sc (radio s.sends).status)) = [] := by
      simp [resultPackets, in1Packets_ledFeedback]
    rw [cmdStep_packet_ok c sc radio tbuffer tlen s h0 h64 hcmd hhdr hfit]
    simp only [hrl]
    cases hf : flushNeeded s.resPtr (radio s.sends).rlen
    · have hnf : ¬ (s.resPtr + (radio s.sends).rlen + 4 > 64) := by
        simpa [flushNeeded] using hf
      refine ⟨groups, cur ++ [packetRecord c sc (toByte (tbuffer (s.cmdPtr + 1)))
        (radio s.sends)], ?_, ?_, ?_, hne, ?_, ?_, ?_⟩
      · simp only [Bool.false_eq_true, if_false, resultPackets_append, e4, eled,
          List.append_nil]
        simpa [resultPackets, in1Packets] using hpk
      · have rst : records [Event.rbufStore s.resPtr (packetRecord c sc
            (toByte (tbuffer (s.cmdPtr + 1))) (radio s.sends))] =
            [packetRecord c sc (toByte (tbuffer (s.cmdPtr + 1))) (radio s.sends)] := rfl
        have rnil : records ([] : List Event) = [] := rfl
        simp only [Bool.false_eq_true, if_false, records_append, r4, records_ledFeedback,
          List.append_nil, rst, rnil]
        rw [← hrec, List.append_assoc]
      · simp only [Bool.false_eq_true, if_false]
        rw [charVal_eq sc _ (by omega) (by omega)]
        have e : s.resPtr + (packetRlen c (charVal sc (radio s.sends).status)
            (radio s.sends).rlen + 4) = s.resPtr +
            ((packetRecord c sc (toByte (tbuffer (s.cmdPtr + 1))) (radio s.sends)).length
              : Int) := by
          omega
        rw [e, slice_storeAt_append _ _ _ hr0, ← hcur]
        simp
      · intro r hmem
        rcases List.mem_append.mp hmem with h | h
        · exact hz r h
        · rw [List.mem_singleton.mp h]
          exact hhead
      · simp only [Bool.false_eq_true, if_false]
        rw [charVal_eq sc _ (by omega) (by omega)]
        omega
      · simp only [Bool.false_eq_true, if_false]
        rw [charVal_eq sc _ (by omega) (by omega)]
        omega
    · have hfl : s.resPtr + (radio s.sends).rlen + 4 > 64 := by
        simpa [flushNeeded] using hf
      have hsz : sizeT s.resPtr = s.resPtr := by
        simp only [sizeT]
        omega
      have hcne : cur ≠ [] := by
        intro hnil
        have hl := congrArg List.length hcur
        rw [hnil, slice_length] at hl
        simp only [List.flatten_nil, List.length_nil] at hl
        omega
      have herr : isErrorPacket c (slice s.rbuffer 0 s.resPtr) = false := by
        rw [← hcur]
        exact isErrorPacket_records c hE cur hcne hz
      refine ⟨groups ++ [cur], [packetRecord c sc (toByte (tbuffer (s.cmdPtr + 1)))
        (radio s.sends)], ?_, ?_, ?_, ?_, ?_, ?_, ?_⟩
      · simp only [if_true, resultPackets_append, e4, eled, List.append_nil, hsz]
        simp only [resultPackets, in1Packets, List.filter_cons, herr, Bool.not_false,
          if_true, List.filter_nil, List.append_nil, List.map_append, List.map_cons,
          List.map_nil]
        rw [← hcur]
        have := hpk
        simp only [resultPackets] at this
        rw [this]
      · have rst : records [Event.rbufStore 0 (packetRecord c sc
            (toByte (tbuffer (s.cmdPtr + 1))) (radio s.sends))] =
            [packetRecord c sc (toByte (tbuffer (s.cmdPtr + 1))) (radio s.sends)] := rfl
        have rfl1 : records [Event.usbIn1 s.resPtr (slice s.rbuffer 0 (sizeT s.resPtr))] =
            [] := rfl
        simp only [if_true, records_append, r4, records_ledFeedback, List.append_nil, rst,
          rfl1]
        rw [← hrec]
        simp
      · simp only [if_true]
        rw [charVal_eq sc _ (by omega) (by omega)]
        have e : (0 : Int) + (packetRlen c (charVal sc (radio s.sends).status)
            (radio s.sends).rlen + 4) = 0 +
            ((packetRecord c sc (toByte (tbuffer (s.cmdPtr + 1))) (radio s.sends)).length
              : Int) := by
          omega
        rw [e, slice_storeAt_append _ _ _ (le_refl _)]
        simp [slice]
      · intro g hg
        rcases List.mem_append.mp hg with h | h
        · exact hne g h
        · rw [List.mem_singleton.mp h]
          exact hcne
      · intro r hmem
        rw [List.mem_singleton.mp hmem]
        exact hhead
      · simp only [if_true]
        rw [charVal_eq sc _ (by omega) (by omega)]
        omega
      · simp only [if_true]
        rw [charVal_eq sc _ (by omega) (by omega)]
        omega

/-- The records not yet flushed are none exactly when `resPtr` is 0. -/
theorem cur_nil_iff (cur : List (List Int)) (m : Mem) (r : Int) (h0 : 0 ≤ r)
    (hcur : cur.flatten = slice m 0 r) (hz : ∀ x ∈ cur, x.head? = some 0) :
    cur = [] ↔ r = 0 := by
  constructor
  · intro hnil
    have hl := congrArg List.length hcur
    rw [hnil, slice_length] at hl
    simp only [List.flatten_nil, List.length_nil] at hl
    omega
  · intro hr
    cases cur with
    | nil => rfl
    | cons x rest =>
      exfalso
      have hx := hz x (List.mem_cons_self _ _)
      have hl := congrArg List.length hcur
      rw [hr, slice_length] at hl
      cases x with
      | nil => simp at hx
      | cons a t => simp at hl

/-- The loop of `cmdRun` starts with nothing stored and nothing written. -/
theorem grouped_init (c : Consts) (g : State) : Grouped c (cmdInit g) :=
  ⟨[], [], rfl, rfl, rfl, by simp, by simp, le_refl _, by simp [cmdInit]⟩

/-- The state in which the loop of `cmdRun` ends satisfies `Grouped`. -/
theorem cmdLoop_grouped (c : Consts) (sc : Bool) (radio : Nat → SendResult) (tbuffer : Mem)
    (tlen : Int) (h64 : tlen ≤ 64) (hr : ∀ n, 0 ≤ (radio n).rlen ∧ (radio n).rlen ≤ 32)
    (hE : toByte c.CMD_ERROR ≠ 0) (fuel : Nat) (g : State) :
    Grouped c (cmdLoop c sc radio tbuffer tlen fuel (cmdInit g)) :=
  cmdLoop_induct c sc radio tbuffer tlen h64 (Grouped c)
    (fun s h0 hlt hp => cmdStep_grouped c sc radio tbuffer tlen hr hE s h0 hlt h64 hp)
    fuel (cmdInit g) (le_refl _) (grouped_init c g)

/-- The final flush turns the records still in the accumulator into one more
result packet, if there are any. -/
theorem grouped_finish (c : Consts) (hE : toByte c.CMD_ERROR ≠ 0) (s : CmdState)
    (hinv : Grouped c s) :
    ∃ groups : List (List (List Int)),
      groups.map List.flatten = resultPackets c (cmdFinish s).events ∧
      groups.flatten = records (cmdFinish s).events ∧
      (∀ g ∈ groups, g ≠ []) := by
  obtain ⟨groups, cur, hpk, hrec, hcur, hne, hz, hr0, hr64⟩ := hinv
  have hiff := cur_nil_iff cur s.rbuffer s.resPtr hr0 hcur hz
  by_cases h : s.resPtr = 0
  · have hc := hiff.mpr h
    rw [hc, List.append_nil] at hrec
    refine ⟨groups, ?_, ?_, hne⟩
    · simpa [cmdFinish, h] using hpk
    · simpa [cmdFinish, h] using hrec
  · have hcne : cur ≠ [] := fun e => h (hiff.mp e)
    have hsz : sizeT s.resPtr = s.resPtr := by
      simp only [sizeT]
      omega
    have herr : isErrorPacket c (slice s.rbuffer 0 s.resPtr) = false := by
      rw [← hcur]
      exact isErrorPacket_records c hE cur hcne hz
    have hev : (cmdFinish s).events =
        s.events ++ [Event.usbIn1 s.resPtr (slice s.rbuffer 0 s.resPtr)] := by
      simp [cmdFinish, h, hsz]
    have e1 : resultPackets c [Event.usbIn1 s.resPtr (slice s.rbuffer 0 s.resPtr)] =
        [slice s.rbuffer 0 s.resPtr] := by
      simp [resultPackets, in1Packets, herr]
    have e2 : records [Event.usbIn1 s.resPtr (slice s.rbuffer 0 s.resPtr)] = [] := rfl
    refine ⟨groups ++ [cur], ?_, ?_, ?_⟩
    · rw [hev, resultPackets_append, e1, ← hpk, ← hcur]
      simp
    · rw [hev, records_append, e2, List.append_nil, ← hrec]
      simp
    · intro g hg
      rcases List.mem_append.mp hg with h1 | h1
      · exact hne g h1
      · rw [List.mem_singleton.mp h1]
        exact hcne

/-- The result records of one call of `cmdRun`, in the order of their
sub-commands, cut into consecutive non-empty groups, are exactly the IN packets
of the call that are not error records: each packet is the concatenation of
the records of one group. -/
theorem cmdRun_result_stream (c : Consts) (sc : Bool) (radio : Nat → SendResult)
    (o : Out1) (g : State) (hfree : o.busy = false) (hcarrier : g.contCarrier = false)
    (hr : ∀ n, 0 ≤ (radio n).rlen ∧ (radio n).rlen ≤ 32) (hE : toByte c.CMD_ERROR ≠ 0) :
    ∃ groups : List (List (List Int)),
      groups.map List.flatten = resultPackets c (cmdRun c sc radio o g).2 ∧
      groups.flatten = records (cmdRun c sc radio o g).2 ∧
      (∀ x ∈ groups, x ≠ []) := by
  rw [cmdRun_trace c sc radio o g hfree hcarrier]
  exact grouped_finish c hE _
    (cmdLoop_grouped c sc radio _ _ (fetchTlen_le sc o.bc) hr hE _ g)

/-- Without error packets, the result packets are all the IN packets. -/
theorem resultPackets_eq_of_no_error (c : Consts) (evs : List Event)
    (h : errorPackets c evs = []) : resultPackets c evs = in1Packets evs := by
  unfold resultPackets
  unfold errorPackets at h
  rw [List.filter_eq_self]
  intro a ha
  have := List.filter_eq_nil_iff.mp h a ha
  simpa using this

/-- Cutting a list of records into groups and concatenating each group does not
change the concatenation of all records. -/
theorem flatten_map_flatten (groups : List (List (List Int))) :
    (groups.map List.flatten).flatten = groups.flatten.flatten := by
  induction groups with
  | nil => rfl
  | cons x rest ih => simp [ih]

/-! ## C16 and C20: the result records and the IN packets -/

/-- C16: for every structured-mode transfer whose call of `cmdRun` writes no
error record (no IN packet beginning with `CMD_ERROR`, a byte different from
the first byte 0 of a result record), with radio ack payload lengths between 0
and 32: the IN packets are, in order, the concatenations of consecutive
non-empty groups of the PACKET result records taken in sub-command order, so
every record lies wholly inside one IN packet and the concatenation of the IN
packets equals the concatenation of the records; and in the state `s` in which
the loop ends, the final flush is written exactly when `resPtr` is not 0, which
is exactly when some record stored since the last flush is still in the
accumulator, and the flushed packet holds exactly those records. -/
theorem cmdRun_packets_are_grouped_records (c : Consts) (sc : Bool)
    (radio : Nat → SendResult) (o : Out1) (g : State)
    (hfree : o.busy = false) (hcarrier : g.contCarrier = false)
    (hr : ∀ n, 0 ≤ (radio n).rlen ∧ (radio n).rlen ≤ 32) (hE : toByte c.CMD_ERROR ≠ 0)
    (hno : errorPackets c (cmdRun c sc radio o g).2 = []) :
    (∃ groups : List (List (List Int)),
      groups.map List.flatten = in1Packets (cmdRun c sc radio o g).2 ∧
      groups.flatten = records (cmdRun c sc radio o g).2 ∧
      (∀ x ∈ groups, x ≠ [])) ∧
    (in1Packets (cmdRun c sc radio o g).2).flatten =
      (records (cmdRun c sc radio o g).2).flatten ∧
    (∀ s : CmdState,
      s = cmdLoop c sc radio (memcpy g.tbuffer o.buf (fetchTlen sc o.bc))
        (fetchTlen sc o.bc) (fetchTlen sc o.bc).toNat (cmdInit g) →
      (cmdRun c sc radio o g).2 =
        s.events ++ (if s.resPtr ≠ 0 then
          [Event.usbIn1 s.resPtr (slice s.rbuffer 0 s.resPtr)] else []) ∧
      ∃ (groups : List (List (List Int))) (cur : List (List Int)),
        groups.map List.flatten = in1Packets s.events ∧
        groups.flatten ++ cur = records s.events ∧
        cur.flatten = slice s.rbuffer 0 s.resPtr ∧
        (cur = [] ↔ s.resPtr = 0)) := by
  obtain ⟨groups, h1, h2, h3⟩ := cmdRun_result_stream c sc radio o g hfree hcarrier hr hE
  rw [resultPackets_eq_of_no_error c _ hno] at h1
  refine ⟨⟨groups, h1, h2, h3⟩, ?_, ?_⟩
  · rw [← h1, ← h2]
    exact flatten_map_flatten groups
  · intro s hs
    have hinv : Grouped c s := by
      rw [hs]
      exact cmdLoop_grouped c sc radio _ _ (fetchTlen_le sc o.bc) hr hE _ g
    obtain ⟨gs, cur, hpk, hrec, hcur, hne, hz, hr0, hr64⟩ := hinv
    have hsz : sizeT s.resPtr = s.resPtr := by
      simp only [sizeT]
      omega
    have hT : (cmdRun c sc radio o g).2 =
        s.events ++ (if s.resPtr ≠ 0 then
          [Event.usbIn1 s.resPtr (slice s.rbuffer 0 s.resPtr)] else []) := by
      rw [cmdRun_trace c sc radio o g hfree hcarrier, ← hs]
      by_cases h : s.resPtr = 0
      · simp [cmdFinish, h]
      · simp [cmdFinish, h, hsz]
    refine ⟨hT, gs, cur, ?_, hrec, hcur, cur_nil_iff cur s.rbuffer s.resPtr hr0 hcur hz⟩
    have hno2 : errorPackets c s.events = [] := by
      rw [hT, errorPackets_append] at hno
      exact (List.append_eq_nil.mp hno).1
    rw [hpk]
    exact resultPackets_eq_of_no_error c _ hno2

/-- C16 at the transfer `[CMD_PACKET, 0x05, 0x02, 0xAA, 0xBB]` with a radio that
acknowledges with two bytes: the one IN packet is the one result record. -/
theorem cmdRun_packets_are_grouped_records_witness :
    (in1Packets (cmdRun crazyradio true ackRadio (out1Of [0x00, 0x05, 0x02, 0xAA, 0xBB])
        (initState crazyradio)).2).flatten =
      (records (cmdRun crazyradio true ackRadio (out1Of [0x00, 0x05, 0x02, 0xAA, 0xBB])
        (initState crazyradio)).2).flatten :=
  (cmdRun_packets_are_grouped_records crazyradio true ackRadio
    (out1Of [0x00, 0x05, 0x02, 0xAA, 0xBB]) (initState crazyradio) rfl rfl
    (fun _ => by simp [ackRadio]) (by decide) (by decide)).2.1

/-- C20, counterexample: the transfer `[CMD_PACKET, 0x05, 0x01, 0x09, 0x77]` is
a PACKET sub-command at offset 0 followed by the unknown command byte 0x77 at
offset 4.  The result record of the PACKET is stored in the accumulator; the
error record of the later sub-command is written to USB IN first, and the
result record reaches USB IN only with the final flush. -/
theorem cmdRun_error_overtakes_result :
    (cmdTrace true ackRadio [0x00, 0x05, 0x01, 0x09, 0x77]).drop 8 =
        [Event.rbufStore 0 [0, 5, 51, 2, 9, 8], Event.tbufRead 4,
         Event.usbIn1 4 [255, 0, 119, 5], Event.usbIn1 6 [0, 5, 51, 2, 9, 8]] ∧
      in1Packets (cmdTrace true ackRadio [0x00, 0x05, 0x01, 0x09, 0x77]) =
        [[255, 0, 119, 5], [0, 5, 51, 2, 9, 8]] ∧
      in1Packets (cmdTrace false ackRadio [0x00, 0x05, 0x01, 0x09, 0x77]) =
        [[255, 0, 119, 5], [0, 5, 51, 2, 9, 8]] := by
  decide

/-- C20, amended: for every structured-mode transfer, error sub-commands
included, with radio ack payload lengths between 0 and 32 and `CMD_ERROR`
different from the first byte 0 of a result record: the PACKET result records
reach the host in the order of the sub-commands that produced them.  The IN
packets that are not error records are, in order, the concatenations of
consecutive non-empty groups of the result records, so their concatenation is
the concatenation of the records; the error records are the other IN packets,
written apart from this stream. -/
theorem cmdRun_result_records_in_order (c : Consts) (sc : Bool)
    (radio : Nat → SendResult) (o : Out1) (g : State)
    (hfree : o.busy = false) (hcarrier : g.contCarrier = false)
    (hr : ∀ n, 0 ≤ (radio n).rlen ∧ (radio n).rlen ≤ 32) (hE : toByte c.CMD_ERROR ≠ 0) :
    (∃ groups : List (List (List Int)),
      groups.map List.flatten = resultPackets c (cmdRun c sc radio o g).2 ∧
      groups.flatten = records (cmdRun c sc radio o g).2 ∧
      (∀ x ∈ groups, x ≠ [])) ∧
    (resultPackets c (cmdRun c sc radio o g).2).flatten =
      (records (cmdRun c sc radio o g).2).flatten := by
  obtain ⟨groups, h1, h2, h3⟩ := cmdRun_result_stream c sc radio o g hfree hcarrier hr hE
  refine ⟨⟨groups, h1, h2, h3⟩, ?_⟩
  rw [← h1, ← h2]
  exact flatten_map_flatten groups

/-- C20, amended, at the transfer of the counterexample: the one packet that is
not an error record is the one result record. -/
theorem cmdRun_result_records_in_order_witness :
    (resultPackets crazyradio (cmdRun crazyradio true ackRadio
        (out1Of [0x00, 0x05, 0x01, 0x09, 0x77]) (initState crazyradio)).2).flatten =
      (records (cmdRun crazyradio true ackRadio
        (out1Of [0x00, 0x05, 0x01, 0x09, 0x77]) (initState crazyradio)).2).flatten :=
  (cmdRun_result_records_in_order crazyradio true ackRadio
    (out1Of [0x00, 0x05, 0x01, 0x09, 0x77]) (initState crazyradio) rfl rfl
    (fun _ => by simp [ackRadio]) (by decide)).2

end Crazyradio
